import Mathlib

/-!
# raindrop-cli: the authentication subsystem

A shallow embedding of `internal/auth` (keyring.go, token.go, oauth.go) and of the
client of `internal/api` (client.go), and theorems about them.

Conventions of the embedding
* Go `error` values are the inductive `GoError`; a `nil` error is `none` (or `Except.ok`).
* `time.Time` is an instant (nanoseconds since the zero instant, January 1 of year 1, UTC)
  together with a location; monotonic clock readings are not distinguished from wall time.
* Everything outside the package (the keyring backend, the HTTP token endpoint, the clock,
  standard input, `encoding/json`, `net/url`) is a field of `Env X`, over an arbitrary
  external state `X`.  `World X` pairs that state with the log of the external calls the
  package has made, so that "no backend write" or "exactly one exchange" can be stated.
* Pointer receivers become explicit state passing: every method returns its result together
  with the receiver and the world after the call.
-/

namespace Raindrop

/-! ## Go values -/

/-- Go error values. `sentinel` is a package-level variable made with `errors.New`
(identified by the variable's name), `foreign` a leaf error made elsewhere,
`wrapf pre inner post` is `fmt.Errorf` with one `%w` verb (text before and after it),
`wrap2 a sep b` is `fmt.Errorf("%w<sep>%w", a, b)`. -/
inductive GoError where
  | sentinel (name : String) (text : String)
  | foreign (text : String)
  | wrapf (pre : String) (inner : GoError) (post : String)
  | wrap2 (a : GoError) (sep : String) (b : GoError)
deriving DecidableEq, Repr

/-- The method `Error()`: the rendered message. -/
def GoError.Error : GoError → String
  | .sentinel _ t => t
  | .foreign t => t
  | .wrapf p i q => p ++ i.Error ++ q
  | .wrap2 a s b => a.Error ++ s ++ b.Error

/-- The function `errors.Is(err, target)`: `err` or an error it wraps is `target`
(the targets used by the package are sentinels). -/
def errorsIs : GoError → GoError → Bool
  | .sentinel n t, target => decide (GoError.sentinel n t = target)
  | .foreign t, target => decide (GoError.foreign t = target)
  | .wrapf p i q, target => decide (GoError.wrapf p i q = target) || errorsIs i target
  | .wrap2 a s b, target =>
      decide (GoError.wrap2 a s b = target) || errorsIs a target || errorsIs b target

/-- Locations of a `time.Time` as far as the package distinguishes them. -/
inductive Location where
  | UTC
  | Local
deriving DecidableEq, Repr

/-- A `time.Time`: nanoseconds since the zero instant, and the location. -/
structure Time where
  nanos : Int
  loc : Location
deriving DecidableEq, Repr

/-- The zero value `time.Time{}`. -/
def Time.zero : Time := ⟨0, Location.UTC⟩

/-- The method `IsZero`: the instant is the zero instant (the location is not looked at). -/
def Time.IsZero (t : Time) : Bool := decide (t.nanos = 0)

/-- The method `Before`: `t.Before(u)`. -/
def Time.Before (t u : Time) : Bool := decide (t.nanos < u.nanos)

/-- The method `UTC`: same instant, location UTC. -/
def Time.UTC (t : Time) : Time := { t with loc := Location.UTC }

/-- The method `Add`: `t.Add(d)` for a duration of `d` nanoseconds. -/
def Time.Add (t : Time) (d : Int) : Time := { t with nanos := t.nanos + d }

/-- Two's-complement wrapping of an integer into the range of `int64`. -/
def wrapInt64 (x : Int) : Int := (x + 2 ^ 63) % 2 ^ 64 - 2 ^ 63

/-- The constant `time.Second`, in nanoseconds. -/
def Second : Int := 1000000000

/-- The expression `time.Duration(n) * time.Second`, an `int64` product. -/
def secondsDuration (n : Int) : Int := wrapInt64 (n * Second)

/-! ## strings -/

/-- The predicate `unicode.IsSpace`. -/
def isSpace (c : Char) : Bool :=
  let n := c.toNat
  (decide (0x09 ≤ n) && decide (n ≤ 0x0D)) || n == 0x20 || n == 0x85 || n == 0xA0 ||
  n == 0x1680 || (decide (0x2000 ≤ n) && decide (n ≤ 0x200A)) || n == 0x2028 ||
  n == 0x2029 || n == 0x202F || n == 0x205F || n == 0x3000

/-- Drop trailing white space. -/
def trimRight (l : List Char) : List Char := (l.reverse.dropWhile isSpace).reverse

/-- The function `strings.TrimSpace`. -/
def TrimSpace (s : String) : String := ⟨trimRight (s.data.dropWhile isSpace)⟩

/-- Whether `hay` begins with `needle`. -/
def startsWith : List Char → List Char → Bool
  | [], _ => true
  | _ :: _, [] => false
  | a :: as, b :: bs => a == b && startsWith as bs

/-- Whether `needle` occurs in `hay`. -/
def containsChars (needle : List Char) : List Char → Bool
  | [] => needle.isEmpty
  | c :: cs => startsWith needle (c :: cs) || containsChars needle cs

/-- The function `strings.Contains`. -/
def Contains (s substr : String) : Bool := containsChars substr.data s.data

/-! ## Data model (keyring.go, oauth.go) -/

/-- The persisted token record. -/
structure Token where
  TestToken : String
  RefreshToken : String
  CreatedAt : Time
deriving DecidableEq, Repr

/-- The zero value `Token{}`. -/
def Token.empty : Token := ⟨"", "", Time.zero⟩

/-- The persisted OAuth client credentials. -/
structure OAuthCredentials where
  ClientID : String
  ClientSecret : String
  RedirectURI : String
deriving DecidableEq, Repr

/-- The zero value `OAuthCredentials{}`. -/
def OAuthCredentials.empty : OAuthCredentials := ⟨"", "", ""⟩

/-- The fields of `oauth2.Token` the package uses. -/
structure OAuth2Token where
  AccessToken : String
  TokenType : String
  RefreshToken : String
  Expiry : Time
deriving DecidableEq, Repr

/-- The decoded body of a token-endpoint response. -/
structure tokenResponse where
  AccessToken : String
  RefreshToken : String
  TokenType : String
  ExpiresIn : Int
deriving DecidableEq, Repr

/-- An HTTP response as far as `exchangeToken` reads it. -/
structure HttpResponse where
  StatusCode : Int
  Body : String
deriving DecidableEq, Repr

/-- A parsed URL (`*url.URL`): its path, its port, and the decoded query pairs in order. -/
structure URL where
  Path : String
  Port : String
  Query : List (String × String)
deriving DecidableEq, Repr

/-- The method `url.Values.Get`: the first value of the key, or the empty string. -/
def queryGet : List (String × String) → String → String
  | [], _ => ""
  | (k, v) :: rest, key => if k = key then v else queryGet rest key

def tokenKey : String := "token"

def credentialsKey : String := "oauth_credentials"

def defaultCallbackPort : Int := 8484

def tokenURL : String := "https://raindrop.io/oauth/access_token"

def ErrNoToken : GoError := .sentinel "ErrNoToken" "no token found"

def ErrNoCredentials : GoError := .sentinel "ErrNoCredentials" "no oauth credentials configured"

def errMissingClientID : GoError := .sentinel "errMissingClientID" "missing client id"

def errMissingClientSecret : GoError := .sentinel "errMissingClientSecret" "missing client secret"

def errAuthorization : GoError := .sentinel "errAuthorization" "authorization error"

def errMissingCode : GoError := .sentinel "errMissingCode" "missing code"

def errNoCodeInURL : GoError := .sentinel "errNoCodeInURL" "no code found in URL"

def errNoRefreshToken : GoError := .sentinel "errNoRefreshToken" "no refresh token received"

def errStateMismatch : GoError := .sentinel "errStateMismatch" "state mismatch"

def errTokenExchangeFailed : GoError := .sentinel "errTokenExchangeFailed" "token exchange failed"

/-- The sentinel `keyring.ErrKeyNotFound` of the keyring library. -/
def ErrKeyNotFound : GoError :=
  .sentinel "keyring.ErrKeyNotFound" "The specified item could not be found in the keyring"

/-- Modelled from the spec: the declaration of `ErrNotAuthenticated` is not in the sources
read here (only its uses are); the spec calls it `NotAuthenticated`, "no usable token".
It is a sentinel, identified by its name; its message text is not used by any theorem. -/
def ErrNotAuthenticated : GoError := .sentinel "ErrNotAuthenticated" "not authenticated"

/-- An API request as `Client.do` builds it: method, URL, the `Authorization` header and
the body (`none` for a nil body); the other headers are constants. -/
structure ApiRequest where
  method : String
  url : String
  authorization : String
  body : Option String
deriving DecidableEq, Repr

/-! ## The outside world -/

/-- One call the package makes to the outside. -/
inductive Event where
  | ringGet (key : String)
  | ringSet (key : String) (data : String)
  | ringRemove (key : String)
  | httpPost (url : String) (payload : List (String × String))
  | stderr (text : String)
  | scanln
  | openKeyring
  | listen (addr : String)
  | browser (url : String)
  | serverClose
  | serverShutdown
  | listenerClose
  | apiDo (req : ApiRequest)
deriving DecidableEq, Repr

/-- Everything outside the package, over an external state `X`. -/
structure Env (X : Type) where
  /-- The clock, `time.Now()`. -/
  now : X → Time × X
  /-- The backend, `ring.Get(key)`: the item's data or an error. -/
  ringGet : X → String → Except GoError String × X
  /-- The backend, `ring.Set(keyring.Item{Key, Data})`. -/
  ringSet : X → String → String → Option GoError × X
  /-- The backend, `ring.Remove(key)`. -/
  ringRemove : X → String → Option GoError × X
  /-- One POST of a JSON body to a URL through `http.Client.Do`. -/
  httpPost : X → String → List (String × String) → Except GoError HttpResponse × X
  /-- One line read by `fmt.Scanln(&line)`. -/
  scanln : X → Except GoError String × X
  /-- The call `json.Marshal(tok)`. -/
  marshalToken : Token → Except GoError String
  /-- The call `json.Unmarshal(data, &tok)`. -/
  unmarshalToken : String → Except GoError Token
  /-- The call `json.Marshal(creds)`. -/
  marshalCreds : OAuthCredentials → Except GoError String
  /-- The call `json.Unmarshal(data, &creds)`. -/
  unmarshalCreds : String → Except GoError OAuthCredentials
  /-- Decoding of a response body into `tokenResponse`. -/
  decodeTokenResponse : String → Except GoError tokenResponse
  /-- The function `url.Parse`. -/
  urlParse : String → Except GoError URL
  /-- The method `oauth2.Config.AuthCodeURL` for a redirect URI, client id and state. -/
  authCodeURL : String → String → String → String
  /-- The call `os.Getenv(name)`. -/
  getenv : X → String → String
  /-- The call `openKeyringFunc()` of `OpenDefault`: whether opening the keyring fails. -/
  openKeyring : X → Option GoError × X
  /-- The error, if any, of `http.NewRequestWithContext` for a method and URL. -/
  newRequest : String → String → Option GoError
  /-- One API request through `c.httpClient.Do(req)`. -/
  apiDo : X → ApiRequest → Except GoError HttpResponse × X
  /-- The error, if any, of `json.NewDecoder(resp.Body).Decode(out)` for a body. -/
  decodeOut : String → Option GoError
  /-- The function `http.StatusText`. -/
  statusText : Int → String
  /-- The function `unicode.ToLower` on one rune. -/
  toLowerRune : Char → Char
  /-- The verb `%q` of `fmt`: a string in Go quotes. -/
  quote : String → String
  /-- The method `time.Duration.String` (the verb `%v` of a duration, in nanoseconds). -/
  durationString : Int → String
  /-- The call `(&net.ListenConfig{}).Listen(ctx, "tcp", addr)`: whether it fails. -/
  listen : X → String → Option GoError × X
  /-- The call `openBrowserFn(url)`, whose result is ignored. -/
  openBrowser : X → String → X
  /-- The function `strconv.Atoi`: the integer, or `none` for an error. -/
  atoi : String → Option Int
  /-- The function `strings.EqualFold`. -/
  equalFold : String → String → Bool

/-- The external state and the log of the calls made so far (oldest first). -/
structure World (X : Type) where
  ext : X
  log : List Event

variable {X : Type}

def World.now (E : Env X) (w : World X) : Time × World X :=
  ((E.now w.ext).1, { w with ext := (E.now w.ext).2 })

def World.ringGet (E : Env X) (w : World X) (key : String) : Except GoError String × World X :=
  ((E.ringGet w.ext key).1, ⟨(E.ringGet w.ext key).2, w.log ++ [Event.ringGet key]⟩)

def World.ringSet (E : Env X) (w : World X) (key data : String) : Option GoError × World X :=
  ((E.ringSet w.ext key data).1, ⟨(E.ringSet w.ext key data).2, w.log ++ [Event.ringSet key data]⟩)

def World.ringRemove (E : Env X) (w : World X) (key : String) : Option GoError × World X :=
  ((E.ringRemove w.ext key).1, ⟨(E.ringRemove w.ext key).2, w.log ++ [Event.ringRemove key]⟩)

def World.httpPost (E : Env X) (w : World X) (url : String) (payload : List (String × String)) :
    Except GoError HttpResponse × World X :=
  ((E.httpPost w.ext url payload).1,
    ⟨(E.httpPost w.ext url payload).2, w.log ++ [Event.httpPost url payload]⟩)

def World.scanln (E : Env X) (w : World X) : Except GoError String × World X :=
  ((E.scanln w.ext).1, ⟨(E.scanln w.ext).2, w.log ++ [Event.scanln]⟩)

def World.openKeyring (E : Env X) (w : World X) : Option GoError × World X :=
  ((E.openKeyring w.ext).1, ⟨(E.openKeyring w.ext).2, w.log ++ [Event.openKeyring]⟩)

def World.listen (E : Env X) (w : World X) (addr : String) : Option GoError × World X :=
  ((E.listen w.ext addr).1, ⟨(E.listen w.ext addr).2, w.log ++ [Event.listen addr]⟩)

def World.openBrowser (E : Env X) (w : World X) (url : String) : World X :=
  ⟨E.openBrowser w.ext url, w.log ++ [Event.browser url]⟩

/-- Adding an event of the package itself (closing its server or listener) to the log. -/
def World.note (w : World X) (e : Event) : World X := { w with log := w.log ++ [e] }

/-- One call `c.httpClient.Do(req)` of the API client, logged with its request. -/
def World.apiDo (E : Env X) (w : World X) (req : ApiRequest) :
    Except GoError HttpResponse × World X :=
  ((E.apiDo w.ext req).1, ⟨(E.apiDo w.ext req).2, w.log ++ [Event.apiDo req]⟩)

/-- Writing text to `os.Stderr`. -/
def World.stderr (w : World X) (text : String) : World X :=
  { w with log := w.log ++ [Event.stderr text] }

def Event.isPost : Event → Bool
  | .httpPost _ _ => true
  | _ => false

def Event.isRingSet : Event → Bool
  | .ringSet _ _ => true
  | _ => false

def Event.isRingGet : Event → Bool
  | .ringGet _ => true
  | _ => false

def Event.isApiDo : Event → Bool
  | .apiDo _ => true
  | _ => false

/-- The number of requests the API client has sent through `c.httpClient.Do`. -/
def World.attempts (w : World X) : Nat := w.log.countP Event.isApiDo

/-- Number of token exchanges (POSTs to the token endpoint) made so far. -/
def World.exchanges (w : World X) : Nat := w.log.countP Event.isPost

/-- Number of backend writes made so far. -/
def World.ringWrites (w : World X) : Nat := w.log.countP Event.isRingSet

/-- Number of backend reads made so far. -/
def World.ringReads (w : World X) : Nat := w.log.countP Event.isRingGet

/-! ## KeyringStore (keyring.go) -/

/-- The in-memory part of a `KeyringStore`; its `ring` is the backend of the world. -/
structure KeyringStore where
  tokenCache : Option Token
  credsCache : Option OAuthCredentials
  tokenLoaded : Bool
  credsLoaded : Bool
deriving DecidableEq, Repr

/-- The store `OpenDefault` returns: `&KeyringStore{ring: ring}`. -/
def KeyringStore.fresh : KeyringStore := ⟨none, none, false, false⟩

def IsKeychainLockedError (msg : String) : Bool :=
  Contains msg "keychain is locked" ||
  Contains msg "The user name or passphrase you entered is not correct"

/-- The function `wrapKeychainError` on a non-nil error. -/
def wrapKeychainError (err : GoError) : GoError :=
  if IsKeychainLockedError err.Error then
    .wrapf "" err
      "\n\nYour macOS keychain is locked. Run:\n  security unlock-keychain ~/Library/Keychains/login.keychain-db"
  else err

/-- The method `SetToken`: stamp `created_at` when unset (the only clock read), encode,
write to the backend under `tokenKey`, and only after a successful write update the cache. -/
def KeyringStore.SetToken (E : Env X) (s : KeyringStore) (w : World X) (tok : Token) :
    Option GoError × KeyringStore × World X :=
  let stamped : Token :=
    if tok.CreatedAt.IsZero then { tok with CreatedAt := (w.now E).1.UTC } else tok
  let w0 : World X := if tok.CreatedAt.IsZero then (w.now E).2 else w
  match E.marshalToken stamped with
  | .error err => (some (.wrapf "encode token: " err ""), s, w0)
  | .ok payload =>
    match (w0.ringSet E tokenKey payload).1 with
    | some err =>
      (some (wrapKeychainError (.wrapf "store token: " err "")), s,
        (w0.ringSet E tokenKey payload).2)
    | none =>
      (none, { s with tokenLoaded := true, tokenCache := some stamped },
        (w0.ringSet E tokenKey payload).2)

/-- The method `GetToken`: the cached answer once loaded, else one backend read. -/
def KeyringStore.GetToken (E : Env X) (s : KeyringStore) (w : World X) :
    Except GoError Token × KeyringStore × World X :=
  if s.tokenLoaded then
    match s.tokenCache with
    | none => (.error ErrNoToken, s, w)
    | some tok => (.ok tok, s, w)
  else
    match (w.ringGet E tokenKey).1 with
    | .error err =>
      if errorsIs err ErrKeyNotFound then
        (.error ErrNoToken, { s with tokenLoaded := true, tokenCache := none },
          (w.ringGet E tokenKey).2)
      else
        (.error (.wrapf "read token: " err ""),
          { s with tokenLoaded := true, tokenCache := none }, (w.ringGet E tokenKey).2)
    | .ok data =>
      match E.unmarshalToken data with
      | .error err => (.error (.wrapf "decode token: " err ""), s, (w.ringGet E tokenKey).2)
      | .ok tok =>
        (.ok tok, { s with tokenLoaded := true, tokenCache := some tok },
          (w.ringGet E tokenKey).2)

def KeyringStore.DeleteToken (E : Env X) (s : KeyringStore) (w : World X) :
    Option GoError × KeyringStore × World X :=
  match (w.ringRemove E tokenKey).1 with
  | some err =>
    if !errorsIs err ErrKeyNotFound then
      (some (.wrapf "delete token: " err ""), s, (w.ringRemove E tokenKey).2)
    else
      (none, { s with tokenLoaded := true, tokenCache := none }, (w.ringRemove E tokenKey).2)
  | none =>
    (none, { s with tokenLoaded := true, tokenCache := none }, (w.ringRemove E tokenKey).2)

def KeyringStore.SetCredentials (E : Env X) (s : KeyringStore) (w : World X)
    (creds : OAuthCredentials) : Option GoError × KeyringStore × World X :=
  if TrimSpace creds.ClientID = "" then (some errMissingClientID, s, w)
  else if TrimSpace creds.ClientSecret = "" then (some errMissingClientSecret, s, w)
  else
    match E.marshalCreds creds with
    | .error err => (some (.wrapf "encode credentials: " err ""), s, w)
    | .ok payload =>
      match (w.ringSet E credentialsKey payload).1 with
      | some err =>
        (some (wrapKeychainError (.wrapf "store credentials: " err "")), s,
          (w.ringSet E credentialsKey payload).2)
      | none =>
        (none, { s with credsLoaded := true, credsCache := some creds },
          (w.ringSet E credentialsKey payload).2)

def KeyringStore.GetCredentials (E : Env X) (s : KeyringStore) (w : World X) :
    Except GoError OAuthCredentials × KeyringStore × World X :=
  if s.credsLoaded then
    match s.credsCache with
    | none => (.error ErrNoCredentials, s, w)
    | some creds => (.ok creds, s, w)
  else
    match (w.ringGet E credentialsKey).1 with
    | .error err =>
      if errorsIs err ErrKeyNotFound then
        (.error ErrNoCredentials, { s with credsLoaded := true, credsCache := none },
          (w.ringGet E credentialsKey).2)
      else
        (.error (.wrapf "read credentials: " err ""),
          { s with credsLoaded := true, credsCache := none }, (w.ringGet E credentialsKey).2)
    | .ok data =>
      match E.unmarshalCreds data with
      | .error err =>
        (.error (.wrapf "decode credentials: " err ""), s, (w.ringGet E credentialsKey).2)
      | .ok creds =>
        (.ok creds, { s with credsLoaded := true, credsCache := some creds },
          (w.ringGet E credentialsKey).2)

def KeyringStore.DeleteCredentials (E : Env X) (s : KeyringStore) (w : World X) :
    Option GoError × KeyringStore × World X :=
  match (w.ringRemove E credentialsKey).1 with
  | some err =>
    if !errorsIs err ErrKeyNotFound then
      (some (.wrapf "delete credentials: " err ""), s, (w.ringRemove E credentialsKey).2)
    else
      (none, { s with credsLoaded := true, credsCache := none },
        (w.ringRemove E credentialsKey).2)
  | none =>
    (none, { s with credsLoaded := true, credsCache := none },
      (w.ringRemove E credentialsKey).2)

def KeyringStore.CredentialsExists (E : Env X) (s : KeyringStore) (w : World X) :
    Except GoError Bool × KeyringStore × World X :=
  if s.credsLoaded then (.ok s.credsCache.isSome, s, w)
  else
    match (s.GetCredentials E w).1 with
    | .error err =>
      if errorsIs err ErrNoCredentials then
        (.ok false, (s.GetCredentials E w).2.1, (s.GetCredentials E w).2.2)
      else (.error err, (s.GetCredentials E w).2.1, (s.GetCredentials E w).2.2)
    | .ok _ => (.ok true, (s.GetCredentials E w).2.1, (s.GetCredentials E w).2.2)

/-! ## Token exchange (oauth.go) -/

/-- The function `exchangeToken`: one POST of the payload to the token endpoint. Encoding
a `map[string]string` and building the request from a constant method and URL do not
fail, so the first error that can occur is that of `client.Do`. The body of a non-2xx
response is the text the error carries. -/
def exchangeToken (E : Env X) (w : World X) (payload : List (String × String)) :
    Except GoError OAuth2Token × World X :=
  match (w.httpPost E tokenURL payload).1 with
  | .error err => (.error (.wrapf "token request: " err ""), (w.httpPost E tokenURL payload).2)
  | .ok resp =>
    if resp.StatusCode < 200 ∨ resp.StatusCode ≥ 300 then
      (.error (.wrapf "" errTokenExchangeFailed (": " ++ TrimSpace resp.Body)),
        (w.httpPost E tokenURL payload).2)
    else
      match E.decodeTokenResponse resp.Body with
      | .error err =>
        (.error (.wrapf "decode token response: " err ""), (w.httpPost E tokenURL payload).2)
      | .ok tr =>
        if tr.ExpiresIn > 0 then
          (.ok ⟨tr.AccessToken, tr.TokenType, tr.RefreshToken,
              ((w.httpPost E tokenURL payload).2.now E).1.Add (secondsDuration tr.ExpiresIn)⟩,
            ((w.httpPost E tokenURL payload).2.now E).2)
        else
          (.ok ⟨tr.AccessToken, tr.TokenType, tr.RefreshToken, Time.zero⟩,
            (w.httpPost E tokenURL payload).2)

def exchangeAuthorizationCode (E : Env X) (w : World X) (creds : OAuthCredentials)
    (redirectURI code : String) : Except GoError OAuth2Token × World X :=
  exchangeToken E w
    [("grant_type", "authorization_code"), ("code", code), ("client_id", creds.ClientID),
     ("client_secret", creds.ClientSecret), ("redirect_uri", redirectURI)]

def exchangeRefreshToken (E : Env X) (w : World X) (creds : OAuthCredentials)
    (refreshToken : String) : Except GoError OAuth2Token × World X :=
  exchangeToken E w
    [("grant_type", "refresh_token"), ("refresh_token", refreshToken),
     ("client_id", creds.ClientID), ("client_secret", creds.ClientSecret)]

/-! ## OAuthTokenSource (token.go) -/

/-- The caching OAuth token source; its `store` is a `KeyringStore`, the store
`OpenDefault` provides. The mutex serialises calls, which are sequential here. -/
structure OAuthTokenSource where
  store : KeyringStore
  creds : OAuthCredentials
  accessToken : String
  accessExpiry : Time
deriving DecidableEq, Repr

def NewOAuthTokenSource (store : KeyringStore) (creds : OAuthCredentials) : OAuthTokenSource :=
  ⟨store, creds, "", Time.zero⟩

/-- The second half of `refresh`, after a successful exchange: cache the access token and,
when the refresh token was rotated, store the new one (a store failure is only a warning). -/
def OAuthTokenSource.adopt (E : Env X) (ts : OAuthTokenSource) (s1 : KeyringStore)
    (w2 : World X) (tok : Token) (newTok : OAuth2Token) :
    Option GoError × OAuthTokenSource × World X :=
  if newTok.RefreshToken ≠ "" ∧ newTok.RefreshToken ≠ tok.RefreshToken then
    match (s1.SetToken E w2 { tok with RefreshToken := newTok.RefreshToken }).1 with
    | some err =>
      (none,
        ⟨(s1.SetToken E w2 { tok with RefreshToken := newTok.RefreshToken }).2.1, ts.creds,
          newTok.AccessToken, newTok.Expiry⟩,
        (s1.SetToken E w2 { tok with RefreshToken := newTok.RefreshToken }).2.2.stderr
          ("Warning: failed to store new refresh token: " ++ err.Error ++ "\n"))
    | none =>
      (none,
        ⟨(s1.SetToken E w2 { tok with RefreshToken := newTok.RefreshToken }).2.1, ts.creds,
          newTok.AccessToken, newTok.Expiry⟩,
        (s1.SetToken E w2 { tok with RefreshToken := newTok.RefreshToken }).2.2)
  else (none, ⟨s1, ts.creds, newTok.AccessToken, newTok.Expiry⟩, w2)

/-- The method `refresh`: read the stored token, exchange its refresh token, then `adopt`. -/
def OAuthTokenSource.refresh (E : Env X) (ts : OAuthTokenSource) (w : World X) :
    Option GoError × OAuthTokenSource × World X :=
  match (ts.store.GetToken E w).1 with
  | .error err =>
    (some (.wrap2 ErrNotAuthenticated ": " err), { ts with store := (ts.store.GetToken E w).2.1 },
      (ts.store.GetToken E w).2.2)
  | .ok tok =>
    if tok.RefreshToken = "" then
      (some ErrNotAuthenticated, { ts with store := (ts.store.GetToken E w).2.1 },
        (ts.store.GetToken E w).2.2)
    else
      match (exchangeRefreshToken E (ts.store.GetToken E w).2.2 ts.creds tok.RefreshToken).1 with
      | .error err =>
        (some (.wrapf "refresh token: " err ""),
          { ts with store := (ts.store.GetToken E w).2.1 },
          (exchangeRefreshToken E (ts.store.GetToken E w).2.2 ts.creds tok.RefreshToken).2)
      | .ok newTok =>
        ts.adopt E (ts.store.GetToken E w).2.1
          (exchangeRefreshToken E (ts.store.GetToken E w).2.2 ts.creds tok.RefreshToken).2
          tok newTok

/-- The access token and expiry `Token()` hands out:
`&oauth2.Token{AccessToken: ts.accessToken, Expiry: ts.accessExpiry}`. -/
def OAuthTokenSource.current (ts : OAuthTokenSource) : OAuth2Token :=
  ⟨ts.accessToken, "", "", ts.accessExpiry⟩

/-- The guard of `Token()`:
`ts.accessToken != "" && !ts.accessExpiry.IsZero() && time.Now().Before(ts.accessExpiry)`,
evaluated left to right (the clock is read only when the first two conjuncts hold). -/
def OAuthTokenSource.checkCache (E : Env X) (ts : OAuthTokenSource) (w : World X) :
    Bool × World X :=
  if ts.accessToken ≠ "" ∧ ts.accessExpiry.IsZero = false then
    ((w.now E).1.Before ts.accessExpiry, (w.now E).2)
  else (false, w)

def OAuthTokenSource.Token (E : Env X) (ts : OAuthTokenSource) (w : World X) :
    Except GoError OAuth2Token × OAuthTokenSource × World X :=
  if (ts.checkCache E w).1 then (.ok ts.current, ts, (ts.checkCache E w).2)
  else
    match (ts.refresh E (ts.checkCache E w).2).1 with
    | some err =>
      (.error err, (ts.refresh E (ts.checkCache E w).2).2.1,
        (ts.refresh E (ts.checkCache E w).2).2.2)
    | none =>
      (.ok (ts.refresh E (ts.checkCache E w).2).2.1.current,
        (ts.refresh E (ts.checkCache E w).2).2.1, (ts.refresh E (ts.checkCache E w).2).2.2)

def OAuthTokenSource.Invalidate (ts : OAuthTokenSource) : OAuthTokenSource :=
  { ts with accessToken := "", accessExpiry := Time.zero }

/-! ## Authorization flow (oauth.go) -/

def extractCodeAndState (E : Env X) (rawURL : String) : Except GoError (String × String) :=
  match E.urlParse rawURL with
  | .error err => .error (.wrapf "parse redirect url: " err "")
  | .ok parsed =>
    if queryGet parsed.Query "code" = "" then .error errNoCodeInURL
    else .ok (queryGet parsed.Query "code", queryGet parsed.Query "state")

/-- The prompt `authorizeManual` writes to the error stream before reading the line. -/
def manualPrompt (w : World X) (authURL : String) : World X :=
  ((((((w.stderr "Visit this URL to authorize:\n").stderr (authURL ++ "\n")).stderr "\n").stderr
    "After authorizing, you\x27ll be redirected to a URL.\n").stderr
    "Copy the URL from your browser and paste it here.\n").stderr "\n").stderr
    "Paste redirect URL: "

/-- The function `authorizeManual`; `redirectURL` is `cfg.RedirectURL`, the client id and
secret of `cfg` are those of `creds`. -/
def authorizeManual (E : Env X) (w : World X) (redirectURL : String) (creds : OAuthCredentials)
    (state : String) : Except GoError String × World X :=
  let w1 : World X := ((manualPrompt w (E.authCodeURL redirectURL creds.ClientID state)).scanln E).2
  match ((manualPrompt w (E.authCodeURL redirectURL creds.ClientID state)).scanln E).1 with
  | .error err => (.error (.wrapf "read redirect url: " err ""), w1)
  | .ok line =>
    match extractCodeAndState E (TrimSpace line) with
    | .error err => (.error err, w1)
    | .ok (code, gotState) =>
      if gotState ≠ "" ∧ gotState ≠ state then (.error errStateMismatch, w1)
      else
        match (exchangeAuthorizationCode E w1 creds redirectURL code).1 with
        | .error err =>
          (.error (.wrapf "exchange code: " err ""),
            (exchangeAuthorizationCode E w1 creds redirectURL code).2)
        | .ok tok =>
          if tok.RefreshToken = "" then
            (.error errNoRefreshToken, (exchangeAuthorizationCode E w1 creds redirectURL code).2)
          else (.ok tok.RefreshToken, (exchangeAuthorizationCode E w1 creds redirectURL code).2)

/-- The pages the callback handler writes: `http.NotFound`, `cancelledHTML`,
`errorHTML(msg)` and `successHTML`. -/
inductive Page where
  | notFound
  | cancelled
  | errorPage (msg : String)
  | success
deriving DecidableEq, Repr

/-- What the callback handler writes: status code, `Content-Type`, page. -/
structure Response where
  status : Nat
  contentType : String
  page : Page
deriving DecidableEq, Repr

/-- The two single-slot channels of `authorizeWithServer`: `none` is an empty buffer. -/
structure Channels where
  codeCh : Option String
  errCh : Option GoError
deriving DecidableEq, Repr

/-- A non-blocking send, `select { case ch <- v: default: }`, on a channel of capacity 1. -/
def trySend {α : Type} (ch : Option α) (v : α) : Option α :=
  match ch with
  | none => some v
  | some old => some old

/-- The handler of the callback server for one request `r`, with `state` the nonce. -/
def callbackHandler (state : String) (ch : Channels) (r : URL) : Response × Channels :=
  if r.Path ≠ "/callback" then (⟨404, "text/plain; charset=utf-8", Page.notFound⟩, ch)
  else if queryGet r.Query "error" ≠ "" then
    (⟨200, "text/html; charset=utf-8", Page.cancelled⟩,
      ⟨ch.codeCh,
        trySend ch.errCh (.wrapf "" errAuthorization (": " ++ queryGet r.Query "error"))⟩)
  else if queryGet r.Query "state" ≠ state then
    (⟨400, "text/html; charset=utf-8", Page.errorPage "State mismatch - please try again."⟩,
      ⟨ch.codeCh, trySend ch.errCh errStateMismatch⟩)
  else if queryGet r.Query "code" = "" then
    (⟨400, "text/html; charset=utf-8", Page.errorPage "Missing authorization code."⟩,
      ⟨ch.codeCh, trySend ch.errCh errMissingCode⟩)
  else
    (⟨200, "text/html; charset=utf-8", Page.success⟩,
      ⟨trySend ch.codeCh (queryGet r.Query "code"), ch.errCh⟩)

/-! ## Backend selection (keyring.go) -/

def errInvalidBackend : GoError := .sentinel "errInvalidBackend" "invalid keyring backend"

/-- The backend types of the keyring library that the package names. -/
inductive BackendType where
  | KeychainBackend
  | FileBackend
deriving DecidableEq, Repr

/-- The function `strings.ToLower`: `unicode.ToLower` on every rune. -/
def ToLower (E : Env X) (s : String) : String := ⟨s.data.map E.toLowerRune⟩

def normalizeBackend (E : Env X) (value : String) : String := ToLower E (TrimSpace value)

/-- The function `allowedBackends`; the empty list is the `nil` slice, with which the
keyring library allows every backend. -/
def allowedBackends (E : Env X) (backend : String) : Except GoError (List BackendType) :=
  if backend = "" ∨ backend = "auto" then .ok []
  else if backend = "keychain" then .ok [BackendType.KeychainBackend]
  else if backend = "file" then .ok [BackendType.FileBackend]
  else .error (.wrapf "" errInvalidBackend (": " ++ E.quote backend))

def shouldForceFileBackend (goos backend dbusAddr : String) : Bool :=
  goos == "linux" && (backend == "" || backend == "auto") && dbusAddr == ""

def shouldUseTimeout (goos backend dbusAddr : String) : Bool :=
  goos == "linux" && (backend == "" || backend == "auto") && dbusAddr != ""

/-- The allowed backends `openKeyring` puts into the keyring configuration (lines 76 to 86),
from `runtime.GOOS` and the values of the backend variable and of
`DBUS_SESSION_BUS_ADDRESS`. -/
def openKeyringBackends (E : Env X) (goos backendEnv dbusAddr : String) :
    Except GoError (List BackendType) :=
  match allowedBackends E (normalizeBackend E backendEnv) with
  | .error err => .error err
  | .ok backends =>
    if shouldForceFileBackend goos (normalizeBackend E backendEnv) dbusAddr then
      .ok [BackendType.FileBackend]
    else .ok backends

/-- The function `OpenDefault`: a store with empty caches over the opened keyring. -/
def OpenDefault (E : Env X) (w : World X) : Except GoError KeyringStore × World X :=
  match (w.openKeyring E).1 with
  | some err => (.error err, (w.openKeyring E).2)
  | none => (.ok KeyringStore.fresh, (w.openKeyring E).2)

def errKeyringTimeout : GoError := .sentinel "errKeyringTimeout" "keyring connection timed out"

def keyringPasswordEnv : String := "RAINDROP_KEYRING_PASSWORD"

def keyringBackendEnv : String := "RAINDROP_KEYRING_BACKEND"

/-- The constant `keyringOpenTimeout`, five seconds. -/
def keyringOpenTimeout : Int := 5 * Second

/-- The case of the `select` in `openKeyringWithTimeout` that fires: the result of the
open, sent by the goroutine, or the timer. -/
inductive OpenRace where
  | opened (err : Option GoError)
  | timedOut
deriving DecidableEq, Repr

/-- The function `openKeyringWithTimeout`, for the case of its `select` that fires; the
result is the error (`none`: the ring was opened). -/
def openKeyringWithTimeout (E : Env X) (timeout : Int) (race : OpenRace) : Option GoError :=
  match race with
  | .opened none => none
  | .opened (some err) => some (.wrapf "open keyring: " err "")
  | .timedOut =>
    some (.wrapf "" errKeyringTimeout
      (" after " ++ E.durationString timeout ++ "; set " ++ keyringBackendEnv ++ "=file and " ++
        keyringPasswordEnv ++ "=<password>"))

/-- The function `openKeyring`: `dirErr` is the error of `config.EnsureKeyringDir()`,
`backendEnv` and `dbusAddr` the values of the two environment variables, `openErr` the
error of a direct `keyringOpenFunc(cfg)` and `race` the case that fires when the open is
raced against the timeout. The result is the list of backends the opened ring allows. -/
def openKeyring (E : Env X) (goos : String) (dirErr : Option GoError)
    (backendEnv dbusAddr : String) (openErr : Option GoError) (race : OpenRace) :
    Except GoError (List BackendType) :=
  match dirErr with
  | some err => .error (.wrapf "ensure keyring dir: " err "")
  | none =>
    match openKeyringBackends E goos backendEnv dbusAddr with
    | .error err => .error err
    | .ok backends =>
      if shouldUseTimeout goos (normalizeBackend E backendEnv) dbusAddr then
        match openKeyringWithTimeout E keyringOpenTimeout race with
        | some err => .error err
        | none => .ok backends
      else
        match openErr with
        | some err => .error (.wrapf "open keyring: " err "")
        | none => .ok backends

/-- The store methods other than `SetToken` and `DeleteToken`. -/
inductive StoreCall where
  | GetToken
  | SetCredentials (creds : OAuthCredentials)
  | GetCredentials
  | DeleteCredentials
  | CredentialsExists
deriving DecidableEq, Repr

/-- The store after one such call, made in the world `w`. -/
def StoreCall.run (E : Env X) (call : StoreCall) (s : KeyringStore) (w : World X) :
    KeyringStore :=
  match call with
  | .GetToken => (s.GetToken E w).2.1
  | .SetCredentials creds => (s.SetCredentials E w creds).2.1
  | .GetCredentials => (s.GetCredentials E w).2.1
  | .DeleteCredentials => (s.DeleteCredentials E w).2.1
  | .CredentialsExists => (s.CredentialsExists E w).2.1

/-- The store after a sequence of such calls, each made in a world of its own (whatever
the outside has become by then). -/
def runCalls (E : Env X) : List (StoreCall × World X) → KeyringStore → KeyringStore
  | [], s => s
  | (call, w) :: rest, s => runCalls E rest (call.run E s w)

/-! ## Redirect URI and timeout (oauth.go) -/

/-- The verb `%d` of `fmt` for an `int`. -/
def formatInt (n : Int) : String := toString n

def DefaultRedirectURI (port : Int) : String :=
  "http://localhost:" ++ formatInt (if port ≤ 0 then defaultCallbackPort else port) ++ "/callback"

def ResolveRedirectURI (creds : OAuthCredentials) (port : Int) : String :=
  if TrimSpace creds.RedirectURI ≠ "" then creds.RedirectURI else DefaultRedirectURI port

/-- The constant `time.Minute`, in nanoseconds. -/
def Minute : Int := 60 * Second

/-- The options of `Authorize`; `Timeout` is a `time.Duration` in nanoseconds. -/
structure AuthorizeOptions where
  Manual : Bool
  Timeout : Int
  Port : Int
deriving DecidableEq, Repr

/-- The duration `Authorize` hands to `context.WithTimeout` (lines 67 to 69 and 76): the
caller's `Timeout`, replaced by two minutes when it is not positive. -/
def authorizeTimeout (opts : AuthorizeOptions) : Int :=
  if opts.Timeout ≤ 0 then 2 * Minute else opts.Timeout

/-- The options `AuthLoginCmd.Run` passes to `Authorize` (cmd/auth.go lines 152 to 156),
for the `--manual` flag and the configured port. -/
def loginOptions (manual : Bool) (port : Int) : AuthorizeOptions := ⟨manual, 3 * Minute, port⟩

/-! ## TestTokenSource (token.go) -/

structure TestTokenSource where
  store : KeyringStore
deriving DecidableEq, Repr

def TestTokenSource.Token (E : Env X) (ts : TestTokenSource) (w : World X) :
    Except GoError OAuth2Token × TestTokenSource × World X :=
  if E.getenv w.ext "RAINDROP_TOKEN" ≠ "" then
    (.ok ⟨E.getenv w.ext "RAINDROP_TOKEN", "", "", Time.zero⟩, ts, w)
  else
    match (ts.store.GetToken E w).1 with
    | .error err =>
      (.error (.wrapf "get token: " err ""), ⟨(ts.store.GetToken E w).2.1⟩,
        (ts.store.GetToken E w).2.2)
    | .ok tok =>
      if tok.TestToken ≠ "" then
        (.ok ⟨tok.TestToken, "", "", Time.zero⟩, ⟨(ts.store.GetToken E w).2.1⟩,
          (ts.store.GetToken E w).2.2)
      else (.error ErrNotAuthenticated, ⟨(ts.store.GetToken E w).2.1⟩, (ts.store.GetToken E w).2.2)

/-! ## API client (api/client.go) -/

def BaseURL : String := "https://api.raindrop.io/rest/v1"

/-- The token sources `NewClientFromAuth` puts behind the interface `oauth2.TokenSource`:
`oauth2.StaticTokenSource` of a token, or the caching OAuth source. -/
inductive TokenSource where
  | static (tok : OAuth2Token)
  | caching (ts : OAuthTokenSource)
deriving DecidableEq, Repr

/-- The client, without its HTTP client (requests go through `Env.apiDo`). -/
structure Client where
  baseURL : String
  tokenSource : TokenSource
deriving DecidableEq, Repr

def NewClient (ts : TokenSource) : Client := ⟨BaseURL, ts⟩

def NewClientFromAuth (E : Env X) (w : World X) : Except GoError Client × World X :=
  if E.getenv w.ext "RAINDROP_TOKEN" ≠ "" then
    (.ok (NewClient (.static ⟨E.getenv w.ext "RAINDROP_TOKEN", "", "", Time.zero⟩)), w)
  else
    match (OpenDefault E w).1 with
    | .error err => (.error (.wrapf "open keyring: " err ""), (OpenDefault E w).2)
    | .ok store =>
      match (store.GetToken E (OpenDefault E w).2).1 with
      | .error err =>
        if errorsIs err ErrNoToken then
          (.error ErrNotAuthenticated, (store.GetToken E (OpenDefault E w).2).2.2)
        else
          (.error (.wrapf "get token: " err ""), (store.GetToken E (OpenDefault E w).2).2.2)
      | .ok tok =>
        if tok.TestToken ≠ "" then
          (.ok (NewClient (.static ⟨tok.TestToken, "", "", Time.zero⟩)),
            (store.GetToken E (OpenDefault E w).2).2.2)
        else if tok.RefreshToken = "" then
          (.error ErrNotAuthenticated, (store.GetToken E (OpenDefault E w).2).2.2)
        else
          match ((store.GetToken E (OpenDefault E w).2).2.1.GetCredentials E
              (store.GetToken E (OpenDefault E w).2).2.2).1 with
          | .error err =>
            (.error (.wrapf "get credentials: " err ""),
              ((store.GetToken E (OpenDefault E w).2).2.1.GetCredentials E
                (store.GetToken E (OpenDefault E w).2).2.2).2.2)
          | .ok creds =>
            (.ok (NewClient (.caching (NewOAuthTokenSource
                ((store.GetToken E (OpenDefault E w).2).2.1.GetCredentials E
                  (store.GetToken E (OpenDefault E w).2).2.2).2.1 creds))),
              ((store.GetToken E (OpenDefault E w).2).2.1.GetCredentials E
                (store.GetToken E (OpenDefault E w).2).2.2).2.2)

/-- Modelled from the spec: the declarations of the error types `AuthError`, `APIError` and
`RateLimitError` are not in the sources read here (only their uses in client.go and
errfmt.go are); each constructor carries the fields client.go sets. `plain` is an error
made with `fmt.Errorf`. -/
inductive ApiError where
  | plain (err : GoError)
  | AuthError (Err : GoError)
  | APIError (StatusCode : Int) (Message : String) (Details : String)
  | RateLimitError
  | wrapf (pre : String) (inner : ApiError)
deriving DecidableEq, Repr

/-- A value behind `oauth2.TokenSource` with state `S`: its `Token()` method, and its
`Invalidate()` method when its type has one (the type assertion of `do`). -/
structure TokenSourceOps (X : Type) (S : Type) where
  Token : S → World X → Except GoError OAuth2Token × S × World X
  Invalidate : Option (S → S)

/-- The static source: always the same token, no `Invalidate()`. -/
def staticOps : TokenSourceOps X OAuth2Token := ⟨fun t w => (.ok t, t, w), none⟩

/-- The caching OAuth source. -/
def cachingOps (E : Env X) : TokenSourceOps X OAuthTokenSource :=
  ⟨fun ts w => ts.Token E w, some OAuthTokenSource.Invalidate⟩

/-- One call `do` makes: `c.tokenSource.Token()` (and whether it gave a token),
`c.httpClient.Do(req)` (and the status of the response, `none` for an error), or
`Invalidate()`. -/
inductive Step where
  | token (ok : Bool)
  | send (status : Option Int)
  | invalidate
deriving DecidableEq, Repr

/-- How one pass through the loop body of `do` ends: `return` or `continue`, with the
token source, the world and the calls made in the pass. -/
inductive Pass (X : Type) (S : Type) where
  | ret (err : Option ApiError) (src : S) (w : World X) (steps : List Step)
  | next (src : S) (w : World X) (steps : List Step)

def unauthorizedDetails : String :=
  "token may be invalid or expired; check your token at raindrop.io/settings/integrations"

/-- The token source after the type assertion and `Invalidate()` of lines 144 to 146. -/
def invalidated {S : Type} (ops : TokenSourceOps X S) (src : S) : S :=
  match ops.Invalidate with
  | some f => f src
  | none => src

/-- The call made by lines 144 to 146: `Invalidate()` when the source has it. -/
def invalidateSteps {S : Type} (ops : TokenSourceOps X S) : List Step :=
  if ops.Invalidate.isSome then [Step.invalidate] else []

/-- The loop body of `do` (lines 115 to 199) in pass `attempt`; `body` is `none` for a nil
body and `wantOut` says whether `out` is non-nil. -/
def clientDoPass {S : Type} (E : Env X) (ops : TokenSourceOps X S) (baseURL method path : String)
    (body : Option String) (wantOut : Bool) (attempt : Nat) (src : S) (w : World X) : Pass X S :=
  match E.newRequest method (baseURL ++ path) with
  | some err => .ret (some (.plain (.wrapf "create request: " err ""))) src w []
  | none =>
    match (ops.Token src w).1 with
    | .error err =>
      .ret (some (.AuthError err)) (ops.Token src w).2.1 (ops.Token src w).2.2 [.token false]
    | .ok tok =>
      match ((ops.Token src w).2.2.apiDo E
          ⟨method, baseURL ++ path, "Bearer " ++ tok.AccessToken, body⟩).1 with
      | .error err =>
        .ret (some (.plain (.wrapf "do request: " err ""))) (ops.Token src w).2.1
          ((ops.Token src w).2.2.apiDo E
            ⟨method, baseURL ++ path, "Bearer " ++ tok.AccessToken, body⟩).2
          [.token true, .send none]
      | .ok resp =>
        if resp.StatusCode = 401 then
          if attempt = 0 then
            .next (invalidated ops (ops.Token src w).2.1)
              ((ops.Token src w).2.2.apiDo E
                ⟨method, baseURL ++ path, "Bearer " ++ tok.AccessToken, body⟩).2
              ([.token true, .send (some resp.StatusCode)] ++ invalidateSteps ops)
          else
            .ret (some (.APIError resp.StatusCode "unauthorized" unauthorizedDetails))
              (invalidated ops (ops.Token src w).2.1)
              ((ops.Token src w).2.2.apiDo E
                ⟨method, baseURL ++ path, "Bearer " ++ tok.AccessToken, body⟩).2
              ([.token true, .send (some resp.StatusCode)] ++ invalidateSteps ops)
        else
          .ret
            (if resp.StatusCode = 404 then some (.APIError resp.StatusCode "not found" "")
             else if resp.StatusCode = 429 then some .RateLimitError
             else if resp.StatusCode ≥ 400 then
               some (.APIError resp.StatusCode (E.statusText resp.StatusCode) resp.Body)
             else if wantOut = true ∧ resp.StatusCode ≠ 204 then
               (E.decodeOut resp.Body).map (fun err => .plain (.wrapf "decode response: " err ""))
             else none)
            (ops.Token src w).2.1
            ((ops.Token src w).2.2.apiDo E
              ⟨method, baseURL ++ path, "Bearer " ++ tok.AccessToken, body⟩).2
            [.token true, .send (some resp.StatusCode)]

/-- The method `Client.do`: the loop `for attempt := 0; attempt < 2; attempt++` unrolled,
and the `return` after it (line 202). The result is the error (`none` for nil), the token
source and the world afterwards, and the calls made, in order. -/
def clientDo {S : Type} (E : Env X) (ops : TokenSourceOps X S) (baseURL method path : String)
    (body : Option String) (wantOut : Bool) (src : S) (w : World X) :
    Option ApiError × S × World X × List Step :=
  match clientDoPass E ops baseURL method path body wantOut 0 src w with
  | .ret err s1 w1 steps => (err, s1, w1, steps)
  | .next s1 w1 steps =>
    match clientDoPass E ops baseURL method path body wantOut 1 s1 w1 with
    | .ret err s2 w2 steps2 => (err, s2, w2, steps ++ steps2)
    | .next s2 w2 steps2 =>
      (some (.APIError 401 "unauthorized" unauthorizedDetails), s2, w2, steps ++ steps2)

/-! ## The callback server (oauth.go, authorizeWithServer) -/

/-- The sentinel `context.DeadlineExceeded`. -/
def DeadlineExceeded : GoError :=
  .sentinel "context.DeadlineExceeded" "context deadline exceeded"

/-- The cases of the `select` that ends the wait of `authorizeWithServer`: a code on
`codeCh`, an error on `errCh`, or `ctx.Done()`. -/
inductive Wakeup where
  | code
  | err
  | done
deriving DecidableEq, Repr

/-- The two channels when the wait ends: `requests` are the requests the handler has
served until then, in order, and `serveErr` is the error of `srv.Serve` other than
`http.ErrServerClosed`, if any, sent when `Serve` returns. -/
def servedChannels (state : String) (serveErr : Option GoError) (requests : List URL) :
    Channels :=
  match serveErr with
  | none => requests.foldl (fun ch r => (callbackHandler state ch r).2) ⟨none, none⟩
  | some err =>
    ⟨(requests.foldl (fun ch r => (callbackHandler state ch r).2) ⟨none, none⟩).codeCh,
      trySend (requests.foldl (fun ch r => (callbackHandler state ch r).2) ⟨none, none⟩).errCh
        err⟩

/-- The lines `authorizeWithServer` writes to the error stream before the browser opens. -/
def serverPrompt (w : World X) (authURL : String) : World X :=
  ((w.stderr "Opening browser for authorization...\n").stderr
    "If the browser doesn\x27t open, visit:\n").stderr (authURL ++ "\n")

/-- The address `authorizeWithServer` listens on for a parsed redirect URI. -/
def callbackAddr (parsed : URL) : String :=
  "127.0.0.1:" ++ (if parsed.Port = "" then formatInt defaultCallbackPort else parsed.Port)

/-- The function `authorizeWithServer`, for one schedule of its goroutines: what the server
has received when the wait ends (`serveErr`, `requests`), the error of the context if it is
done (`ctxErr`), and the case of the `select` that fires (`pick`). The result is `none`
when that case is not ready, which no run does. Closing the server and, on return, the
listener are logged. -/
def authorizeWithServer (E : Env X) (w : World X) (redirectURL : String)
    (creds : OAuthCredentials) (state : String) (serveErr : Option GoError)
    (requests : List URL) (ctxErr : Option GoError) (pick : Wakeup) :
    Option (Except GoError String × World X) :=
  match E.urlParse redirectURL with
  | .error err => some (.error (.wrapf "parse redirect uri: " err ""), w)
  | .ok parsed =>
    match (w.listen E (callbackAddr parsed)).1 with
    | some err =>
      some (.error (.wrapf "listen for callback: " err ""), (w.listen E (callbackAddr parsed)).2)
    | none =>
      let w1 : World X :=
        (serverPrompt (w.listen E (callbackAddr parsed)).2
          (E.authCodeURL redirectURL creds.ClientID state)).openBrowser E
          (E.authCodeURL redirectURL creds.ClientID state)
      match pick with
      | .code =>
        match (servedChannels state serveErr requests).codeCh with
        | none => none
        | some code =>
          match (exchangeAuthorizationCode E
              (w1.stderr "Authorization received. Finishing...\n") creds redirectURL code).1 with
          | .error err =>
            some (.error (.wrapf "exchange code: " err ""),
              (((exchangeAuthorizationCode E
                (w1.stderr "Authorization received. Finishing...\n") creds redirectURL code).2).note
                Event.serverClose).note Event.listenerClose)
          | .ok tok =>
            if tok.RefreshToken = "" then
              some (.error errNoRefreshToken,
                (((exchangeAuthorizationCode E
                  (w1.stderr "Authorization received. Finishing...\n") creds redirectURL code).2).note
                  Event.serverClose).note Event.listenerClose)
            else
              some (.ok tok.RefreshToken,
                (((exchangeAuthorizationCode E
                  (w1.stderr "Authorization received. Finishing...\n") creds redirectURL code).2).note
                  Event.serverShutdown).note Event.listenerClose)
      | .err =>
        match (servedChannels state serveErr requests).errCh with
        | none => none
        | some err => some (.error err, (w1.note Event.serverClose).note Event.listenerClose)
      | .done =>
        match ctxErr with
        | none => none
        | some err =>
          some (.error (.wrapf "authorization canceled: " err ""),
            (w1.note Event.serverClose).note Event.listenerClose)

/-! ## Authorize (oauth.go) -/

/-- The error `ctx.Err()` of the context `context.WithTimeout(ctx, timeout)`, `elapsed`
nanoseconds after it was made, over a parent that is never done (the login command passes
`context.Background()`): nil before the deadline and `context.DeadlineExceeded` from the
deadline on, as package `context` documents it. -/
def timeoutErr (timeout elapsed : Int) : Option GoError :=
  if elapsed < timeout then none else some DeadlineExceeded

/-- The function `Authorize`; `randomState` is the result of `randomStateFn()`. In the
server flow `elapsed` is the time since the context was made at which the `select` fires,
and the other inputs are those of `authorizeWithServer`. In the manual flow the context
is handed only to the token exchange, whose POST the environment answers; the read of the
pasted line does not take it. -/
def Authorize (E : Env X) (w : World X) (creds : OAuthCredentials) (opts : AuthorizeOptions)
    (randomState : Except GoError String) (serveErr : Option GoError) (requests : List URL)
    (elapsed : Int) (pick : Wakeup) : Option (Except GoError String × World X) :=
  match randomState with
  | .error err => some (.error err, w)
  | .ok state =>
    if opts.Manual then
      some (authorizeManual E w (ResolveRedirectURI creds opts.Port) creds state)
    else
      authorizeWithServer E w (ResolveRedirectURI creds opts.Port) creds state serveErr requests
        (timeoutErr (authorizeTimeout opts) elapsed) pick

/-! ## Collections (types.go, collections.go, lookup.go) -/

/-- The struct `Collection`, with the fields the lookup and the tree use; `Parent` is the
`ID` of the `*CollectionRef`, `none` for nil. -/
structure Collection where
  ID : Int
  Title : String
  Count : Int
  Parent : Option Int
deriving DecidableEq, Repr

def Collection.ParentID (c : Collection) : Int :=
  match c.Parent with
  | none => 0
  | some id => id

def SystemCollectionAll : Int := 0

def SystemCollectionUnsorted : Int := -1

def SystemCollectionTrash : Int := -99

/-- The call `c.Get(ctx, path, &resp)` with a `CollectionsResponse`, on a client and world
of type `S`: the error, or `resp.Items`, and the client and world afterwards. -/
abbrev GetItems (S : Type) := String → S → Except ApiError (List Collection) × S

def ListRootCollections {S : Type} (get : GetItems S) (s : S) :
    Except ApiError (List Collection) × S :=
  get "/collections" s

def ListChildCollections {S : Type} (get : GetItems S) (s : S) :
    Except ApiError (List Collection) × S :=
  get "/collections/childrens" s

def ListAllCollections {S : Type} (get : GetItems S) (s : S) :
    Except ApiError (List Collection) × S :=
  match (ListRootCollections get s).1 with
  | .error err => (.error err, (ListRootCollections get s).2)
  | .ok root =>
    match (ListChildCollections get (ListRootCollections get s).2).1 with
    | .error err => (.error err, (ListChildCollections get (ListRootCollections get s).2).2)
    | .ok children =>
      (.ok (root ++ children), (ListChildCollections get (ListRootCollections get s).2).2)

/-- The method `Client.ResolveCollection`; `E.atoi` is `strconv.Atoi` and `E.equalFold` is
`strings.EqualFold`. -/
def ResolveCollection {S : Type} (E : Env X) (get : GetItems S) (s : S) (nameOrID : String) :
    Except ApiError Int × S :=
  if TrimSpace (ToLower E nameOrID) = "" ∨ TrimSpace (ToLower E nameOrID) = "all" ∨
      TrimSpace (ToLower E nameOrID) = "0" then
    (.ok SystemCollectionAll, s)
  else if TrimSpace (ToLower E nameOrID) = "unsorted" ∨
      TrimSpace (ToLower E nameOrID) = "-1" then
    (.ok SystemCollectionUnsorted, s)
  else if TrimSpace (ToLower E nameOrID) = "trash" ∨
      TrimSpace (ToLower E nameOrID) = "-99" then
    (.ok SystemCollectionTrash, s)
  else
    match E.atoi nameOrID with
    | some id => (.ok id, s)
    | none =>
      match (ListAllCollections get s).1 with
      | .error err =>
        (.error (.wrapf "fetch collections for lookup: " err), (ListAllCollections get s).2)
      | .ok collections =>
        match collections.find? (fun col => E.equalFold col.Title nameOrID) with
        | some col => (.ok col.ID, (ListAllCollections get s).2)
        | none =>
          (.error (.APIError 404 "collection not found" nameOrID), (ListAllCollections get s).2)

/-- The inputs the `switch` of `ResolveCollection` handles. -/
def isSystemName (E : Env X) (nameOrID : String) : Prop :=
  TrimSpace (ToLower E nameOrID) ∈ ["", "all", "0", "unsorted", "-1", "trash", "-99"]

/-! ## Bulk add (cmd/add.go, runBulk) -/

/-- The struct `CreateRaindropRequest`, with the fields `runBulk` sets. -/
structure CreateRaindropRequest where
  Link : String
  Tags : List String
  PleaseParse : Bool
  CollectionID : Int
deriving DecidableEq, Repr

/-- The struct `api.Raindrop`, with the fields the bulk add prints or counts. -/
structure RaindropItem where
  ID : Int
  Link : String
  Title : String
deriving DecidableEq, Repr

/-- The call `client.CreateRaindropsBulk(ctx, batch)` on a client and world of type `S`:
the error, or the items of the response, and the client and world afterwards. -/
abbrev BulkCreate (S : Type) :=
  List CreateRaindropRequest → S → Except ApiError (List RaindropItem) × S

/-- The variables of the batching loop of `runBulk`, with the batches sent so far and the
lines written to the error stream. -/
structure BulkRun (S : Type) where
  client : S
  allCreated : List RaindropItem
  sent : List (List CreateRaindropRequest)
  stderr : List String

def batchSize : Nat := 100

/-- The slice `items[i:end]`. -/
def slice {α : Type} (items : List α) (i : Nat) (stop : Nat) : List α :=
  (items.drop i).take (stop - i)

/-- The loop `for i := 0; i < len(items); i += batchSize` of `runBulk` from index `i` on,
for at most `fuel` passes; the error is the one handed to `errfmt.Format`. -/
def bulkLoop {S : Type} (create : BulkCreate S) (json : Bool)
    (items : List CreateRaindropRequest) :
    Nat → Nat → BulkRun S → Option (Option ApiError × BulkRun S)
  | fuel, i, run =>
    if i < items.length then
      match fuel with
      | 0 => none
      | fuel + 1 =>
        match (create (slice items i (min (i + batchSize) items.length)) run.client).1 with
        | .error err =>
          some (some err,
            ⟨(create (slice items i (min (i + batchSize) items.length)) run.client).2,
              run.allCreated,
              run.sent ++ [slice items i (min (i + batchSize) items.length)],
              run.stderr⟩)
        | .ok created =>
          bulkLoop create json items fuel (i + batchSize)
            ⟨(create (slice items i (min (i + batchSize) items.length)) run.client).2,
              run.allCreated ++ created,
              run.sent ++ [slice items i (min (i + batchSize) items.length)],
              if json then run.stderr
              else run.stderr ++
                ["Created " ++ formatInt (run.allCreated ++ created).length ++ "/" ++
                  formatInt items.length ++ " raindrops\n"]⟩
    else some (none, run)

/-- The requests `runBulk` builds from the URLs read from stdin; `tags` is
`c.normalizeTags()`. -/
def bulkItems (urls : List String) (tags : List String) (collectionID : Int) :
    List CreateRaindropRequest :=
  urls.map (fun u => ⟨u, tags, true, collectionID⟩)

/-- How `runBulk` ends once the URLs are read: without URLs, with the error of
`getClientWithContext()`, with the error of a bulk-create call, or after the loop with
everything created. -/
inductive BulkEnd (S : Type) where
  | noURLs
  | noContext (err : GoError)
  | failed (err : ApiError) (run : BulkRun S)
  | created (run : BulkRun S)

/-- The method `AddCmd.runBulk` from the check of `len(urls)` to the end of the batching
loop; `contextErr` is the error of `getClientWithContext()`, and the result is `none` if
the loop has not ended after `fuel` passes. -/
def runBulk {S : Type} (create : BulkCreate S) (json : Bool) (client : S)
    (contextErr : Option GoError) (urls : List String) (tags : List String)
    (collectionID : Int) (fuel : Nat) : Option (BulkEnd S) :=
  if urls.length = 0 then some .noURLs
  else
    match contextErr with
    | some err => some (.noContext err)
    | none =>
      match bulkLoop create json (bulkItems urls tags collectionID) fuel 0
          ⟨client, [], [], []⟩ with
      | none => none
      | some (some err, run) => some (.failed err run)
      | some (none, run) => some (.created run)

/-- One call `client.CreateRaindropsBulk(ctx, batch)` on the client `acc.1`, with what it
created added to `acc.2`. -/
def createBatch {S : Type} (create : BulkCreate S) (acc : S × List RaindropItem)
    (batch : List CreateRaindropRequest) : S × List RaindropItem :=
  ((create batch acc.1).2,
    acc.2 ++ (match (create batch acc.1).1 with
      | .ok created => created
      | .error _ => []))

/-! ## Tables (output/table.go) -/

/-- The bytes of the UTF-8 encoding of a character. -/
def utf8Bytes (c : Char) : List Nat :=
  if c.toNat < 0x80 then [c.toNat]
  else if c.toNat < 0x800 then [0xC0 + c.toNat / 0x40, 0x80 + c.toNat % 0x40]
  else if c.toNat < 0x10000 then
    [0xE0 + c.toNat / 0x1000, 0x80 + (c.toNat / 0x40) % 0x40, 0x80 + c.toNat % 0x40]
  else
    [0xF0 + c.toNat / 0x40000, 0x80 + (c.toNat / 0x1000) % 0x40,
      0x80 + (c.toNat / 0x40) % 0x40, 0x80 + c.toNat % 0x40]

/-- The bytes of a Go string: `s[i]` is the element `i`, and `len(s)` the length. -/
def bytes (s : String) : List Nat := s.data.flatMap utf8Bytes

/-- The builtin `len` of a string. -/
def len (s : String) : Nat := (bytes s).length

/-- The function `strings.Repeat` for a count that is not negative. -/
def Repeat (s : String) (count : Nat) : String := ⟨(List.replicate count s.data).flatten⟩

/-- Where the index `i` of `VisibleWidth` is: in the outer loop, in the inner loop that
skips an OSC sequence, or in the inner loop that skips a CSI sequence. -/
inductive ScanMode where
  | text
  | osc
  | csi
deriving DecidableEq, Repr

/-- The test `(c >= 'A' && c <= 'Z') || (c >= 'a' && c <= 'z')`. -/
def isASCIILetter (c : Nat) : Bool := (0x41 ≤ c && c ≤ 0x5a) || (0x61 ≤ c && c ≤ 0x7a)

/-- The loops of `VisibleWidth` from index `i` on, over the bytes `s[i:]`: the number of
times `width++` runs. In the outer loop ESC (0x1b) with a next byte `]` (0x5d) or `[`
(0x5b) enters an inner loop two bytes on, and every other byte counts, also an ESC that is
the last byte; the OSC loop ends after BEL (0x07) or after ESC and a backslash (0x5c); the
CSI loop ends after a letter. -/
def scanWidth : ScanMode → List Nat → Nat
  | _, [] => 0
  | .text, [_] => 1
  | .text, c :: next :: rest =>
    if c = 0x1b then
      if next = 0x5d then scanWidth .osc rest
      else if next = 0x5b then scanWidth .csi rest
      else 1 + scanWidth .text (next :: rest)
    else 1 + scanWidth .text (next :: rest)
  | .osc, [_] => 0
  | .osc, c :: next :: rest =>
    if c = 0x07 then scanWidth .text (next :: rest)
    else if c = 0x1b then
      if next = 0x5c then scanWidth .text rest else scanWidth .osc (next :: rest)
    else scanWidth .osc (next :: rest)
  | .csi, c :: rest =>
    if isASCIILetter c then scanWidth .text rest else scanWidth .csi rest

/-- The loop of `VisibleWidth` that is running when the index reaches the end of the
string, by the same steps as `scanWidth`. -/
def scanEnd : ScanMode → List Nat → ScanMode
  | mode, [] => mode
  | .text, [_] => .text
  | .text, c :: next :: rest =>
    if c = 0x1b then
      if next = 0x5d then scanEnd .osc rest
      else if next = 0x5b then scanEnd .csi rest
      else scanEnd .text (next :: rest)
    else scanEnd .text (next :: rest)
  | .osc, [c] => if c = 0x07 then .text else .osc
  | .osc, c :: next :: rest =>
    if c = 0x07 then scanEnd .text (next :: rest)
    else if c = 0x1b then
      if next = 0x5c then scanEnd .text rest else scanEnd .osc (next :: rest)
    else scanEnd .osc (next :: rest)
  | .csi, c :: rest =>
    if isASCIILetter c then scanEnd .text rest else scanEnd .csi rest

/-- A piece of a string: plain text, a CSI sequence `ESC [ params final`, or an OSC
sequence `ESC ] payload` ended by BEL or, with `st`, by `ESC \`. -/
inductive Segment where
  | text (bs : List Nat)
  | csi (params : List Nat) (final : Nat)
  | osc (payload : List Nat) (st : Bool)
deriving DecidableEq, Repr

def Segment.bytes : Segment → List Nat
  | .text bs => bs
  | .csi params final => 0x1b :: 0x5b :: (params ++ [final])
  | .osc payload st => 0x1b :: 0x5d :: (payload ++ (if st then [0x1b, 0x5c] else [0x07]))

/-- Plain text has no ESC; a CSI sequence is complete when its final byte is its first
letter; an OSC sequence is complete when its payload has neither BEL nor ESC. -/
def Segment.complete : Segment → Prop
  | .text bs => 0x1b ∉ bs
  | .csi params final => (∀ c ∈ params, isASCIILetter c = false) ∧ isASCIILetter final = true
  | .osc payload _ => 0x07 ∉ payload ∧ 0x1b ∉ payload

/-- The number of bytes of plain text in a segment. -/
def Segment.textBytes : Segment → Nat
  | .text bs => bs.length
  | _ => 0

/-- The function `VisibleWidth`. -/
def VisibleWidth (s : String) : Nat := scanWidth .text (bytes s)

/-- The function `pad`. -/
def pad (s : String) (width : Int) : String :=
  if (VisibleWidth s : Int) ≥ width then s
  else s ++ Repeat " " (width - (VisibleWidth s : Int)).toNat

/-- The struct `TableWriter` without its writer. -/
structure TableWriter where
  headers : List String
  rows : List (List String)
  widths : List Int

def NewTableWriter (headers : List String) : TableWriter :=
  ⟨headers, [], headers.map (fun h => (len h : Int))⟩

/-- The loop of `AddRow` over the columns: `widths[i]` becomes the visible width of column
`i` where that is larger, for every `i` below both lengths. -/
def widen : List Int → List String → List Int
  | [], _ => []
  | widths, [] => widths
  | w :: widths, c :: cols =>
    (if (VisibleWidth c : Int) > w then (VisibleWidth c : Int) else w) :: widen widths cols

def TableWriter.AddRow (t : TableWriter) (cols : List String) : TableWriter :=
  ⟨t.headers, t.rows ++ [cols], widen t.widths cols⟩

/-- The cells `Render` writes for one row: `pad(col, widths[i])` for `i < len(widths)`, and
the column as it is from there on. -/
def rowCells : List Int → List String → List String
  | _, [] => []
  | [], cols => cols
  | w :: widths, c :: cols => pad c w :: rowCells widths cols

/-- The cells `Render` writes for the headers; `styleBold` is `StyleBold`. -/
def headerCells (styleBold : String → String) : List Int → List String → List String
  | w :: widths, h :: headers => styleBold (pad h w) :: headerCells styleBold widths headers
  | _, _ => []

/-- A line of `Render`: the cells with two spaces between them, and a newline. -/
def tableLine (cells : List String) : String := "  ".intercalate cells ++ "\n"

/-- The method `TableWriter.Render`: what it writes; `widths` is as long as `headers` in
every table made by `NewTableWriter`. -/
def TableWriter.Render (styleBold : String → String) (t : TableWriter) : String :=
  tableLine (headerCells styleBold t.widths t.headers) ++
    String.join (t.rows.map (fun row => tableLine (rowCells t.widths row)))

/-- The scan of `VisibleWidth` over `s` ends in the outer loop: no escape sequence of `s`
is left open at its end. -/
def endsInText (s : String) : Prop := scanEnd .text (bytes s) = .text

/-! ## The collection tree (output/collection.go) -/

/-- The struct `CollectionTree` without its writer; the map `byParent` is a function that
gives the nil slice for a key that is not there. -/
structure CollectionTree where
  collections : List Collection
  byParent : Int → List Collection

/-- The function `NewCollectionTree`: the collections grouped by `ParentID()`, in input
order, and each group then sorted with `sort.Slice` by `Title <`; `sortSlice` is that
sort. -/
def NewCollectionTree (sortSlice : List Collection → List Collection)
    (collections : List Collection) : CollectionTree :=
  ⟨collections, fun parentID => sortSlice (collections.filter (fun c => c.ParentID = parentID))⟩

/-- A line `renderChildren` prints, with the collection it is printed for. -/
structure TreeLine where
  collection : Collection
  text : String
deriving DecidableEq, Repr

/-- The loop of `renderChildren` over `children`, with `render` for the recursive call;
the element is the last one when nothing follows it. The result is `none` when a
recursive call does not return. -/
def renderRows (render : Int → String → Option (List TreeLine)) (indent : String) :
    List Collection → Option (List TreeLine)
  | [] => some []
  | c :: rest =>
    match render c.ID (indent ++ (if rest.isEmpty then "    " else "│   ")) with
    | none => none
    | some sub =>
      match renderRows render indent rest with
      | none => none
      | some more =>
        some (⟨c, indent ++ (if rest.isEmpty then "└── " else "├── ") ++ c.Title ++ " (" ++
          formatInt c.Count ++ ")\n"⟩ :: (sub ++ more))

/-- The method `renderChildren` with a bound `fuel` on the depth of its recursion; `none`
when the bound is reached. -/
def CollectionTree.renderChildren (t : CollectionTree) :
    Nat → Int → String → Option (List TreeLine)
  | 0, _, _ => none
  | fuel + 1, parentID, indent =>
    renderRows (t.renderChildren fuel) indent (t.byParent parentID)

/-- The lines `Render` prints before the tree; `styleFaint` is `StyleFaint`. -/
def systemLines (styleFaint : String → String) : List String :=
  [styleFaint "System:" ++ "\n", "  All (0)\n", "  Unsorted (-1)\n", "  Trash (-99)\n", "\n"]

/-- The method `CollectionTree.Render`: the lines it prints. -/
def CollectionTree.Render (styleFaint : String → String) (t : CollectionTree) (fuel : Nat) :
    Option (List String) :=
  if t.collections.length = 0 then
    some (systemLines styleFaint ++ [styleFaint "No custom collections" ++ "\n"])
  else
    match t.renderChildren fuel 0 "" with
    | none => none
    | some rows =>
      some (systemLines styleFaint ++ [styleFaint "Collections:" ++ "\n"] ++
        rows.map (fun row => row.text))

/-- The chain of parents of a collection ends at the root: its parent ID is 0, or its
parent is a collection of the list whose chain of parents ends at the root. -/
inductive ReachesRoot (collections : List Collection) : Collection → Prop where
  | top (c : Collection) : c ∈ collections → c.ParentID = 0 → ReachesRoot collections c
  | child (q c : Collection) : ReachesRoot collections q → c ∈ collections →
      c.ParentID = q.ID → ReachesRoot collections c

/-- The ID `id` is `d` steps below the root: 0 is the root, and a collection is one step
below its parent ID. -/
inductive Level (collections : List Collection) : Int → Nat → Prop where
  | root : Level collections 0 0
  | step (c : Collection) (d : Nat) : c ∈ collections → Level collections c.ParentID d →
      Level collections c.ID (d + 1)

/-- The ID `a` is `id` or the ID of one of the parents above it. -/
inductive Above (collections : List Collection) (a : Int) : Int → Prop where
  | refl : Above collections a a
  | step (c : Collection) : c ∈ collections → Above collections a c.ParentID →
      Above collections a c.ID

/-- The collections `renderChildren` prints in order, down to depth `fuel`. -/
def CollectionTree.treeOrder (t : CollectionTree) : Nat → Int → List Collection
  | 0, _ => []
  | fuel + 1, parentID =>
    (t.byParent parentID).flatMap (fun c => c :: t.treeOrder fuel c.ID)

/-- Every collection of the list has its parent ID among `seen` or is the child of a
collection before it. -/
def parentsFirst : List Int → List Collection → Prop
  | _, [] => True
  | seen, c :: rest => c.ParentID ∈ seen ∧ parentsFirst (c.ID :: seen) rest

/-- What is asked of `sort.Slice` with the less function `Title <`: the result has the
same elements, and no element comes before one with a smaller title. -/
def SortsByTitle (sortSlice : List Collection → List Collection) : Prop :=
  ∀ l, (sortSlice l).Perm l ∧ (sortSlice l).Pairwise (fun a b => ¬ b.Title < a.Title)

/-! ## A concrete environment

An in-memory instance of `Env`, on which the definitions above can be evaluated:
a clock that shows `clock`, a key-value backend that refuses writes when `writeError` is
set, scripted HTTP replies and scripted input lines. Records are written as fields
separated by `|` and URLs are split at `?`, `&` and `=`; these stand in for
`encoding/json` and `net/url` on plain inputs. -/

structure Sim where
  clock : Int
  items : List (String × String)
  writeError : Option GoError
  replies : List (Except GoError HttpResponse)
  lines : List String

def lookupItem : List (String × String) → String → Option String
  | [], _ => none
  | (k, v) :: rest, key => if k = key then some v else lookupItem rest key

def splitAt (sep : Char) : List Char → List (List Char)
  | [] => [[]]
  | c :: cs =>
    if c = sep then [] :: splitAt sep cs
    else
      match splitAt sep cs with
      | [] => [[c]]
      | h :: t => (c :: h) :: t

def parseDigits : List Char → Nat → Option Nat
  | [], acc => some acc
  | c :: cs, acc =>
    if decide (48 ≤ c.toNat) && decide (c.toNat ≤ 57) then parseDigits cs (acc * 10 + (c.toNat - 48))
    else none

def parseInt : List Char → Option Int
  | [] => none
  | '-' :: cs => if cs.isEmpty then none else (parseDigits cs 0).map (fun n => - (n : Int))
  | c :: cs => (parseDigits (c :: cs) 0).map (fun n => (n : Int))

def simLocation : List Char → Location
  | ['U', 'T', 'C'] => Location.UTC
  | _ => Location.Local

def simMarshalToken (tok : Token) : String :=
  tok.TestToken ++ "|" ++ tok.RefreshToken ++ "|" ++ toString tok.CreatedAt.nanos ++ "|" ++
    (if tok.CreatedAt.loc = Location.UTC then "UTC" else "Local")

def simUnmarshalToken (data : String) : Except GoError Token :=
  match splitAt '|' data.data with
  | [t, r, n, l] =>
    match parseInt n with
    | some k => .ok ⟨⟨t⟩, ⟨r⟩, ⟨k, simLocation l⟩⟩
    | none => .error (.foreign "invalid character in created_at")
  | _ => .error (.foreign "unexpected end of input")

def simMarshalCreds (c : OAuthCredentials) : String :=
  c.ClientID ++ "|" ++ c.ClientSecret ++ "|" ++ c.RedirectURI

def simUnmarshalCreds (data : String) : Except GoError OAuthCredentials :=
  match splitAt '|' data.data with
  | [i, k, r] => .ok ⟨⟨i⟩, ⟨k⟩, ⟨r⟩⟩
  | _ => .error (.foreign "unexpected end of input")

/-- A response body `access|refresh|type|expires_in`; an empty last field is an omitted
`expires_in`, decoded as 0. -/
def simDecodeTokenResponse (body : String) : Except GoError tokenResponse :=
  match splitAt '|' body.data with
  | [a, r, t, e] =>
    if e.isEmpty then .ok ⟨⟨a⟩, ⟨r⟩, ⟨t⟩, 0⟩
    else
      match parseInt e with
      | some k => .ok ⟨⟨a⟩, ⟨r⟩, ⟨t⟩, k⟩
      | none => .error (.foreign "invalid character in expires_in")
  | _ => .error (.foreign "unexpected end of input")

def simQueryPair (kv : List Char) : String × String :=
  match splitAt '=' kv with
  | [] => ("", "")
  | [k] => (⟨k⟩, "")
  | k :: v :: _ => (⟨k⟩, ⟨v⟩)

/-- Drop the scheme and host of `scheme://host/path`. -/
def simPathOf : List Char → List Char
  | [] => []
  | '/' :: '/' :: rest => rest.dropWhile (fun c => c != '/')
  | c :: rest => if c = '/' then c :: rest else simPathOf rest

def simUrlParse (raw : String) : Except GoError URL :=
  match splitAt '?' raw.data with
  | [] => .ok ⟨"", "", []⟩
  | [p] => .ok ⟨⟨simPathOf p⟩, "", []⟩
  | p :: q :: _ => .ok ⟨⟨simPathOf p⟩, "", (splitAt '&' q).map simQueryPair⟩

/-- The rune mapping `unicode.ToLower` on ASCII; other runes are left alone. -/
def asciiLower (c : Char) : Char :=
  if decide (65 ≤ c.toNat) && decide (c.toNat ≤ 90) then Char.ofNat (c.toNat + 32) else c

def simEnv : Env Sim where
  now x := (⟨x.clock, Location.Local⟩, x)
  ringGet x key :=
    match lookupItem x.items key with
    | some data => (.ok data, x)
    | none => (.error ErrKeyNotFound, x)
  ringSet x key data :=
    match x.writeError with
    | some err => (some err, x)
    | none => (none, { x with items := (key, data) :: x.items })
  ringRemove x key :=
    match lookupItem x.items key with
    | some _ => (none, { x with items := x.items.filter (fun kv => kv.1 != key) })
    | none => (some ErrKeyNotFound, x)
  httpPost x _ _ :=
    match x.replies with
    | [] => (.error (.foreign "connection refused"), x)
    | r :: rest => (r, { x with replies := rest })
  scanln x :=
    match x.lines with
    | [] => (.error (.foreign "EOF"), x)
    | l :: rest => (.ok l, { x with lines := rest })
  marshalToken tok := .ok (simMarshalToken tok)
  unmarshalToken := simUnmarshalToken
  marshalCreds c := .ok (simMarshalCreds c)
  unmarshalCreds := simUnmarshalCreds
  decodeTokenResponse := simDecodeTokenResponse
  urlParse := simUrlParse
  authCodeURL redirect client state :=
    "https://raindrop.io/oauth/authorize?client_id=" ++ client ++ "&redirect_uri=" ++ redirect ++
      "&state=" ++ state
  getenv _ _ := ""
  openKeyring x := (none, x)
  newRequest _ _ := none
  apiDo x _ :=
    match x.replies with
    | [] => (.error (.foreign "connection refused"), x)
    | r :: rest => (r, { x with replies := rest })
  decodeOut body := if body.isEmpty then some (.foreign "EOF") else none
  statusText code :=
    if code = 400 then "Bad Request"
    else if code = 403 then "Forbidden"
    else if code = 500 then "Internal Server Error"
    else ""
  toLowerRune := asciiLower
  quote text := "\"" ++ text ++ "\""
  durationString d := if d = 5000000000 then "5s" else toString d ++ "ns"
  listen x _ := (none, x)
  openBrowser x _ := x
  atoi text := parseInt text.data
  equalFold a b := a.data.map asciiLower == b.data.map asciiLower

/-- A world over `Sim` in which nothing has been logged yet. -/
def simWorld (x : Sim) : World Sim := ⟨x, []⟩

end Raindrop

namespace Raindrop

/-! ## Concrete instances -/

def demoCreds : OAuthCredentials := ⟨"abc", "xyz", ""⟩

/-- A store whose cache holds a token with refresh token `r`, stored at clock reading 7. -/
def storeWith (r : String) : KeyringStore :=
  ⟨some ⟨"", r, ⟨7, Location.UTC⟩⟩, none, true, false⟩

/-- A reply of the token endpoint with status 200 and the given body. -/
def reply (body : String) : Except GoError HttpResponse := .ok ⟨200, body⟩

/-- A world at clock reading `clock`, with scripted replies and an earlier log. -/
def worldAt (clock : Int) (replies : List (Except GoError HttpResponse)) (log : List Event) :
    World Sim :=
  ⟨⟨clock, [], none, replies, []⟩, log⟩

/-- The refresh request for `demoCreds` and the refresh token `r`. -/
def refreshPost (r : String) : Event :=
  Event.httpPost tokenURL
    [("grant_type", "refresh_token"), ("refresh_token", r), ("client_id", "abc"),
     ("client_secret", "xyz")]

/-- A world like `worldAt` whose backend refuses every write with the given error. -/
def lockedWorldAt (clock : Int) (replies : List (Except GoError HttpResponse))
    (err : GoError) : World Sim :=
  ⟨⟨clock, [], some err, replies, []⟩, []⟩

/-- A source that has cached the access token `a1` with no expiry (the endpoint sent no
`expires_in`). -/
def unsetExpirySource : OAuthTokenSource := ⟨storeWith "r1", demoCreds, "a1", Time.zero⟩

/-- A world in which the user pastes `line` at the prompt. -/
def pastedWorld (line : String) (replies : List (Except GoError HttpResponse)) : World Sim :=
  ⟨⟨1000, [], none, replies, [line]⟩, []⟩

/-- The environment `simEnv` with the environment variables `vars` set. -/
def simEnvWith (vars : List (String × String)) : Env Sim :=
  { simEnv with getenv := fun _ name => (lookupItem vars name).getD "" }

/-- The environment `simEnv` over a backend whose reads fail with `err`. -/
def simEnvReadFailing (err : GoError) : Env Sim :=
  { simEnv with ringGet := fun x _ => (.error err, x) }

/-- A world whose backend holds the given items. -/
def worldHolding (items : List (String × String)) : World Sim :=
  ⟨⟨1000, items, none, [], []⟩, []⟩

/-- A client whose account has the root collections `Work` (11) and `Home` (12) and the
child collections `home` (21) and `Recipes` (22); the state is the list of paths fetched. -/
def demoGet : GetItems (List String) := fun path fetched =>
  (if path = "/collections" then
      .ok [⟨11, "Work", 3, none⟩, ⟨12, "Home", 5, none⟩]
    else if path = "/collections/childrens" then
      .ok [⟨21, "home", 1, some 11⟩, ⟨22, "Recipes", 2, some 12⟩]
    else .error (.APIError 404 "not found" ""),
   fetched ++ [path])

/-- A client that creates every item it is sent and counts the calls. -/
def demoCreate : BulkCreate Nat := fun batch calls =>
  (.ok (batch.map (fun r => ⟨0, r.Link, ""⟩)), calls + 1)

/-- A sort by title, comparing the titles character by character. -/
def sortByTitle : List Collection → List Collection :=
  List.insertionSort (fun a b => ¬ b.Title.data < a.Title.data)

/-- The collections `Work` (11) and `Home` (12) at the root, `Recipes` (22) and `Garden`
(23) in `Home`, `Old` (31) in a collection that is not in the list, and `Loop` (41) in
itself. -/
def demoTree : List Collection :=
  [⟨11, "Work", 3, none⟩, ⟨22, "Recipes", 2, some 12⟩, ⟨12, "Home", 5, none⟩,
    ⟨31, "Old", 1, some 99⟩, ⟨23, "Garden", 4, some 12⟩, ⟨41, "Loop", 0, some 41⟩]

/-- A source that has cached the access token `a1` until clock reading 3600000001000. -/
def cachedSource : OAuthTokenSource :=
  ⟨storeWith "r1", demoCreds, "a1", ⟨3600000001000, Location.Local⟩⟩

end Raindrop

namespace Raindrop

variable {X : Type}

/-! ## Lemmas: what each operation adds to the log -/

theorem exchanges_now (E : Env X) (w : World X) : (w.now E).2.exchanges = w.exchanges := rfl

theorem exchanges_ringGet (E : Env X) (w : World X) (k : String) :
    (w.ringGet E k).2.exchanges = w.exchanges := by
  simp [World.ringGet, World.exchanges, List.countP_append, Event.isPost]

theorem exchanges_ringSet (E : Env X) (w : World X) (k d : String) :
    (w.ringSet E k d).2.exchanges = w.exchanges := by
  simp [World.ringSet, World.exchanges, List.countP_append, Event.isPost]

theorem exchanges_httpPost (E : Env X) (w : World X) (u : String) (p : List (String × String)) :
    (w.httpPost E u p).2.exchanges = w.exchanges + 1 := by
  simp [World.httpPost, World.exchanges, List.countP_append, Event.isPost]

theorem exchanges_stderr (w : World X) (t : String) : (w.stderr t).exchanges = w.exchanges := by
  simp [World.stderr, World.exchanges, List.countP_append, Event.isPost]

theorem SetToken_exchanges (E : Env X) (s : KeyringStore) (w : World X) (tok : Token) :
    (s.SetToken E w tok).2.2.exchanges = w.exchanges := by
  unfold KeyringStore.SetToken
  simp only []
  split <;> (try split) <;> (try split) <;> simp [exchanges_ringSet, exchanges_now]

theorem GetToken_exchanges (E : Env X) (s : KeyringStore) (w : World X) :
    (s.GetToken E w).2.2.exchanges = w.exchanges := by
  unfold KeyringStore.GetToken
  split
  · split <;> rfl
  · split
    · split <;> simp [exchanges_ringGet]
    · split <;> simp [exchanges_ringGet]

theorem exchangeToken_exchanges (E : Env X) (w : World X) (p : List (String × String)) :
    (exchangeToken E w p).2.exchanges = w.exchanges + 1 := by
  unfold exchangeToken
  split
  · simp [exchanges_httpPost]
  · split
    · simp [exchanges_httpPost]
    · split
      · simp [exchanges_httpPost]
      · split <;> simp [exchanges_httpPost, exchanges_now]

theorem adopt_exchanges (E : Env X) (ts : OAuthTokenSource) (s1 : KeyringStore) (w2 : World X)
    (tok : Token) (newTok : OAuth2Token) :
    (ts.adopt E s1 w2 tok newTok).2.2.exchanges = w2.exchanges := by
  unfold OAuthTokenSource.adopt
  split
  · split <;> simp [exchanges_stderr, SetToken_exchanges]
  · rfl

theorem checkCache_log (E : Env X) (ts : OAuthTokenSource) (w : World X) :
    (ts.checkCache E w).2.log = w.log := by
  unfold OAuthTokenSource.checkCache
  split <;> rfl

theorem checkCache_exchanges (E : Env X) (ts : OAuthTokenSource) (w : World X) :
    (ts.checkCache E w).2.exchanges = w.exchanges := by
  simp [World.exchanges, checkCache_log]

theorem refresh_exchanges_of_ok (E : Env X) (ts : OAuthTokenSource) (w : World X)
    (h : (ts.refresh E w).1 = none) : (ts.refresh E w).2.2.exchanges = w.exchanges + 1 := by
  unfold OAuthTokenSource.refresh at h ⊢
  split at h
  · simp at h
  · split at h
    · simp at h
    · split at h
      · simp at h
      · rename_i tok _ hne _ newTok hx
        simp only [hne, if_false, hx] at h ⊢
        rw [adopt_exchanges]
        simp [exchangeRefreshToken, exchangeToken_exchanges, GetToken_exchanges]

theorem refresh_of_exchange (E : Env X) (ts : OAuthTokenSource) (w w1 w2 : World X) (tok : Token)
    (s1 : KeyringStore) (newTok : OAuth2Token)
    (hGet : ts.store.GetToken E w = (.ok tok, s1, w1)) (hR : tok.RefreshToken ≠ "")
    (hEx : exchangeRefreshToken E w1 ts.creds tok.RefreshToken = (.ok newTok, w2)) :
    ts.refresh E w = ts.adopt E s1 w2 tok newTok := by
  unfold OAuthTokenSource.refresh
  simp [hGet, hR, hEx]

theorem adopt_ok (E : Env X) (ts : OAuthTokenSource) (s1 : KeyringStore) (w2 : World X)
    (tok : Token) (newTok : OAuth2Token) :
    (ts.adopt E s1 w2 tok newTok).1 = none ∧
    (ts.adopt E s1 w2 tok newTok).2.1.accessToken = newTok.AccessToken ∧
    (ts.adopt E s1 w2 tok newTok).2.1.accessExpiry = newTok.Expiry := by
  unfold OAuthTokenSource.adopt
  split
  · split <;> simp
  · simp

theorem Token_of_miss (E : Env X) (ts : OAuthTokenSource) (w0 w : World X)
    (hMiss : ts.checkCache E w0 = (false, w)) (hOk : (ts.refresh E w).1 = none) :
    ts.Token E w0 = (.ok (ts.refresh E w).2.1.current, (ts.refresh E w).2.1, (ts.refresh E w).2.2) := by
  unfold OAuthTokenSource.Token
  simp [hMiss, hOk]

theorem Token_of_exchange (E : Env X) (ts : OAuthTokenSource) (w0 w w1 w2 : World X) (tok : Token)
    (s1 : KeyringStore) (newTok : OAuth2Token)
    (hMiss : ts.checkCache E w0 = (false, w))
    (hGet : ts.store.GetToken E w = (.ok tok, s1, w1)) (hR : tok.RefreshToken ≠ "")
    (hEx : exchangeRefreshToken E w1 ts.creds tok.RefreshToken = (.ok newTok, w2)) :
    ts.Token E w0 = (.ok ⟨newTok.AccessToken, "", "", newTok.Expiry⟩,
      (ts.adopt E s1 w2 tok newTok).2.1, (ts.adopt E s1 w2 tok newTok).2.2) ∧
    (ts.Token E w0).2.2.exchanges = w0.exchanges + 1 := by
  have hr := refresh_of_exchange E ts w w1 w2 tok s1 newTok hGet hR hEx
  have ha := adopt_ok E ts s1 w2 tok newTok
  have hOk : (ts.refresh E w).1 = none := by rw [hr]; exact ha.1
  have hT := Token_of_miss E ts w0 w hMiss hOk
  have hw : w.exchanges = w0.exchanges := by
    have := checkCache_exchanges E ts w0
    rw [hMiss] at this
    exact this
  constructor
  · rw [hT, hr]
    simp [OAuthTokenSource.current, ha.2.1, ha.2.2]
  · rw [hT]
    simp only []
    rw [refresh_exchanges_of_ok E ts w hOk, hw]

theorem refresh_exchanges_of_stored (E : Env X) (ts : OAuthTokenSource) (w w1 : World X)
    (tok : Token) (s1 : KeyringStore)
    (hGet : ts.store.GetToken E w = (.ok tok, s1, w1)) (hR : tok.RefreshToken ≠ "") :
    (ts.refresh E w).2.2.exchanges = w.exchanges + 1 := by
  have hw : w1.exchanges = w.exchanges := by
    have := GetToken_exchanges E ts.store w
    rw [hGet] at this
    exact this
  unfold OAuthTokenSource.refresh
  simp only [hGet, hR, if_false]
  split
  · simp [exchangeRefreshToken, exchangeToken_exchanges, hw]
  · rw [adopt_exchanges]
    simp [exchangeRefreshToken, exchangeToken_exchanges, hw]

theorem Token_world (E : Env X) (ts : OAuthTokenSource) (w : World X)
    (hMiss : (ts.checkCache E w).1 = false) :
    (ts.Token E w).2.2 = (ts.refresh E (ts.checkCache E w).2).2.2 := by
  unfold OAuthTokenSource.Token
  rw [if_neg (by simp [hMiss])]
  split <;> rfl

theorem GetToken_ok_cached (E : Env X) (s s1 : KeyringStore) (w w1 : World X) (tok : Token)
    (hGet : s.GetToken E w = (.ok tok, s1, w1)) :
    s1.tokenLoaded = true ∧ s1.tokenCache = some tok := by
  unfold KeyringStore.GetToken at hGet
  split at hGet
  · rename_i hl
    split at hGet
    · simp at hGet
    · rename_i t hc
      simp only [Prod.mk.injEq, Except.ok.injEq] at hGet
      obtain ⟨h1, h2, _⟩ := hGet
      subst h2
      exact ⟨hl, by rw [hc, h1]⟩
  · split at hGet
    · split at hGet <;> simp at hGet
    · split at hGet
      · simp at hGet
      · simp only [Prod.mk.injEq, Except.ok.injEq] at hGet
        obtain ⟨h1, h2, _⟩ := hGet
        subst h2
        exact ⟨rfl, by rw [h1]⟩

theorem GetToken_of_cached (E : Env X) (s : KeyringStore) (w : World X) (tok : Token)
    (hl : s.tokenLoaded = true) (hc : s.tokenCache = some tok) :
    s.GetToken E w = (.ok tok, s, w) := by
  unfold KeyringStore.GetToken
  simp [hl, hc]

theorem SetToken_ok_cached (E : Env X) (s : KeyringStore) (w : World X) (T : Token)
    (hSet : (s.SetToken E w T).1 = none) :
    (s.SetToken E w T).2.1.tokenLoaded = true ∧
    (s.SetToken E w T).2.1.tokenCache =
      some ⟨T.TestToken, T.RefreshToken,
        if T.CreatedAt.IsZero then (w.now E).1.UTC else T.CreatedAt⟩ := by
  unfold KeyringStore.SetToken at hSet ⊢
  simp only [] at hSet ⊢
  split at hSet
  · simp at hSet
  · rename_i payload hm
    split at hSet
    · simp at hSet
    · rename_i hr
      simp only [hm, hr]
      refine ⟨trivial, ?_⟩
      split <;> rfl

theorem SetToken_fail_state (E : Env X) (s : KeyringStore) (w : World X) (T : Token)
    (err : GoError) (hSet : (s.SetToken E w T).1 = some err) : (s.SetToken E w T).2.1 = s := by
  unfold KeyringStore.SetToken at hSet ⊢
  simp only [] at hSet ⊢
  split
  · rfl
  · rename_i payload hm
    simp only [hm] at hSet
    split
    · rfl
    · rename_i hr
      simp only [hr] at hSet
      cases hSet

/-! ## C1 -/

/-- C1: a source holding a non-empty access token with a set expiry answers a `Token()`
call made strictly before that expiry with the cached token and expiry, leaves itself
unchanged and logs no external call (no store read, no exchange); and when the call
before it was a refreshing `Token()` that produced this state, the two calls together
made exactly one exchange. -/
theorem OAuthTokenSource_Token_serves_cache (E : Env X) (ts : OAuthTokenSource) (w : World X)
    (hTok : ts.accessToken ≠ "") (hExp : ts.accessExpiry.IsZero = false)
    (hNow : (w.now E).1.Before ts.accessExpiry = true) :
    ts.Token E w = (.ok ⟨ts.accessToken, "", "", ts.accessExpiry⟩, ts, (w.now E).2) ∧
    (ts.Token E w).2.2.log = w.log ∧
    ∀ (ts0 : OAuthTokenSource) (w0 w1 : World X) (tok0 : OAuth2Token),
      (ts0.checkCache E w0).1 = false → ts0.Token E w0 = (.ok tok0, ts, w1) → w.log = w1.log →
      tok0 = ⟨ts.accessToken, "", "", ts.accessExpiry⟩ ∧
      (ts.Token E w).2.2.exchanges = w0.exchanges + 1 := by
  have hc : ts.checkCache E w = (true, (w.now E).2) := by
    unfold OAuthTokenSource.checkCache
    simp [hTok, hExp, hNow]
  have hT : ts.Token E w = (.ok ⟨ts.accessToken, "", "", ts.accessExpiry⟩, ts, (w.now E).2) := by
    unfold OAuthTokenSource.Token
    simp [hc, OAuthTokenSource.current]
  refine ⟨hT, by rw [hT]; rfl, ?_⟩
  intro ts0 w0 w1 tok0 hMiss hFirst hLog
  have hex : (ts.Token E w).2.2.exchanges = w1.exchanges := by
    rw [hT]
    simp [World.exchanges, World.now, hLog]
  unfold OAuthTokenSource.Token at hFirst
  rw [if_neg (by simp [hMiss])] at hFirst
  split at hFirst
  · simp at hFirst
  · rename_i hOk
    simp only [Prod.mk.injEq, Except.ok.injEq] at hFirst
    obtain ⟨h1, h2, h3⟩ := hFirst
    refine ⟨?_, ?_⟩
    · rw [← h1, h2]; rfl
    · rw [hex, ← h3, refresh_exchanges_of_ok E ts0 _ hOk, checkCache_exchanges]

/-- Scenario 2 of the spec: the first `Token()` at clock reading 1000 exchanges `r1` for
`a1` (expires_in 3600); the second call at clock reading 2000 returns `a1` from the cache,
and one exchange has been made in total. -/
theorem OAuthTokenSource_Token_serves_cache_witness :
    (cachedSource.accessToken ≠ "" ∧ cachedSource.accessExpiry.IsZero = false ∧
      ((worldAt 2000 [] [refreshPost "r1"]).now simEnv).1.Before cachedSource.accessExpiry = true) ∧
    (NewOAuthTokenSource (storeWith "r1") demoCreds).Token simEnv
        (worldAt 1000 [reply "a1|r1|Bearer|3600"] []) =
      (.ok ⟨"a1", "", "", ⟨3600000001000, Location.Local⟩⟩, cachedSource,
        worldAt 1000 [] [refreshPost "r1"]) ∧
    cachedSource.Token simEnv (worldAt 2000 [] [refreshPost "r1"]) =
      (.ok ⟨"a1", "", "", ⟨3600000001000, Location.Local⟩⟩, cachedSource,
        worldAt 2000 [] [refreshPost "r1"]) ∧
    (cachedSource.Token simEnv (worldAt 2000 [] [refreshPost "r1"])).2.2.exchanges = 1 :=
  have h := OAuthTokenSource_Token_serves_cache simEnv cachedSource
    (worldAt 2000 [] [refreshPost "r1"]) (by decide) (by decide) (by decide)
  ⟨⟨by decide, by decide, by decide⟩, rfl, h.1,
    (h.2.2 (NewOAuthTokenSource (storeWith "r1") demoCreds)
      (worldAt 1000 [reply "a1|r1|Bearer|3600"] []) (worldAt 1000 [] [refreshPost "r1"])
      ⟨"a1", "", "", ⟨3600000001000, Location.Local⟩⟩ rfl rfl rfl).2⟩

/-! ## C2 -/

/-- C2: `Invalidate()` leaves the cached access token empty and the expiry unset; with a
stored refresh token and a succeeding exchange the next `Token()` returns the exchanged
token and performs exactly one exchange, whatever the expiry was before; and so does a
single `Token()` call whose clock reading is at or after the cached expiry. -/
theorem OAuthTokenSource_Invalidate_forces_refresh (E : Env X) (ts : OAuthTokenSource)
    (w w1 w2 : World X) (tok : Token) (s1 : KeyringStore) (newTok : OAuth2Token)
    (hGet : ts.store.GetToken E w = (.ok tok, s1, w1)) (hR : tok.RefreshToken ≠ "")
    (hEx : exchangeRefreshToken E w1 ts.creds tok.RefreshToken = (.ok newTok, w2)) :
    (ts.Invalidate.accessToken = "" ∧ ts.Invalidate.accessExpiry = Time.zero) ∧
    ((ts.Invalidate.Token E w).1 = .ok ⟨newTok.AccessToken, "", "", newTok.Expiry⟩ ∧
      (ts.Invalidate.Token E w).2.2.exchanges = w.exchanges + 1) ∧
    ∀ w0 : World X, (w0.now E).2 = w → ts.accessToken ≠ "" → ts.accessExpiry.IsZero = false →
      ts.accessExpiry.nanos ≤ (w0.now E).1.nanos →
      (ts.Token E w0).1 = .ok ⟨newTok.AccessToken, "", "", newTok.Expiry⟩ ∧
      (ts.Token E w0).2.2.exchanges = w0.exchanges + 1 := by
  refine ⟨⟨rfl, rfl⟩, ?_, ?_⟩
  · have hMiss : ts.Invalidate.checkCache E w = (false, w) := by
      simp [OAuthTokenSource.checkCache, OAuthTokenSource.Invalidate]
    have h := Token_of_exchange E ts.Invalidate w w w1 w2 tok s1 newTok hMiss hGet hR hEx
    exact ⟨by rw [h.1], h.2⟩
  · intro w0 hw hTok hExp hLate
    have hMiss : ts.checkCache E w0 = (false, w) := by
      have hb : (w0.now E).1.Before ts.accessExpiry = false := by
        simp [Time.Before, not_lt.mpr hLate]
      simp [OAuthTokenSource.checkCache, hTok, hExp, hb, hw]
    have h := Token_of_exchange E ts w0 w w1 w2 tok s1 newTok hMiss hGet hR hEx
    exact ⟨by rw [h.1], h.2⟩

/-- After `Invalidate()`, and also at the very instant of the cached expiry, `Token()`
exchanges the stored `r1` once more and hands out `a2`. -/
theorem OAuthTokenSource_Invalidate_forces_refresh_witness :
    (cachedSource.Invalidate.Token simEnv
        (worldAt 3600000001000 [reply "a2|r1|Bearer|60"] [refreshPost "r1"])).1 =
      .ok ⟨"a2", "", "", ⟨3660000001000, Location.Local⟩⟩ ∧
    (cachedSource.Invalidate.Token simEnv
        (worldAt 3600000001000 [reply "a2|r1|Bearer|60"] [refreshPost "r1"])).2.2.exchanges = 2 ∧
    (cachedSource.Token simEnv
        (worldAt 3600000001000 [reply "a2|r1|Bearer|60"] [refreshPost "r1"])).1 =
      .ok ⟨"a2", "", "", ⟨3660000001000, Location.Local⟩⟩ ∧
    (cachedSource.Token simEnv
        (worldAt 3600000001000 [reply "a2|r1|Bearer|60"] [refreshPost "r1"])).2.2.exchanges = 2 :=
  have h := OAuthTokenSource_Invalidate_forces_refresh simEnv cachedSource
    (worldAt 3600000001000 [reply "a2|r1|Bearer|60"] [refreshPost "r1"])
    (worldAt 3600000001000 [reply "a2|r1|Bearer|60"] [refreshPost "r1"])
    (worldAt 3600000001000 [] [refreshPost "r1", refreshPost "r1"])
    ⟨"", "r1", ⟨7, Location.UTC⟩⟩ (storeWith "r1")
    ⟨"a2", "Bearer", "r1", ⟨3660000001000, Location.Local⟩⟩ rfl (by decide) rfl
  ⟨h.2.1.1, h.2.1.2,
    h.2.2 (worldAt 3600000001000 [reply "a2|r1|Bearer|60"] [refreshPost "r1"]) rfl (by decide)
      (by decide) (by decide)⟩

/-! ## C3 -/

/-- C3, as stated, fails: the endpoint answers the first `Token()` with `a1` and no
`expires_in`, which leaves the source holding `a1` with an unset expiry; the next
`Token()`, with no `Invalidate()` in between, does not return the cached `a1` but
exchanges again (two exchanges in total) and returns `a2`. -/
theorem OAuthTokenSource_unset_expiry_counterexample :
    (NewOAuthTokenSource (storeWith "r1") demoCreds).Token simEnv
        (worldAt 1000 [reply "a1|||"] []) =
      (.ok ⟨"a1", "", "", Time.zero⟩, unsetExpirySource, worldAt 1000 [] [refreshPost "r1"]) ∧
    (unsetExpirySource.Token simEnv (worldAt 2000 [reply "a2|||"] [refreshPost "r1"])).1 =
      .ok ⟨"a2", "", "", Time.zero⟩ ∧
    (unsetExpirySource.Token simEnv (worldAt 2000 [reply "a2|||"] [refreshPost "r1"])).1 ≠
      .ok ⟨"a1", "", "", Time.zero⟩ ∧
    (unsetExpirySource.Token simEnv
      (worldAt 2000 [reply "a2|||"] [refreshPost "r1"])).2.2.exchanges = 2 := by
  refine ⟨rfl, rfl, ?_, rfl⟩
  intro h
  have h2 : (unsetExpirySource.Token simEnv (worldAt 2000 [reply "a2|||"] [refreshPost "r1"])).1 =
      .ok ⟨"a2", "", "", Time.zero⟩ := rfl
  rw [h2] at h
  injection h with h
  injection h with h
  revert h
  decide

/-- C3, amended: a successful response whose `expires_in` is absent or not positive
leaves the exchanged token's expiry unset, and a source whose cached expiry is unset never
serves from its cache: every `Token()` call goes through `refresh()`, reads the store, and
performs a new exchange whenever a refresh token is stored. -/
theorem OAuthTokenSource_unset_expiry_refreshes (E : Env X) (ts : OAuthTokenSource)
    (w : World X) (hZero : ts.accessExpiry.IsZero = true) :
    ts.checkCache E w = (false, w) ∧
    (ts.Token E w).2.2 = (ts.refresh E w).2.2 ∧
    (∀ (tok : Token) (s1 : KeyringStore) (w1 : World X),
      ts.store.GetToken E w = (.ok tok, s1, w1) → tok.RefreshToken ≠ "" →
      (ts.Token E w).2.2.exchanges = w.exchanges + 1) ∧
    (∀ (p : List (String × String)) (resp : HttpResponse) (tr : tokenResponse),
      (w.httpPost E tokenURL p).1 = .ok resp → 200 ≤ resp.StatusCode → resp.StatusCode < 300 →
      E.decodeTokenResponse resp.Body = .ok tr → tr.ExpiresIn ≤ 0 →
      (exchangeToken E w p).1 = .ok ⟨tr.AccessToken, tr.TokenType, tr.RefreshToken, Time.zero⟩) := by
  have hMiss : ts.checkCache E w = (false, w) := by
    simp [OAuthTokenSource.checkCache, hZero]
  have hW := Token_world E ts w (by rw [hMiss])
  rw [hMiss] at hW
  refine ⟨hMiss, hW, ?_, ?_⟩
  · intro tok s1 w1 hGet hR
    rw [hW]
    exact refresh_exchanges_of_stored E ts w w1 tok s1 hGet hR
  · intro p resp tr hPost hLo hHi hDec hExp
    unfold exchangeToken
    simp [hPost, hDec, not_lt.mpr hLo, not_le.mpr hHi, not_lt.mpr hExp]

/-- The source holding `a1` with an unset expiry exchanges again on the next call. -/
theorem OAuthTokenSource_unset_expiry_refreshes_witness :
    unsetExpirySource.accessExpiry.IsZero = true ∧
    (unsetExpirySource.Token simEnv
      (worldAt 2000 [reply "a2|||"] [refreshPost "r1"])).2.2.exchanges = 2 ∧
    (exchangeToken simEnv (worldAt 2000 [reply "a2|||"] [refreshPost "r1"]) []).1 =
      .ok ⟨"a2", "", "", Time.zero⟩ :=
  have h := OAuthTokenSource_unset_expiry_refreshes simEnv unsetExpirySource
    (worldAt 2000 [reply "a2|||"] [refreshPost "r1"]) (by decide)
  ⟨by decide,
    h.2.2.1 ⟨"", "r1", ⟨7, Location.UTC⟩⟩ (storeWith "r1")
      (worldAt 2000 [reply "a2|||"] [refreshPost "r1"]) rfl (by decide),
    h.2.2.2 [] ⟨200, "a2|||"⟩ ⟨"a2", "", "", 0⟩ rfl (by decide) (by decide) rfl (by decide)⟩

/-! ## C4 -/

/-- C4, as stated, fails. The endpoint rotates `r1` to `r2` in both runs. In the first
the backend refuses the write (locked keychain): `Token()` succeeds, and the store still
returns `r1` afterwards. In the second the stored token has no `created_at`: the store
returns `r2` afterwards, but with `created_at` set to the clock reading of the write, not
left as it was. -/
theorem OAuthTokenSource_refresh_rotation_counterexample :
    ((NewOAuthTokenSource (storeWith "r1") demoCreds).Token simEnv
        (lockedWorldAt 1000 [reply "a1|r2|Bearer|3600"] (.foreign "keychain is locked"))).1 =
      .ok ⟨"a1", "", "", ⟨3600000001000, Location.Local⟩⟩ ∧
    ((NewOAuthTokenSource (storeWith "r1") demoCreds).Token simEnv
        (lockedWorldAt 1000 [reply "a1|r2|Bearer|3600"]
          (.foreign "keychain is locked"))).2.1.store.GetToken simEnv (worldAt 2000 [] []) =
      (.ok ⟨"", "r1", ⟨7, Location.UTC⟩⟩, storeWith "r1", worldAt 2000 [] []) ∧
    (((NewOAuthTokenSource ⟨some ⟨"", "r1", Time.zero⟩, none, true, false⟩ demoCreds).Token
        simEnv (worldAt 1000 [reply "a1|r2|Bearer|3600"] [])).2.1.store.GetToken simEnv
        (worldAt 2000 [] [])).1 = .ok ⟨"", "r2", ⟨1000, Location.UTC⟩⟩ := by
  refine ⟨rfl, rfl, rfl⟩

/-- C4, amended: a refreshing `Token()` reads the stored token `tok` (refresh token `r1`)
and the exchange succeeds with `newTok`. If `newTok` carries a non-empty refresh token
different from `r1`: when `SetToken` succeeds, every later `GetToken()` on the store
returns `tok` with the refresh token replaced, the test token kept, and `created_at` kept
when it was set and stamped with the clock reading of the write when it was not; when
`SetToken` fails, the store is the one `GetToken` left and still returns `tok`. If
`newTok` carries an empty refresh token or `r1`, nothing happens after the exchange (no
clock read, no backend write), the store is the one `GetToken` left and still returns `tok`. -/
theorem OAuthTokenSource_refresh_rotation (E : Env X) (ts : OAuthTokenSource)
    (w0 w w1 w2 : World X) (tok : Token) (s1 : KeyringStore) (newTok : OAuth2Token)
    (hMiss : ts.checkCache E w0 = (false, w))
    (hGet : ts.store.GetToken E w = (.ok tok, s1, w1)) (hR : tok.RefreshToken ≠ "")
    (hEx : exchangeRefreshToken E w1 ts.creds tok.RefreshToken = (.ok newTok, w2)) :
    (newTok.RefreshToken ≠ "" → newTok.RefreshToken ≠ tok.RefreshToken →
      ((s1.SetToken E w2 { tok with RefreshToken := newTok.RefreshToken }).1 = none →
        ∀ w3 : World X, (ts.Token E w0).2.1.store.GetToken E w3 =
          (.ok ⟨tok.TestToken, newTok.RefreshToken,
              if tok.CreatedAt.IsZero then (w2.now E).1.UTC else tok.CreatedAt⟩,
            (ts.Token E w0).2.1.store, w3)) ∧
      (∀ err : GoError,
        (s1.SetToken E w2 { tok with RefreshToken := newTok.RefreshToken }).1 = some err →
        (ts.Token E w0).2.1.store = s1 ∧
        ∀ w3 : World X, (ts.Token E w0).2.1.store.GetToken E w3 = (.ok tok, s1, w3))) ∧
    (newTok.RefreshToken = "" ∨ newTok.RefreshToken = tok.RefreshToken →
      (ts.Token E w0).2 = (⟨s1, ts.creds, newTok.AccessToken, newTok.Expiry⟩, w2) ∧
      (ts.Token E w0).2.2.ringWrites = w2.ringWrites ∧
      ∀ w3 : World X, (ts.Token E w0).2.1.store.GetToken E w3 = (.ok tok, s1, w3)) := by
  have hT := (Token_of_exchange E ts w0 w w1 w2 tok s1 newTok hMiss hGet hR hEx).1
  have hc := GetToken_ok_cached E ts.store s1 w w1 tok hGet
  constructor
  · intro hNe hRot
    constructor
    · intro hSet w3
      have hStore : (ts.Token E w0).2.1.store =
          (s1.SetToken E w2 { tok with RefreshToken := newTok.RefreshToken }).2.1 := by
        rw [hT]
        unfold OAuthTokenSource.adopt
        rw [if_pos ⟨hNe, hRot⟩]
        simp only [hSet]
      have hCache := SetToken_ok_cached E s1 w2 { tok with RefreshToken := newTok.RefreshToken }
        hSet
      rw [hStore]
      exact GetToken_of_cached E _ w3 _ hCache.1 hCache.2
    · intro err hSet
      have hStore : (ts.Token E w0).2.1.store = s1 := by
        rw [hT]
        unfold OAuthTokenSource.adopt
        rw [if_pos ⟨hNe, hRot⟩]
        simp only [hSet]
        exact SetToken_fail_state E s1 w2 _ err hSet
      refine ⟨hStore, fun w3 => ?_⟩
      rw [hStore]
      exact GetToken_of_cached E s1 w3 tok hc.1 hc.2
  · intro hSame
    have hAd : ts.adopt E s1 w2 tok newTok =
        (none, ⟨s1, ts.creds, newTok.AccessToken, newTok.Expiry⟩, w2) := by
      unfold OAuthTokenSource.adopt
      rw [if_neg]
      intro h
      rcases hSame with h1 | h1
      · exact h.1 h1
      · exact h.2 h1
    rw [hT, hAd]
    exact ⟨rfl, rfl, fun w3 => GetToken_of_cached E s1 w3 tok hc.1 hc.2⟩

/-- Scenario 3 of the spec: the endpoint answers with refresh token `r2` while `r1` is
stored; afterwards the store returns `r2`, with the test token and `created_at` kept. -/
theorem OAuthTokenSource_refresh_rotation_witness :
    ((NewOAuthTokenSource (storeWith "r1") demoCreds).Token simEnv
        (worldAt 1000 [reply "a1|r2|Bearer|3600"] [])).2.1.store.GetToken simEnv
        (worldAt 2000 [] []) =
      (.ok ⟨"", "r2", ⟨7, Location.UTC⟩⟩, storeWith "r2", worldAt 2000 [] []) :=
  ((OAuthTokenSource_refresh_rotation simEnv (NewOAuthTokenSource (storeWith "r1") demoCreds)
    (worldAt 1000 [reply "a1|r2|Bearer|3600"] []) (worldAt 1000 [reply "a1|r2|Bearer|3600"] [])
    (worldAt 1000 [reply "a1|r2|Bearer|3600"] []) (worldAt 1000 [] [refreshPost "r1"])
    ⟨"", "r1", ⟨7, Location.UTC⟩⟩ (storeWith "r1")
    ⟨"a1", "Bearer", "r2", ⟨3600000001000, Location.Local⟩⟩ rfl rfl (by decide) rfl).1
    (by decide) (by decide)).1 rfl (worldAt 2000 [] [])

/-! ## C5 -/

/-- C5: when the exchange succeeds with a rotated refresh token and the store's `SetToken`
fails with `err`, `Token()` still returns the new access token and expiry with no error,
the source caches them, and the failure only shows as a warning on the error stream. -/
theorem OAuthTokenSource_refresh_store_failure (E : Env X) (ts : OAuthTokenSource)
    (w0 w w1 w2 : World X) (tok : Token) (s1 : KeyringStore) (newTok : OAuth2Token)
    (err : GoError)
    (hMiss : ts.checkCache E w0 = (false, w))
    (hGet : ts.store.GetToken E w = (.ok tok, s1, w1)) (hR : tok.RefreshToken ≠ "")
    (hEx : exchangeRefreshToken E w1 ts.creds tok.RefreshToken = (.ok newTok, w2))
    (hNe : newTok.RefreshToken ≠ "") (hRot : newTok.RefreshToken ≠ tok.RefreshToken)
    (hFail : (s1.SetToken E w2 { tok with RefreshToken := newTok.RefreshToken }).1 = some err) :
    (ts.Token E w0).1 = .ok ⟨newTok.AccessToken, "", "", newTok.Expiry⟩ ∧
    (ts.Token E w0).2.1.accessToken = newTok.AccessToken ∧
    (ts.Token E w0).2.1.accessExpiry = newTok.Expiry ∧
    (ts.Token E w0).2.2 =
      (s1.SetToken E w2 { tok with RefreshToken := newTok.RefreshToken }).2.2.stderr
        ("Warning: failed to store new refresh token: " ++ err.Error ++ "\n") := by
  have hT := (Token_of_exchange E ts w0 w w1 w2 tok s1 newTok hMiss hGet hR hEx).1
  have ha := adopt_ok E ts s1 w2 tok newTok
  refine ⟨by rw [hT], by rw [hT]; exact ha.2.1, by rw [hT]; exact ha.2.2, ?_⟩
  rw [hT]
  unfold OAuthTokenSource.adopt
  rw [if_pos ⟨hNe, hRot⟩]
  simp only [hFail]

/-- The backend refuses the write of the rotated `r2` (locked keychain): `Token()` still
returns `a1`, and the last thing logged is the warning. -/
theorem OAuthTokenSource_refresh_store_failure_witness :
    ((NewOAuthTokenSource (storeWith "r1") demoCreds).Token simEnv
        (lockedWorldAt 1000 [reply "a1|r2|Bearer|3600"] (.foreign "keychain is locked"))).1 =
      .ok ⟨"a1", "", "", ⟨3600000001000, Location.Local⟩⟩ ∧
    ((NewOAuthTokenSource (storeWith "r1") demoCreds).Token simEnv
        (lockedWorldAt 1000 [reply "a1|r2|Bearer|3600"] (.foreign "keychain is locked"))).2.1 =
      ⟨storeWith "r1", demoCreds, "a1", ⟨3600000001000, Location.Local⟩⟩ :=
  have h := OAuthTokenSource_refresh_store_failure simEnv
    (NewOAuthTokenSource (storeWith "r1") demoCreds)
    (lockedWorldAt 1000 [reply "a1|r2|Bearer|3600"] (.foreign "keychain is locked"))
    (lockedWorldAt 1000 [reply "a1|r2|Bearer|3600"] (.foreign "keychain is locked"))
    (lockedWorldAt 1000 [reply "a1|r2|Bearer|3600"] (.foreign "keychain is locked"))
    ⟨⟨1000, [], some (.foreign "keychain is locked"), [], []⟩, [refreshPost "r1"]⟩
    ⟨"", "r1", ⟨7, Location.UTC⟩⟩ (storeWith "r1")
    ⟨"a1", "Bearer", "r2", ⟨3600000001000, Location.Local⟩⟩
    (wrapKeychainError (.wrapf "store token: " (.foreign "keychain is locked") ""))
    rfl rfl (by decide) rfl (by decide) (by decide) rfl
  ⟨h.1, rfl⟩

/-! ## C6 -/

theorem manualPrompt_scanln_exchanges (E : Env X) (w : World X) (u : String) :
    ((manualPrompt w u).scanln E).2.exchanges = w.exchanges := by
  simp [manualPrompt, World.scanln, World.stderr, World.exchanges, List.countP_append,
    Event.isPost]

/-- C6: in manual mode, when the pasted line parses to a URL with a non-empty `code`, the
flow returns `errStateMismatch` exactly when the URL's `state` is non-empty and differs
from the nonce, and then nothing happens after the line is read (no exchange); when
`state` is empty (or absent) or equals the nonce, the flow goes on to exchange the code:
it ends in the world the authorization-code exchange of that code leaves, with exactly one
exchange made. -/
theorem authorizeManual_state_check (E : Env X) (w : World X) (redirectURL : String)
    (creds : OAuthCredentials) (nonce line : String) (u : URL)
    (hScan : ((manualPrompt w (E.authCodeURL redirectURL creds.ClientID nonce)).scanln E).1 =
      .ok line)
    (hParse : E.urlParse (TrimSpace line) = .ok u)
    (hCode : queryGet u.Query "code" ≠ "") :
    ((authorizeManual E w redirectURL creds nonce).1 = .error errStateMismatch ↔
      (queryGet u.Query "state" ≠ "" ∧ queryGet u.Query "state" ≠ nonce)) ∧
    (queryGet u.Query "state" ≠ "" ∧ queryGet u.Query "state" ≠ nonce →
      (authorizeManual E w redirectURL creds nonce).2 =
        ((manualPrompt w (E.authCodeURL redirectURL creds.ClientID nonce)).scanln E).2 ∧
      (authorizeManual E w redirectURL creds nonce).2.exchanges = w.exchanges) ∧
    (queryGet u.Query "state" = "" ∨ queryGet u.Query "state" = nonce →
      (authorizeManual E w redirectURL creds nonce).2 =
        (exchangeAuthorizationCode E
          ((manualPrompt w (E.authCodeURL redirectURL creds.ClientID nonce)).scanln E).2
          creds redirectURL (queryGet u.Query "code")).2 ∧
      (authorizeManual E w redirectURL creds nonce).2.exchanges = w.exchanges + 1) := by
  have hX : extractCodeAndState E (TrimSpace line) =
      .ok (queryGet u.Query "code", queryGet u.Query "state") := by
    simp [extractCodeAndState, hParse, hCode]
  have hBad : queryGet u.Query "state" ≠ "" ∧ queryGet u.Query "state" ≠ nonce →
      authorizeManual E w redirectURL creds nonce =
        (.error errStateMismatch,
          ((manualPrompt w (E.authCodeURL redirectURL creds.ClientID nonce)).scanln E).2) := by
    intro h
    unfold authorizeManual
    simp only [hScan, hX]
    rw [if_pos h]
  have hGood : ¬ (queryGet u.Query "state" ≠ "" ∧ queryGet u.Query "state" ≠ nonce) →
      (authorizeManual E w redirectURL creds nonce).1 ≠ .error errStateMismatch ∧
      (authorizeManual E w redirectURL creds nonce).2 =
        (exchangeAuthorizationCode E
          ((manualPrompt w (E.authCodeURL redirectURL creds.ClientID nonce)).scanln E).2
          creds redirectURL (queryGet u.Query "code")).2 := by
    intro h
    unfold authorizeManual
    simp only [hScan, hX]
    rw [if_neg h]
    split
    · exact ⟨by simp [errStateMismatch], rfl⟩
    · split
      · exact ⟨by simp [errStateMismatch, errNoRefreshToken], rfl⟩
      · exact ⟨by simp, rfl⟩
  refine ⟨⟨?_, fun h => by rw [hBad h]⟩, ?_, ?_⟩
  · intro h
    by_contra hn
    exact (hGood hn).1 h
  · intro h
    rw [hBad h]
    exact ⟨rfl, manualPrompt_scanln_exchanges E w _⟩
  · intro h
    have hn : ¬ (queryGet u.Query "state" ≠ "" ∧ queryGet u.Query "state" ≠ nonce) := by
      intro hb
      rcases h with h | h
      · exact hb.1 h
      · exact hb.2 h
    refine ⟨(hGood hn).2, ?_⟩
    rw [(hGood hn).2]
    simp [exchangeAuthorizationCode, exchangeToken_exchanges, manualPrompt_scanln_exchanges]

/-- Scenario 4 of the spec: the pasted URL carries `state=WRONG` while the nonce is `RIGHT`;
the flow fails with `errStateMismatch` and makes no exchange. -/
theorem authorizeManual_state_check_witness :
    (authorizeManual simEnv
        (pastedWorld "http://localhost:8484/callback?code=abc&state=WRONG" [reply "a1|r1|Bearer|60"])
        "http://localhost:8484/callback" demoCreds "RIGHT").1 = .error errStateMismatch ∧
    (authorizeManual simEnv
        (pastedWorld "http://localhost:8484/callback?code=abc&state=WRONG" [reply "a1|r1|Bearer|60"])
        "http://localhost:8484/callback" demoCreds "RIGHT").2.exchanges = 0 :=
  have h := authorizeManual_state_check simEnv
    (pastedWorld "http://localhost:8484/callback?code=abc&state=WRONG" [reply "a1|r1|Bearer|60"])
    "http://localhost:8484/callback" demoCreds "RIGHT"
    "http://localhost:8484/callback?code=abc&state=WRONG"
    ⟨"/callback", "", [("code", "abc"), ("state", "WRONG")]⟩ rfl rfl (by decide)
  ⟨h.1.2 (by decide), (h.2.1 (by decide)).2⟩

/-! ## C7 -/

/-- C7: the callback handler decides in this order. A path other than `/callback` gives
404 and touches no channel; else a non-empty `error` parameter offers the authorization
error to the error channel and gives 200 with the cancelled page; else a `state` other
than the nonce (an absent one included) offers `errStateMismatch` and gives 400; else an
absent or empty `code` offers `errMissingCode` and gives 400; else the code is offered to
the code channel, with 200 and the success page. So a request whose `state` differs from
the nonce never changes the code channel. -/
theorem callbackHandler_decision_order (nonce : String) (ch : Channels) (r : URL) :
    (r.Path ≠ "/callback" →
      callbackHandler nonce ch r = (⟨404, "text/plain; charset=utf-8", Page.notFound⟩, ch)) ∧
    (r.Path = "/callback" → queryGet r.Query "error" ≠ "" →
      callbackHandler nonce ch r =
        (⟨200, "text/html; charset=utf-8", Page.cancelled⟩,
          ⟨ch.codeCh,
            trySend ch.errCh (.wrapf "" errAuthorization (": " ++ queryGet r.Query "error"))⟩)) ∧
    (r.Path = "/callback" → queryGet r.Query "error" = "" → queryGet r.Query "state" ≠ nonce →
      callbackHandler nonce ch r =
        (⟨400, "text/html; charset=utf-8", Page.errorPage "State mismatch - please try again."⟩,
          ⟨ch.codeCh, trySend ch.errCh errStateMismatch⟩)) ∧
    (r.Path = "/callback" → queryGet r.Query "error" = "" → queryGet r.Query "state" = nonce →
      queryGet r.Query "code" = "" →
      callbackHandler nonce ch r =
        (⟨400, "text/html; charset=utf-8", Page.errorPage "Missing authorization code."⟩,
          ⟨ch.codeCh, trySend ch.errCh errMissingCode⟩)) ∧
    (r.Path = "/callback" → queryGet r.Query "error" = "" → queryGet r.Query "state" = nonce →
      queryGet r.Query "code" ≠ "" →
      callbackHandler nonce ch r =
        (⟨200, "text/html; charset=utf-8", Page.success⟩,
          ⟨trySend ch.codeCh (queryGet r.Query "code"), ch.errCh⟩)) ∧
    (queryGet r.Query "state" ≠ nonce → (callbackHandler nonce ch r).2.codeCh = ch.codeCh) := by
  refine ⟨?_, ?_, ?_, ?_, ?_, ?_⟩
  · intro h
    simp [callbackHandler, h]
  · intro hp he
    simp [callbackHandler, hp, he]
  · intro hp he hs
    simp [callbackHandler, hp, he, hs]
  · intro hp he hs hc
    simp [callbackHandler, hp, he, hs, hc]
  · intro hp he hs hc
    simp [callbackHandler, hp, he, hs, hc]
  · intro hs
    unfold callbackHandler
    split
    · rfl
    · split
      · rfl
      · rfl

/-- A callback with a valid-looking code but the wrong state: 400, `errStateMismatch`
offered, the code channel stays empty. -/
theorem callbackHandler_decision_order_witness :
    callbackHandler "RIGHT" ⟨none, none⟩ ⟨"/callback", "", [("code", "abc"), ("state", "WRONG")]⟩ =
      (⟨400, "text/html; charset=utf-8", Page.errorPage "State mismatch - please try again."⟩,
        ⟨none, some errStateMismatch⟩) :=
  (callbackHandler_decision_order "RIGHT" ⟨none, none⟩
    ⟨"/callback", "", [("code", "abc"), ("state", "WRONG")]⟩).2.2.1 rfl (by decide) (by decide)

/-! ## C8 -/

/-- C8: when `SetToken(T)` returns no error (the token was encoded and the backend write
succeeded), every `GetToken()` on the store it leaves returns, with no error and without
changing the store or touching the world, the token with `T`'s test token and refresh
token, and with `T`'s `created_at` if that was set and otherwise the clock reading taken by
`SetToken`, in UTC (non-zero whenever the clock reading is). -/
theorem KeyringStore_SetToken_GetToken (E : Env X) (s : KeyringStore) (w : World X) (T : Token)
    (hSet : (s.SetToken E w T).1 = none) :
    (∀ w3 : World X, (s.SetToken E w T).2.1.GetToken E w3 =
      (.ok ⟨T.TestToken, T.RefreshToken,
          if T.CreatedAt.IsZero then (w.now E).1.UTC else T.CreatedAt⟩,
        (s.SetToken E w T).2.1, w3)) ∧
    ((w.now E).1.UTC.loc = Location.UTC ∧
      ((w.now E).1.IsZero = false → (w.now E).1.UTC.IsZero = false)) := by
  refine ⟨?_, rfl, fun h => h⟩
  intro w3
  apply GetToken_of_cached
  · unfold KeyringStore.SetToken at hSet ⊢
    simp only [] at hSet ⊢
    split at hSet
    · simp at hSet
    · rename_i payload hm
      split at hSet
      · simp at hSet
      · rename_i hr
        simp [hm, hr]
  · unfold KeyringStore.SetToken at hSet ⊢
    simp only [] at hSet ⊢
    split at hSet
    · simp at hSet
    · rename_i payload hm
      split at hSet
      · simp at hSet
      · rename_i hr
        simp only [hm, hr]
        split <;> rfl

/-- Storing `refresh_token: r1` with no `created_at` at clock reading 1000, then reading:
the token comes back stamped with 1000 in UTC. -/
theorem KeyringStore_SetToken_GetToken_witness :
    (KeyringStore.fresh.SetToken simEnv (worldAt 1000 [] []) ⟨"", "r1", Time.zero⟩).1 = none ∧
    (KeyringStore.fresh.SetToken simEnv (worldAt 1000 [] []) ⟨"", "r1", Time.zero⟩).2.1.GetToken
        simEnv (worldAt 2000 [] []) =
      (.ok ⟨"", "r1", ⟨1000, Location.UTC⟩⟩, ⟨some ⟨"", "r1", ⟨1000, Location.UTC⟩⟩, none, true, false⟩,
        worldAt 2000 [] []) :=
  ⟨rfl, (KeyringStore_SetToken_GetToken simEnv KeyringStore.fresh (worldAt 1000 [] [])
    ⟨"", "r1", Time.zero⟩ rfl).1 (worldAt 2000 [] [])⟩

/-! ## C9 -/

/-- C9: on a store whose token cache is empty (no `SetToken` ever ran, and no entry was
ever read) and whose backend, if it is asked, answers that the key is not found,
`GetToken` returns exactly the sentinel `ErrNoToken`, and so does every later `GetToken`
on the store it leaves, which it no longer changes and which no longer asks the backend;
likewise `GetCredentials` and `ErrNoCredentials`. -/
theorem KeyringStore_Get_not_found (E : Env X) (s : KeyringStore) (w : World X) :
    (s.tokenCache = none →
      (s.tokenLoaded = false →
        ∃ err, (w.ringGet E tokenKey).1 = .error err ∧ errorsIs err ErrKeyNotFound = true) →
      (s.GetToken E w).1 = .error ErrNoToken ∧
      ∀ w3 : World X, (s.GetToken E w).2.1.GetToken E w3 =
        (.error ErrNoToken, (s.GetToken E w).2.1, w3)) ∧
    (s.credsCache = none →
      (s.credsLoaded = false →
        ∃ err, (w.ringGet E credentialsKey).1 = .error err ∧ errorsIs err ErrKeyNotFound = true) →
      (s.GetCredentials E w).1 = .error ErrNoCredentials ∧
      ∀ w3 : World X, (s.GetCredentials E w).2.1.GetCredentials E w3 =
        (.error ErrNoCredentials, (s.GetCredentials E w).2.1, w3)) := by
  constructor
  · intro hc hb
    by_cases hl : s.tokenLoaded = true
    · have h1 : s.GetToken E w = (.error ErrNoToken, s, w) := by
        simp [KeyringStore.GetToken, hl, hc]
      rw [h1]
      exact ⟨rfl, fun w3 => by simp [KeyringStore.GetToken, hl, hc]⟩
    · have hl2 : s.tokenLoaded = false := by simpa using hl
      obtain ⟨err, he, hk⟩ := hb hl2
      have h1 : s.GetToken E w = (.error ErrNoToken,
          { s with tokenLoaded := true, tokenCache := none }, (w.ringGet E tokenKey).2) := by
        simp [KeyringStore.GetToken, hl2, he, hk]
      rw [h1]
      exact ⟨rfl, fun w3 => by simp [KeyringStore.GetToken]⟩
  · intro hc hb
    by_cases hl : s.credsLoaded = true
    · have h1 : s.GetCredentials E w = (.error ErrNoCredentials, s, w) := by
        simp [KeyringStore.GetCredentials, hl, hc]
      rw [h1]
      exact ⟨rfl, fun w3 => by simp [KeyringStore.GetCredentials, hl, hc]⟩
    · have hl2 : s.credsLoaded = false := by simpa using hl
      obtain ⟨err, he, hk⟩ := hb hl2
      have h1 : s.GetCredentials E w = (.error ErrNoCredentials,
          { s with credsLoaded := true, credsCache := none },
          (w.ringGet E credentialsKey).2) := by
        simp [KeyringStore.GetCredentials, hl2, he, hk]
      rw [h1]
      exact ⟨rfl, fun w3 => by simp [KeyringStore.GetCredentials]⟩

/-- A freshly opened store over an empty backend: both reads give the sentinels. -/
theorem KeyringStore_Get_not_found_witness :
    (KeyringStore.fresh.GetToken simEnv (worldAt 1000 [] [])).1 = .error ErrNoToken ∧
    (KeyringStore.fresh.GetCredentials simEnv (worldAt 1000 [] [])).1 = .error ErrNoCredentials :=
  have h := KeyringStore_Get_not_found simEnv KeyringStore.fresh (worldAt 1000 [] [])
  ⟨(h.1 rfl (fun _ => ⟨ErrKeyNotFound, rfl, by decide⟩)).1,
    (h.2 rfl (fun _ => ⟨ErrKeyNotFound, rfl, by decide⟩)).1⟩

/-! ## C10 -/

/-- C10: when the client id or the client secret is empty after `TrimSpace`,
`SetCredentials` returns `errMissingClientID` (blank id) or `errMissingClientSecret` (blank
secret only) and leaves both the store (cache and loaded flag) and the world unchanged:
nothing is logged, so nothing is written to the backend. -/
theorem KeyringStore_SetCredentials_validation (E : Env X) (s : KeyringStore) (w : World X)
    (creds : OAuthCredentials)
    (hBlank : TrimSpace creds.ClientID = "" ∨ TrimSpace creds.ClientSecret = "") :
    ((TrimSpace creds.ClientID = "" ∧
        (s.SetCredentials E w creds).1 = some errMissingClientID) ∨
      (TrimSpace creds.ClientID ≠ "" ∧
        (s.SetCredentials E w creds).1 = some errMissingClientSecret)) ∧
    (s.SetCredentials E w creds).2 = (s, w) ∧
    (s.SetCredentials E w creds).2.2.ringWrites = w.ringWrites := by
  by_cases hid : TrimSpace creds.ClientID = ""
  · have h : s.SetCredentials E w creds = (some errMissingClientID, s, w) := by
      simp [KeyringStore.SetCredentials, hid]
    rw [h]
    exact ⟨Or.inl ⟨hid, rfl⟩, rfl, rfl⟩
  · have hsec : TrimSpace creds.ClientSecret = "" := by
      rcases hBlank with h | h
      · exact absurd h hid
      · exact h
    have h : s.SetCredentials E w creds = (some errMissingClientSecret, s, w) := by
      simp [KeyringStore.SetCredentials, hid, hsec]
    rw [h]
    exact ⟨Or.inr ⟨hid, rfl⟩, rfl, rfl⟩

/-- A client id made of blanks only is refused; store and world stay as they were. -/
theorem KeyringStore_SetCredentials_validation_witness :
    TrimSpace " \t " = "" ∧
    KeyringStore.fresh.SetCredentials simEnv (worldAt 1000 [] []) ⟨" \t ", "xyz", ""⟩ =
      (some errMissingClientID, KeyringStore.fresh, worldAt 1000 [] []) :=
  have h := KeyringStore_SetCredentials_validation simEnv KeyringStore.fresh (worldAt 1000 [] [])
    ⟨" \t ", "xyz", ""⟩ (Or.inl (by decide))
  ⟨by decide, Prod.ext (h.1.elim (fun a => a.2) (fun b => absurd (by decide) b.1)) h.2.1⟩

/-! ## C11 -/

theorem GetCredentials_of_cached (E : Env X) (s : KeyringStore) (w : World X)
    (c : OAuthCredentials) (hl : s.credsLoaded = true) (hc : s.credsCache = some c) :
    s.GetCredentials E w = (.ok c, s, w) := by
  unfold KeyringStore.GetCredentials
  simp [hl, hc]

theorem SetCredentials_ok_cached (E : Env X) (s : KeyringStore) (w : World X)
    (c : OAuthCredentials) (hSet : (s.SetCredentials E w c).1 = none) :
    (s.SetCredentials E w c).2.1.credsLoaded = true ∧
    (s.SetCredentials E w c).2.1.credsCache = some c ∧
    TrimSpace c.ClientID ≠ "" ∧ TrimSpace c.ClientSecret ≠ "" := by
  unfold KeyringStore.SetCredentials at hSet ⊢
  split at hSet
  · simp at hSet
  · rename_i hid
    split at hSet
    · simp at hSet
    · rename_i hsec
      simp only [hid, hsec, if_false]
      split at hSet
      · simp at hSet
      · rename_i payload hm
        split at hSet
        · simp at hSet
        · rename_i hr
          simp [hr, hid, hsec]

/-- C11: after a `SetCredentials(c)` that returned no error (which needs a non-blank
client id and secret, and a successful backend write), `CredentialsExists()` on the same
store returns `(true, nil)` and `GetCredentials()` returns exactly `c`, both from the cache;
and on a store with no cached credentials whose backend, if asked, answers that the key is
not found, `CredentialsExists()` returns `(false, nil)`. -/
theorem KeyringStore_credentials_roundtrip (E : Env X) (s : KeyringStore) (w : World X)
    (c : OAuthCredentials) :
    ((s.SetCredentials E w c).1 = none →
      (TrimSpace c.ClientID ≠ "" ∧ TrimSpace c.ClientSecret ≠ "") ∧
      ∀ w3 : World X,
        (s.SetCredentials E w c).2.1.CredentialsExists E w3 =
          (.ok true, (s.SetCredentials E w c).2.1, w3) ∧
        (s.SetCredentials E w c).2.1.GetCredentials E w3 =
          (.ok c, (s.SetCredentials E w c).2.1, w3)) ∧
    (s.credsCache = none →
      (s.credsLoaded = false →
        ∃ err, (w.ringGet E credentialsKey).1 = .error err ∧ errorsIs err ErrKeyNotFound = true) →
      (s.CredentialsExists E w).1 = .ok false) := by
  constructor
  · intro hSet
    have h := SetCredentials_ok_cached E s w c hSet
    refine ⟨⟨h.2.2.1, h.2.2.2⟩, fun w3 => ⟨?_, GetCredentials_of_cached E _ w3 c h.1 h.2.1⟩⟩
    unfold KeyringStore.CredentialsExists
    simp [h.1, h.2.1]
  · intro hc hb
    unfold KeyringStore.CredentialsExists
    by_cases hl : s.credsLoaded = true
    · simp [hl, hc]
    · have hl2 : s.credsLoaded = false := by simpa using hl
      obtain ⟨err, he, hk⟩ := hb hl2
      have h1 : s.GetCredentials E w = (.error ErrNoCredentials,
          { s with credsLoaded := true, credsCache := none },
          (w.ringGet E credentialsKey).2) := by
        simp [KeyringStore.GetCredentials, hl2, he, hk]
      simp only [hl2, h1]
      have : errorsIs ErrNoCredentials ErrNoCredentials = true := by decide
      simp [this]

/-- Scenario 1 of the spec: credentials `abc`/`xyz` are stored, then found and read back;
and a fresh store over an empty backend has none. -/
theorem KeyringStore_credentials_roundtrip_witness :
    (KeyringStore.fresh.SetCredentials simEnv (worldAt 1000 [] []) demoCreds).1 = none ∧
    ((KeyringStore.fresh.SetCredentials simEnv (worldAt 1000 [] []) demoCreds).2.1.CredentialsExists
        simEnv (worldAt 2000 [] [])).1 = .ok true ∧
    ((KeyringStore.fresh.SetCredentials simEnv (worldAt 1000 [] []) demoCreds).2.1.GetCredentials
        simEnv (worldAt 2000 [] [])).1 = .ok ⟨"abc", "xyz", ""⟩ ∧
    (KeyringStore.fresh.CredentialsExists simEnv (worldAt 1000 [] [])).1 = .ok false :=
  have h := KeyringStore_credentials_roundtrip simEnv KeyringStore.fresh (worldAt 1000 [] [])
    demoCreds
  ⟨rfl, by rw [((h.1 rfl).2 (worldAt 2000 [] [])).1],
    by rw [((h.1 rfl).2 (worldAt 2000 [] [])).2]; rfl,
    h.2 rfl (fun _ => ⟨ErrKeyNotFound, rfl, by decide⟩)⟩

/-! ## C12 -/

theorem errorsIs_wrapf_sentinel (p q : String) (e : GoError) (n t : String) :
    errorsIs (.wrapf p e q) (.sentinel n t) = errorsIs e (.sentinel n t) := by
  simp [errorsIs]

/-- C12 fails on the code: with `RAINDROP_TOKEN` unset and a store whose backend holds no
token entry, `TestTokenSource.Token()` fails with `get token: no token found`, an error
that wraps `ErrNoToken` and does not satisfy `errors.Is(err, ErrNotAuthenticated)`, while
with an entry whose test token is empty it fails with `ErrNotAuthenticated` itself, as
the claim says for both. -/
theorem TestTokenSource_Token_missing_entry :
    ((TestTokenSource.mk KeyringStore.fresh).Token simEnv (worldAt 1000 [] [])).1 =
      .error (.wrapf "get token: " ErrNoToken "") ∧
    errorsIs (.wrapf "get token: " ErrNoToken "") ErrNotAuthenticated = false ∧
    errorsIs (.wrapf "get token: " ErrNoToken "") ErrNoToken = true ∧
    ((TestTokenSource.mk KeyringStore.fresh).Token simEnv
        (worldHolding [("token", "|r1|7|UTC")])).1 = .error ErrNotAuthenticated := by
  refine ⟨rfl, by decide, by decide, rfl⟩

/-- What `TestTokenSource.Token()` does in every case: it returns the environment token
whenever `RAINDROP_TOKEN` is non-empty, without reading the store; otherwise, when the
store read succeeds, the stored test token if it is non-empty and exactly
`ErrNotAuthenticated` if it is empty; and when the store read fails, it fails with the
store's error wrapped with `get token: `, which is `NotAuthenticated` only if the store's
error already is. -/
theorem TestTokenSource_Token_cases (E : Env X) (ts : TestTokenSource) (w : World X) :
    (E.getenv w.ext "RAINDROP_TOKEN" ≠ "" →
      ts.Token E w = (.ok ⟨E.getenv w.ext "RAINDROP_TOKEN", "", "", Time.zero⟩, ts, w)) ∧
    (E.getenv w.ext "RAINDROP_TOKEN" = "" →
      (∀ (tok : Token) (s1 : KeyringStore) (w1 : World X),
        ts.store.GetToken E w = (.ok tok, s1, w1) →
        (tok.TestToken ≠ "" →
          ts.Token E w = (.ok ⟨tok.TestToken, "", "", Time.zero⟩, ⟨s1⟩, w1)) ∧
        (tok.TestToken = "" → ts.Token E w = (.error ErrNotAuthenticated, ⟨s1⟩, w1))) ∧
      (∀ (err : GoError) (s1 : KeyringStore) (w1 : World X),
        ts.store.GetToken E w = (.error err, s1, w1) →
        ts.Token E w = (.error (.wrapf "get token: " err ""), ⟨s1⟩, w1) ∧
        errorsIs (.wrapf "get token: " err "") ErrNotAuthenticated =
          errorsIs err ErrNotAuthenticated)) := by
  refine ⟨?_, ?_⟩
  · intro h
    simp [TestTokenSource.Token, h]
  · intro h
    refine ⟨?_, ?_⟩
    · intro tok s1 w1 hGet
      constructor
      · intro ht
        simp [TestTokenSource.Token, h, hGet, ht]
      · intro ht
        simp [TestTokenSource.Token, h, hGet, ht]
    · intro err s1 w1 hGet
      refine ⟨by simp [TestTokenSource.Token, h, hGet], ?_⟩
      exact errorsIs_wrapf_sentinel _ _ _ _ _

/-- With `RAINDROP_TOKEN=envtok` the environment token is returned and nothing is read;
without it, a store holding the test token `t1` yields `t1`. -/
theorem TestTokenSource_Token_cases_witness :
    (TestTokenSource.mk KeyringStore.fresh).Token (simEnvWith [("RAINDROP_TOKEN", "envtok")])
        (worldAt 1000 [] []) =
      (.ok ⟨"envtok", "", "", Time.zero⟩, ⟨KeyringStore.fresh⟩, worldAt 1000 [] []) ∧
    (TestTokenSource.mk ⟨some ⟨"t1", "", ⟨7, Location.UTC⟩⟩, none, true, false⟩).Token simEnv
        (worldAt 1000 [] []) =
      (.ok ⟨"t1", "", "", Time.zero⟩, ⟨⟨some ⟨"t1", "", ⟨7, Location.UTC⟩⟩, none, true, false⟩⟩,
        worldAt 1000 [] []) :=
  ⟨(TestTokenSource_Token_cases (simEnvWith [("RAINDROP_TOKEN", "envtok")])
      ⟨KeyringStore.fresh⟩ (worldAt 1000 [] [])).1 (by decide),
    (((TestTokenSource_Token_cases simEnv
      ⟨⟨some ⟨"t1", "", ⟨7, Location.UTC⟩⟩, none, true, false⟩⟩ (worldAt 1000 [] [])).2 rfl).1
      ⟨"t1", "", ⟨7, Location.UTC⟩⟩ ⟨some ⟨"t1", "", ⟨7, Location.UTC⟩⟩, none, true, false⟩
      (worldAt 1000 [] []) rfl).1 (by decide)⟩

/-! ## C13 -/

theorem GetToken_ringWrites (E : Env X) (s : KeyringStore) (w : World X) :
    (s.GetToken E w).2.2.ringWrites = w.ringWrites := by
  unfold KeyringStore.GetToken
  split
  · split <;> rfl
  · split
    · split <;> simp [World.ringGet, World.ringWrites, List.countP_append, Event.isRingSet]
    · split <;> simp [World.ringGet, World.ringWrites, List.countP_append, Event.isRingSet]

/-- C13: a `Token()` call that does not serve the cache fails with an error satisfying
`errors.Is(err, ErrNotAuthenticated)` when the store's `GetToken` fails (in particular with
`ErrNoToken`, when there is no token entry) and when the stored refresh token is empty; in
both cases the call ends in the world the store read left (no exchange, no backend write)
and the cached access token and expiry are unchanged. -/
theorem OAuthTokenSource_Token_not_authenticated (E : Env X) (ts : OAuthTokenSource)
    (w0 w : World X) (hMiss : ts.checkCache E w0 = (false, w)) :
    (∀ (err : GoError) (s1 : KeyringStore) (w1 : World X),
      ts.store.GetToken E w = (.error err, s1, w1) →
      (ts.Token E w0).1 = .error (.wrap2 ErrNotAuthenticated ": " err) ∧
      errorsIs (.wrap2 ErrNotAuthenticated ": " err) ErrNotAuthenticated = true ∧
      (ts.Token E w0).2 = ({ ts with store := s1 }, w1) ∧
      (ts.Token E w0).2.2.exchanges = w0.exchanges ∧
      (ts.Token E w0).2.2.ringWrites = w0.ringWrites) ∧
    (∀ (tok : Token) (s1 : KeyringStore) (w1 : World X),
      ts.store.GetToken E w = (.ok tok, s1, w1) → tok.RefreshToken = "" →
      (ts.Token E w0).1 = .error ErrNotAuthenticated ∧
      errorsIs ErrNotAuthenticated ErrNotAuthenticated = true ∧
      (ts.Token E w0).2 = ({ ts with store := s1 }, w1) ∧
      (ts.Token E w0).2.2.exchanges = w0.exchanges ∧
      (ts.Token E w0).2.2.ringWrites = w0.ringWrites) := by
  have hlog : w.log = w0.log := by
    have := checkCache_log E ts w0
    rw [hMiss] at this
    exact this
  have hcount : ∀ (s1 : KeyringStore) (w1 : World X) (r : Except GoError Token),
      ts.store.GetToken E w = (r, s1, w1) →
      w1.exchanges = w0.exchanges ∧ w1.ringWrites = w0.ringWrites := by
    intro s1 w1 r hGet
    have h1 := GetToken_exchanges E ts.store w
    have h2 := GetToken_ringWrites E ts.store w
    rw [hGet] at h1 h2
    simp only [] at h1 h2
    constructor
    · rw [h1]; simp [World.exchanges, hlog]
    · rw [h2]; simp [World.ringWrites, hlog]
  constructor
  · intro err s1 w1 hGet
    have hT : ts.Token E w0 =
        (.error (.wrap2 ErrNotAuthenticated ": " err), { ts with store := s1 }, w1) := by
      unfold OAuthTokenSource.Token
      simp [hMiss, OAuthTokenSource.refresh, hGet]
    have hc := hcount s1 w1 _ hGet
    rw [hT]
    exact ⟨rfl, by simp [errorsIs, ErrNotAuthenticated], rfl, hc.1, hc.2⟩
  · intro tok s1 w1 hGet hEmpty
    have hT : ts.Token E w0 = (.error ErrNotAuthenticated, { ts with store := s1 }, w1) := by
      unfold OAuthTokenSource.Token
      simp [hMiss, OAuthTokenSource.refresh, hGet, hEmpty]
    have hc := hcount s1 w1 _ hGet
    rw [hT]
    exact ⟨rfl, by decide, rfl, hc.1, hc.2⟩

/-- A new source over a fresh store and an empty backend: `Token()` fails with
`ErrNotAuthenticated` wrapping `ErrNoToken`, and no request is made. -/
theorem OAuthTokenSource_Token_not_authenticated_witness :
    ((NewOAuthTokenSource KeyringStore.fresh demoCreds).Token simEnv
        (worldAt 1000 [reply "a1|r1|Bearer|60"] [])).1 =
      .error (.wrap2 ErrNotAuthenticated ": " ErrNoToken) ∧
    ((NewOAuthTokenSource KeyringStore.fresh demoCreds).Token simEnv
        (worldAt 1000 [reply "a1|r1|Bearer|60"] [])).2.2.exchanges = 0 :=
  have h := ((OAuthTokenSource_Token_not_authenticated simEnv
    (NewOAuthTokenSource KeyringStore.fresh demoCreds)
    (worldAt 1000 [reply "a1|r1|Bearer|60"] []) (worldAt 1000 [reply "a1|r1|Bearer|60"] [])
    rfl).1 ErrNoToken ⟨none, none, true, false⟩
    ⟨⟨1000, [], none, [reply "a1|r1|Bearer|60"], []⟩, [Event.ringGet tokenKey]⟩ rfl)
  ⟨h.1, h.2.2.2.1⟩

/-! ## C14 -/

theorem attempts_ringGet (E : Env X) (w : World X) (k : String) :
    (w.ringGet E k).2.attempts = w.attempts := by
  simp [World.ringGet, World.attempts, List.countP_append, Event.isApiDo]

theorem attempts_ringSet (E : Env X) (w : World X) (k d : String) :
    (w.ringSet E k d).2.attempts = w.attempts := by
  simp [World.ringSet, World.attempts, List.countP_append, Event.isApiDo]

theorem attempts_httpPost (E : Env X) (w : World X) (u : String) (p : List (String × String)) :
    (w.httpPost E u p).2.attempts = w.attempts := by
  simp [World.httpPost, World.attempts, List.countP_append, Event.isApiDo]

theorem attempts_stderr (w : World X) (t : String) : (w.stderr t).attempts = w.attempts := by
  simp [World.stderr, World.attempts, List.countP_append, Event.isApiDo]

theorem attempts_now (E : Env X) (w : World X) : (w.now E).2.attempts = w.attempts := rfl

theorem SetToken_attempts (E : Env X) (s : KeyringStore) (w : World X) (tok : Token) :
    (s.SetToken E w tok).2.2.attempts = w.attempts := by
  unfold KeyringStore.SetToken
  simp only []
  split <;> (try split) <;> (try split) <;> simp [attempts_ringSet, attempts_now]

theorem GetToken_attempts (E : Env X) (s : KeyringStore) (w : World X) :
    (s.GetToken E w).2.2.attempts = w.attempts := by
  unfold KeyringStore.GetToken
  split
  · split <;> rfl
  · split
    · split <;> simp [attempts_ringGet]
    · split <;> simp [attempts_ringGet]

theorem exchangeToken_attempts (E : Env X) (w : World X) (p : List (String × String)) :
    (exchangeToken E w p).2.attempts = w.attempts := by
  unfold exchangeToken
  split
  · simp [attempts_httpPost]
  · split
    · simp [attempts_httpPost]
    · split
      · simp [attempts_httpPost]
      · split <;> simp [attempts_httpPost, attempts_now]

theorem adopt_attempts (E : Env X) (ts : OAuthTokenSource) (s1 : KeyringStore) (w2 : World X)
    (tok : Token) (newTok : OAuth2Token) :
    (ts.adopt E s1 w2 tok newTok).2.2.attempts = w2.attempts := by
  unfold OAuthTokenSource.adopt
  split
  · split <;> simp [attempts_stderr, SetToken_attempts]
  · rfl

theorem refresh_attempts (E : Env X) (ts : OAuthTokenSource) (w : World X) :
    (ts.refresh E w).2.2.attempts = w.attempts := by
  unfold OAuthTokenSource.refresh
  split
  · simp [GetToken_attempts]
  · split
    · simp [GetToken_attempts]
    · split
      · simp [exchangeRefreshToken, exchangeToken_attempts, GetToken_attempts]
      · rw [adopt_attempts]
        simp [exchangeRefreshToken, exchangeToken_attempts, GetToken_attempts]

theorem Token_attempts (E : Env X) (ts : OAuthTokenSource) (w : World X) :
    (ts.Token E w).2.2.attempts = w.attempts := by
  have hc : (ts.checkCache E w).2.attempts = w.attempts := by
    simp [World.attempts, checkCache_log]
  unfold OAuthTokenSource.Token
  split
  · exact hc
  · split
    · simp [refresh_attempts, hc]
    · simp [refresh_attempts, hc]

theorem apiDo_attempts (E : Env X) (w : World X) (req : ApiRequest) :
    (w.apiDo E req).2.attempts = w.attempts + 1 := by
  simp [World.apiDo, World.attempts, List.countP_append, Event.isApiDo]

theorem clientDoPass_token_error {S : Type} (E : Env X) (ops : TokenSourceOps X S)
    (baseURL method path : String) (body : Option String) (wantOut : Bool) (attempt : Nat)
    (src s1 : S) (w w1 : World X) (err : GoError)
    (hReq : E.newRequest method (baseURL ++ path) = none)
    (hTok : ops.Token src w = (.error err, s1, w1)) :
    clientDoPass E ops baseURL method path body wantOut attempt src w =
      .ret (some (.AuthError err)) s1 w1 [.token false] := by
  unfold clientDoPass
  simp only [hReq, hTok]

theorem clientDoPass_do_error {S : Type} (E : Env X) (ops : TokenSourceOps X S)
    (baseURL method path : String) (body : Option String) (wantOut : Bool) (attempt : Nat)
    (src s1 : S) (w w1 : World X) (tok : OAuth2Token) (err : GoError)
    (hReq : E.newRequest method (baseURL ++ path) = none)
    (hTok : ops.Token src w = (.ok tok, s1, w1))
    (hDo : (w1.apiDo E ⟨method, baseURL ++ path, "Bearer " ++ tok.AccessToken, body⟩).1 =
      .error err) :
    clientDoPass E ops baseURL method path body wantOut attempt src w =
      .ret (some (.plain (.wrapf "do request: " err ""))) s1
        (w1.apiDo E ⟨method, baseURL ++ path, "Bearer " ++ tok.AccessToken, body⟩).2
        [.token true, .send none] := by
  unfold clientDoPass
  simp only [hReq, hTok, hDo]

theorem clientDoPass_unauthorized {S : Type} (E : Env X) (ops : TokenSourceOps X S)
    (baseURL method path : String) (body : Option String) (wantOut : Bool) (attempt : Nat)
    (src s1 : S) (w w1 : World X) (tok : OAuth2Token) (resp : HttpResponse)
    (hReq : E.newRequest method (baseURL ++ path) = none)
    (hTok : ops.Token src w = (.ok tok, s1, w1))
    (hDo : (w1.apiDo E ⟨method, baseURL ++ path, "Bearer " ++ tok.AccessToken, body⟩).1 =
      .ok resp)
    (h401 : resp.StatusCode = 401) :
    clientDoPass E ops baseURL method path body wantOut attempt src w =
      if attempt = 0 then
        .next (match ops.Invalidate with | some f => f s1 | none => s1)
          (w1.apiDo E ⟨method, baseURL ++ path, "Bearer " ++ tok.AccessToken, body⟩).2
          ([.token true, .send (some 401)] ++ invalidateSteps ops)
      else
        .ret (some (.APIError 401 "unauthorized" unauthorizedDetails))
          (match ops.Invalidate with | some f => f s1 | none => s1)
          (w1.apiDo E ⟨method, baseURL ++ path, "Bearer " ++ tok.AccessToken, body⟩).2
          ([.token true, .send (some 401)] ++ invalidateSteps ops) := by
  unfold clientDoPass
  simp only [hReq, hTok, hDo, h401, if_true]
  rfl

theorem clientDoPass_answered {S : Type} (E : Env X) (ops : TokenSourceOps X S)
    (baseURL method path : String) (body : Option String) (wantOut : Bool) (attempt : Nat)
    (src s1 : S) (w w1 : World X) (tok : OAuth2Token) (resp : HttpResponse)
    (hReq : E.newRequest method (baseURL ++ path) = none)
    (hTok : ops.Token src w = (.ok tok, s1, w1))
    (hDo : (w1.apiDo E ⟨method, baseURL ++ path, "Bearer " ++ tok.AccessToken, body⟩).1 =
      .ok resp)
    (h401 : resp.StatusCode ≠ 401) :
    ∃ err, clientDoPass E ops baseURL method path body wantOut attempt src w =
      .ret err s1
        (w1.apiDo E ⟨method, baseURL ++ path, "Bearer " ++ tok.AccessToken, body⟩).2
        [.token true, .send (some resp.StatusCode)] := by
  unfold clientDoPass
  simp only [hReq, hTok, hDo, if_neg h401]
  exact ⟨_, rfl⟩

/-- C14: what `do` calls, for every token source and every answer of `c.httpClient.Do`,
once the request can be built. `Token()` is called first; if it fails, nothing is sent.
Otherwise one request is sent with that token; if it fails or is answered with a status
other than 401, `do` returns with the source and the world as they are then: no second
request. If it is answered 401, `Invalidate()` is applied to the source when the source
has it, `Token()` is called again on that source, and (if it succeeds) a second request
is sent with the new token; after that `do` returns, and when the second answer is 401
too, `Invalidate()` is applied again and the error is the `APIError` with status 401. A
request that cannot be built is not sent. When `Token()` itself sends no API request, at
most two are sent, and two only after a first answer 401. -/
theorem clientDo_retries_once {S : Type} (E : Env X) (ops : TokenSourceOps X S)
    (baseURL method path : String) (body : Option String) (wantOut : Bool) (src : S)
    (w : World X) :
    (∀ err, E.newRequest method (baseURL ++ path) = some err →
      (clientDo E ops baseURL method path body wantOut src w).2.1 = src ∧
      (clientDo E ops baseURL method path body wantOut src w).2.2.1 = w) ∧
    (E.newRequest method (baseURL ++ path) = none →
      (∀ err s1 w1, ops.Token src w = (.error err, s1, w1) →
        (clientDo E ops baseURL method path body wantOut src w).1 = some (.AuthError err) ∧
        (clientDo E ops baseURL method path body wantOut src w).2.1 = s1 ∧
        (clientDo E ops baseURL method path body wantOut src w).2.2.1 = w1) ∧
      (∀ tok s1 w1, ops.Token src w = (.ok tok, s1, w1) →
        (∀ err,
          (w1.apiDo E ⟨method, baseURL ++ path, "Bearer " ++ tok.AccessToken, body⟩).1 =
            .error err →
          (clientDo E ops baseURL method path body wantOut src w).1 =
            some (.plain (.wrapf "do request: " err "")) ∧
          (clientDo E ops baseURL method path body wantOut src w).2.1 = s1 ∧
          (clientDo E ops baseURL method path body wantOut src w).2.2.1 =
            (w1.apiDo E ⟨method, baseURL ++ path, "Bearer " ++ tok.AccessToken, body⟩).2) ∧
        (∀ resp,
          (w1.apiDo E ⟨method, baseURL ++ path, "Bearer " ++ tok.AccessToken, body⟩).1 =
            .ok resp →
          (resp.StatusCode ≠ 401 →
            (clientDo E ops baseURL method path body wantOut src w).2.1 = s1 ∧
            (clientDo E ops baseURL method path body wantOut src w).2.2.1 =
              (w1.apiDo E ⟨method, baseURL ++ path, "Bearer " ++ tok.AccessToken, body⟩).2) ∧
          (resp.StatusCode = 401 →
            (∀ err s2 w3,
              ops.Token (match ops.Invalidate with | some f => f s1 | none => s1)
                (w1.apiDo E ⟨method, baseURL ++ path, "Bearer " ++ tok.AccessToken, body⟩).2 =
                (.error err, s2, w3) →
              (clientDo E ops baseURL method path body wantOut src w).1 =
                some (.AuthError err) ∧
              (clientDo E ops baseURL method path body wantOut src w).2.1 = s2 ∧
              (clientDo E ops baseURL method path body wantOut src w).2.2.1 = w3) ∧
            (∀ tok2 s2 w3,
              ops.Token (match ops.Invalidate with | some f => f s1 | none => s1)
                (w1.apiDo E ⟨method, baseURL ++ path, "Bearer " ++ tok.AccessToken, body⟩).2 =
                (.ok tok2, s2, w3) →
              (clientDo E ops baseURL method path body wantOut src w).2.2.1 =
                (w3.apiDo E ⟨method, baseURL ++ path, "Bearer " ++ tok2.AccessToken, body⟩).2 ∧
              (∀ err,
                (w3.apiDo E ⟨method, baseURL ++ path, "Bearer " ++ tok2.AccessToken, body⟩).1 =
                  .error err →
                (clientDo E ops baseURL method path body wantOut src w).1 =
                  some (.plain (.wrapf "do request: " err "")) ∧
                (clientDo E ops baseURL method path body wantOut src w).2.1 = s2) ∧
              (∀ resp2,
                (w3.apiDo E ⟨method, baseURL ++ path, "Bearer " ++ tok2.AccessToken, body⟩).1 =
                  .ok resp2 →
                (resp2.StatusCode = 401 →
                  (clientDo E ops baseURL method path body wantOut src w).1 =
                    some (.APIError 401 "unauthorized" unauthorizedDetails) ∧
                  (clientDo E ops baseURL method path body wantOut src w).2.1 =
                    (match ops.Invalidate with | some f => f s2 | none => s2)) ∧
                (resp2.StatusCode ≠ 401 →
                  (clientDo E ops baseURL method path body wantOut src w).2.1 = s2))))))) ∧
    ((∀ (s : S) (w0 : World X), (ops.Token s w0).2.2.attempts = w0.attempts) →
      (clientDo E ops baseURL method path body wantOut src w).2.2.1.attempts ≤
        w.attempts + 2 ∧
      ((clientDo E ops baseURL method path body wantOut src w).2.2.1.attempts =
          w.attempts + 2 →
        ∃ tok s1 w1 resp, ops.Token src w = (.ok tok, s1, w1) ∧
          (w1.apiDo E ⟨method, baseURL ++ path, "Bearer " ++ tok.AccessToken, body⟩).1 =
            .ok resp ∧ resp.StatusCode = 401)) := by
  have hNew : ∀ err, E.newRequest method (baseURL ++ path) = some err →
      (clientDo E ops baseURL method path body wantOut src w).2.1 = src ∧
      (clientDo E ops baseURL method path body wantOut src w).2.2.1 = w := by
    intro err h
    unfold clientDo clientDoPass
    simp only [h]
    exact ⟨trivial, trivial⟩
  have hMain : E.newRequest method (baseURL ++ path) = none →
      (∀ err s1 w1, ops.Token src w = (.error err, s1, w1) →
        (clientDo E ops baseURL method path body wantOut src w).1 = some (.AuthError err) ∧
        (clientDo E ops baseURL method path body wantOut src w).2.1 = s1 ∧
        (clientDo E ops baseURL method path body wantOut src w).2.2.1 = w1) ∧
      (∀ tok s1 w1, ops.Token src w = (.ok tok, s1, w1) →
        (∀ err,
          (w1.apiDo E ⟨method, baseURL ++ path, "Bearer " ++ tok.AccessToken, body⟩).1 =
            .error err →
          (clientDo E ops baseURL method path body wantOut src w).1 =
            some (.plain (.wrapf "do request: " err "")) ∧
          (clientDo E ops baseURL method path body wantOut src w).2.1 = s1 ∧
          (clientDo E ops baseURL method path body wantOut src w).2.2.1 =
            (w1.apiDo E ⟨method, baseURL ++ path, "Bearer " ++ tok.AccessToken, body⟩).2) ∧
        (∀ resp,
          (w1.apiDo E ⟨method, baseURL ++ path, "Bearer " ++ tok.AccessToken, body⟩).1 =
            .ok resp →
          (resp.StatusCode ≠ 401 →
            (clientDo E ops baseURL method path body wantOut src w).2.1 = s1 ∧
            (clientDo E ops baseURL method path body wantOut src w).2.2.1 =
              (w1.apiDo E ⟨method, baseURL ++ path, "Bearer " ++ tok.AccessToken, body⟩).2) ∧
          (resp.StatusCode = 401 →
            (∀ err s2 w3,
              ops.Token (match ops.Invalidate with | some f => f s1 | none => s1)
                (w1.apiDo E ⟨method, baseURL ++ path, "Bearer " ++ tok.AccessToken, body⟩).2 =
                (.error err, s2, w3) →
              (clientDo E ops baseURL method path body wantOut src w).1 =
                some (.AuthError err) ∧
              (clientDo E ops baseURL method path body wantOut src w).2.1 = s2 ∧
              (clientDo E ops baseURL method path body wantOut src w).2.2.1 = w3) ∧
            (∀ tok2 s2 w3,
              ops.Token (match ops.Invalidate with | some f => f s1 | none => s1)
                (w1.apiDo E ⟨method, baseURL ++ path, "Bearer " ++ tok.AccessToken, body⟩).2 =
                (.ok tok2, s2, w3) →
              (clientDo E ops baseURL method path body wantOut src w).2.2.1 =
                (w3.apiDo E ⟨method, baseURL ++ path, "Bearer " ++ tok2.AccessToken, body⟩).2 ∧
              (∀ err,
                (w3.apiDo E ⟨method, baseURL ++ path, "Bearer " ++ tok2.AccessToken, body⟩).1 =
                  .error err →
                (clientDo E ops baseURL method path body wantOut src w).1 =
                  some (.plain (.wrapf "do request: " err "")) ∧
                (clientDo E ops baseURL method path body wantOut src w).2.1 = s2) ∧
              (∀ resp2,
                (w3.apiDo E ⟨method, baseURL ++ path, "Bearer " ++ tok2.AccessToken, body⟩).1 =
                  .ok resp2 →
                (resp2.StatusCode = 401 →
                  (clientDo E ops baseURL method path body wantOut src w).1 =
                    some (.APIError 401 "unauthorized" unauthorizedDetails) ∧
                  (clientDo E ops baseURL method path body wantOut src w).2.1 =
                    (match ops.Invalidate with | some f => f s2 | none => s2)) ∧
                (resp2.StatusCode ≠ 401 →
                  (clientDo E ops baseURL method path body wantOut src w).2.1 = s2)))))) := by
    intro hReq
    refine ⟨?_, ?_⟩
    · intro err s1 w1 hTok
      unfold clientDo
      rw [clientDoPass_token_error E ops baseURL method path body wantOut 0 src s1 w w1 err
        hReq hTok]
      exact ⟨rfl, rfl, rfl⟩
    · intro tok s1 w1 hTok
      refine ⟨?_, ?_⟩
      · intro err hDo
        unfold clientDo
        rw [clientDoPass_do_error E ops baseURL method path body wantOut 0 src s1 w w1 tok err
          hReq hTok hDo]
        exact ⟨rfl, rfl, rfl⟩
      · intro resp hDo
        refine ⟨?_, ?_⟩
        · intro h401
          obtain ⟨e, he⟩ := clientDoPass_answered E ops baseURL method path body wantOut 0
            src s1 w w1 tok resp hReq hTok hDo h401
          unfold clientDo
          rw [he]
          exact ⟨rfl, rfl⟩
        · intro h401
          have h1 := clientDoPass_unauthorized E ops baseURL method path body wantOut 0
            src s1 w w1 tok resp hReq hTok hDo h401
          rw [if_pos rfl] at h1
          refine ⟨?_, ?_⟩
          · intro err s2 w3 hTok2
            unfold clientDo
            rw [h1]
            simp only []
            rw [clientDoPass_token_error E ops baseURL method path body wantOut 1 _ s2 _ w3 err
              hReq hTok2]
            exact ⟨rfl, rfl, rfl⟩
          · intro tok2 s2 w3 hTok2
            have hW : (clientDo E ops baseURL method path body wantOut src w).2.2.1 =
                (w3.apiDo E ⟨method, baseURL ++ path, "Bearer " ++ tok2.AccessToken, body⟩).2 := by
              cases hDo2 : (w3.apiDo E
                  ⟨method, baseURL ++ path, "Bearer " ++ tok2.AccessToken, body⟩).1 with
              | error err =>
                unfold clientDo
                rw [h1]
                simp only []
                rw [clientDoPass_do_error E ops baseURL method path body wantOut 1 _ s2 _ w3
                  tok2 err hReq hTok2 hDo2]
              | ok resp2 =>
                by_cases h2 : resp2.StatusCode = 401
                · have h3 := clientDoPass_unauthorized E ops baseURL method path body wantOut 1
                    _ s2 _ w3 tok2 resp2 hReq hTok2 hDo2 h2
                  rw [if_neg (by decide)] at h3
                  unfold clientDo
                  rw [h1]
                  simp only []
                  rw [h3]
                · obtain ⟨e, he⟩ := clientDoPass_answered E ops baseURL method path body
                    wantOut 1 _ s2 _ w3 tok2 resp2 hReq hTok2 hDo2 h2
                  unfold clientDo
                  rw [h1]
                  simp only []
                  rw [he]
            refine ⟨hW, ?_, ?_⟩
            · intro err hDo2
              unfold clientDo
              rw [h1]
              simp only []
              rw [clientDoPass_do_error E ops baseURL method path body wantOut 1 _ s2 _ w3
                tok2 err hReq hTok2 hDo2]
              exact ⟨rfl, rfl⟩
            · intro resp2 hDo2
              refine ⟨?_, ?_⟩
              · intro h2
                have h3 := clientDoPass_unauthorized E ops baseURL method path body wantOut 1
                  _ s2 _ w3 tok2 resp2 hReq hTok2 hDo2 h2
                rw [if_neg (by decide)] at h3
                unfold clientDo
                rw [h1]
                simp only []
                rw [h3]
                exact ⟨rfl, rfl⟩
              · intro h2
                obtain ⟨e, he⟩ := clientDoPass_answered E ops baseURL method path body
                  wantOut 1 _ s2 _ w3 tok2 resp2 hReq hTok2 hDo2 h2
                unfold clientDo
                rw [h1]
                simp only []
                rw [he]
  refine ⟨hNew, hMain, ?_⟩
  intro hQuiet
  cases hReq : E.newRequest method (baseURL ++ path) with
  | some err =>
    rw [(hNew err hReq).2]
    exact ⟨by omega, fun h => by omega⟩
  | none =>
    obtain ⟨hA, hB⟩ := hMain hReq
    rcases hTok : ops.Token src w with ⟨r, s1, w1⟩
    have hw1 : w1.attempts = w.attempts := by
      have := hQuiet src w
      rw [hTok] at this
      exact this
    cases r with
    | error err =>
      rw [(hA err s1 w1 hTok).2.2, hw1]
      exact ⟨by omega, fun h => by omega⟩
    | ok tok =>
      obtain ⟨hC, hD⟩ := hB tok s1 w1 hTok
      have ha1 := apiDo_attempts E w1
        ⟨method, baseURL ++ path, "Bearer " ++ tok.AccessToken, body⟩
      cases hDo : (w1.apiDo E
          ⟨method, baseURL ++ path, "Bearer " ++ tok.AccessToken, body⟩).1 with
      | error err =>
        rw [(hC err hDo).2.2, ha1, hw1]
        exact ⟨by omega, fun h => by omega⟩
      | ok resp =>
        by_cases h401 : resp.StatusCode = 401
        · obtain ⟨hE, hF⟩ := (hD resp hDo).2 h401
          rcases hTok2 : ops.Token (match ops.Invalidate with | some f => f s1 | none => s1)
            (w1.apiDo E ⟨method, baseURL ++ path, "Bearer " ++ tok.AccessToken, body⟩).2
            with ⟨r2, s2, w3⟩
          have hw3 : w3.attempts = w.attempts + 1 := by
            have := hQuiet (match ops.Invalidate with | some f => f s1 | none => s1)
              (w1.apiDo E ⟨method, baseURL ++ path, "Bearer " ++ tok.AccessToken, body⟩).2
            rw [hTok2] at this
            rw [this, ha1, hw1]
          cases r2 with
          | error err =>
            rw [(hE err s2 w3 hTok2).2.2, hw3]
            exact ⟨by omega, fun _ => ⟨tok, s1, w1, resp, rfl, hDo, h401⟩⟩
          | ok tok2 =>
            rw [(hF tok2 s2 w3 hTok2).1, apiDo_attempts, hw3]
            exact ⟨by omega, fun _ => ⟨tok, s1, w1, resp, rfl, hDo, h401⟩⟩
        · rw [((hD resp hDo).1 h401).2, ha1, hw1]
          exact ⟨by omega, fun h => by omega⟩

/-- The caching source holds `a1`; the API answers 401, so the source is invalidated, the
next `Token()` exchanges `r1` for `a2`, and the second request, sent with `a2`, is
answered 200: two requests in all. When the second answer is 401 too, the result is the
`APIError` with status 401 and the source is left invalidated. -/
theorem clientDo_retries_once_witness :
    ((clientDo simEnv (cachingOps simEnv) BaseURL "GET" "/user" none true cachedSource
        (worldAt 2000 [.ok ⟨401, ""⟩, reply "a2|r1|Bearer|60", .ok ⟨200, "ok"⟩] [])).2.2.1.attempts ≤
        (worldAt 2000 [.ok ⟨401, ""⟩, reply "a2|r1|Bearer|60", .ok ⟨200, "ok"⟩] []).attempts + 2) ∧
    (clientDo simEnv (cachingOps simEnv) BaseURL "GET" "/user" none true cachedSource
        (worldAt 2000 [.ok ⟨401, ""⟩, reply "a2|r1|Bearer|60", .ok ⟨200, "ok"⟩] [])).2.2.1.log =
      [Event.apiDo ⟨"GET", BaseURL ++ "/user", "Bearer a1", none⟩, refreshPost "r1",
        Event.apiDo ⟨"GET", BaseURL ++ "/user", "Bearer a2", none⟩] ∧
    (clientDo simEnv (cachingOps simEnv) BaseURL "GET" "/user" none true cachedSource
        (worldAt 2000 [.ok ⟨401, ""⟩, reply "a2|r1|Bearer|60", .ok ⟨200, "ok"⟩] [])).1 = none ∧
    (clientDo simEnv (cachingOps simEnv) BaseURL "GET" "/user" none true cachedSource
        (worldAt 2000 [.ok ⟨401, ""⟩, reply "a2|r1|Bearer|60", .ok ⟨401, ""⟩] [])).1 =
      some (.APIError 401 "unauthorized" unauthorizedDetails) ∧
    (clientDo simEnv (cachingOps simEnv) BaseURL "GET" "/user" none true cachedSource
        (worldAt 2000 [.ok ⟨401, ""⟩, reply "a2|r1|Bearer|60", .ok ⟨401, ""⟩] [])).2.1 =
      ⟨storeWith "r1", demoCreds, "", Time.zero⟩ :=
  ⟨((clientDo_retries_once simEnv (cachingOps simEnv) BaseURL "GET" "/user" none true cachedSource
      (worldAt 2000 [.ok ⟨401, ""⟩, reply "a2|r1|Bearer|60", .ok ⟨200, "ok"⟩] [])).2.2
      (fun s w0 => Token_attempts simEnv s w0)).1,
    rfl, rfl, rfl, rfl⟩

/-! ## C15 -/

/-- C15: `NewClientFromAuth` picks the token source in this order. A non-empty
`RAINDROP_TOKEN` gives the static source of that token and leaves the world untouched (the
keyring is not opened). Otherwise, with the keyring opened and the token read: a non-empty
`test_token` gives the static source of the test token, whatever `refresh_token` is; else
an empty `refresh_token` gives `ErrNotAuthenticated`; else the stored credentials give the
caching OAuth source over the same store, and a failing `GetCredentials` gives its error
wrapped with `get credentials: `. A token read failing with `ErrNoToken` (no entry) gives
`ErrNotAuthenticated`. -/
theorem NewClientFromAuth_priority (E : Env X) (w : World X) :
    (E.getenv w.ext "RAINDROP_TOKEN" ≠ "" →
      NewClientFromAuth E w =
        (.ok ⟨BaseURL, .static ⟨E.getenv w.ext "RAINDROP_TOKEN", "", "", Time.zero⟩⟩, w)) ∧
    (E.getenv w.ext "RAINDROP_TOKEN" = "" →
      ∀ (store : KeyringStore) (w1 : World X), OpenDefault E w = (.ok store, w1) →
      (∀ (err : GoError) (s2 : KeyringStore) (w2 : World X),
        store.GetToken E w1 = (.error err, s2, w2) → errorsIs err ErrNoToken = true →
        NewClientFromAuth E w = (.error ErrNotAuthenticated, w2)) ∧
      (∀ (tok : Token) (s2 : KeyringStore) (w2 : World X),
        store.GetToken E w1 = (.ok tok, s2, w2) →
        (tok.TestToken ≠ "" →
          NewClientFromAuth E w =
            (.ok ⟨BaseURL, .static ⟨tok.TestToken, "", "", Time.zero⟩⟩, w2)) ∧
        (tok.TestToken = "" → tok.RefreshToken = "" →
          NewClientFromAuth E w = (.error ErrNotAuthenticated, w2)) ∧
        (tok.TestToken = "" → tok.RefreshToken ≠ "" →
          (∀ (creds : OAuthCredentials) (s3 : KeyringStore) (w3 : World X),
            s2.GetCredentials E w2 = (.ok creds, s3, w3) →
            NewClientFromAuth E w =
              (.ok ⟨BaseURL, .caching ⟨s3, creds, "", Time.zero⟩⟩, w3)) ∧
          (∀ (err : GoError) (s3 : KeyringStore) (w3 : World X),
            s2.GetCredentials E w2 = (.error err, s3, w3) →
            NewClientFromAuth E w = (.error (.wrapf "get credentials: " err ""), w3))))) := by
  refine ⟨?_, ?_⟩
  · intro h
    simp [NewClientFromAuth, h, NewClient]
  · intro h store w1 hOpen
    refine ⟨?_, ?_⟩
    · intro err s2 w2 hGet hIs
      simp [NewClientFromAuth, h, hOpen, hGet, hIs]
    · intro tok s2 w2 hGet
      refine ⟨?_, ?_, ?_⟩
      · intro ht
        simp [NewClientFromAuth, h, hOpen, hGet, ht, NewClient]
      · intro ht hr
        simp [NewClientFromAuth, h, hOpen, hGet, ht, hr]
      · intro ht hr
        refine ⟨?_, ?_⟩
        · intro creds s3 w3 hC
          simp [NewClientFromAuth, h, hOpen, hGet, ht, hr, hC, NewClient, NewOAuthTokenSource]
        · intro err s3 w3 hC
          simp [NewClientFromAuth, h, hOpen, hGet, ht, hr, hC]

/-- With `RAINDROP_TOKEN=envtok` the static source is chosen and the keyring is not opened;
without it, a backend holding both a test token and a refresh token gives the static
source of the test token. -/
theorem NewClientFromAuth_priority_witness :
    NewClientFromAuth (simEnvWith [("RAINDROP_TOKEN", "envtok")])
        (worldHolding [("token", "t1|r1|7|UTC")]) =
      (.ok ⟨BaseURL, .static ⟨"envtok", "", "", Time.zero⟩⟩,
        worldHolding [("token", "t1|r1|7|UTC")]) ∧
    (NewClientFromAuth simEnv (worldHolding [("token", "t1|r1|7|UTC")])).1 =
      .ok ⟨BaseURL, .static ⟨"t1", "", "", Time.zero⟩⟩ :=
  ⟨(NewClientFromAuth_priority (simEnvWith [("RAINDROP_TOKEN", "envtok")])
      (worldHolding [("token", "t1|r1|7|UTC")])).1 (by decide),
    by
      rw [((((NewClientFromAuth_priority simEnv (worldHolding [("token", "t1|r1|7|UTC")])).2 rfl
        KeyringStore.fresh
        ⟨⟨1000, [("token", "t1|r1|7|UTC")], none, [], []⟩, [Event.openKeyring]⟩ rfl).2
        ⟨"t1", "r1", ⟨7, Location.UTC⟩⟩
        ⟨some ⟨"t1", "r1", ⟨7, Location.UTC⟩⟩, none, true, false⟩
        ⟨⟨1000, [("token", "t1|r1|7|UTC")], none, [], []⟩,
          [Event.openKeyring, Event.ringGet tokenKey]⟩ rfl).1 (by decide))]⟩

/-! ## C16 -/

theorem wrapInt64_of_fits (x : Int) (hLo : -(2 ^ 63) ≤ x) (hHi : x < 2 ^ 63) :
    wrapInt64 x = x := by
  unfold wrapInt64
  rw [Int.emod_eq_of_lt (by omega) (by omega)]
  omega

/-- What `exchangeToken` returns for a response `resp` of the endpoint: the
`errTokenExchangeFailed` error with the trimmed body for a status outside 200..299; for a
decodable body the token of the body, with the expiry unset when `expires_in` is not
positive and `now + expires_in` seconds when `expires_in` is positive and that many
seconds fit a `time.Duration` (at most 9223372036). -/
theorem exchangeToken_result (E : Env X) (w : World X) (p : List (String × String))
    (resp : HttpResponse) (hPost : (w.httpPost E tokenURL p).1 = .ok resp) :
    (resp.StatusCode < 200 ∨ resp.StatusCode ≥ 300 →
      (exchangeToken E w p).1 =
        .error (.wrapf "" errTokenExchangeFailed (": " ++ TrimSpace resp.Body)) ∧
      errorsIs (.wrapf "" errTokenExchangeFailed (": " ++ TrimSpace resp.Body))
        errTokenExchangeFailed = true) ∧
    (200 ≤ resp.StatusCode → resp.StatusCode < 300 →
      ∀ tr : tokenResponse, E.decodeTokenResponse resp.Body = .ok tr →
      (tr.ExpiresIn ≤ 0 →
        (exchangeToken E w p).1 =
          .ok ⟨tr.AccessToken, tr.TokenType, tr.RefreshToken, Time.zero⟩) ∧
      (0 < tr.ExpiresIn →
        (exchangeToken E w p).1 =
          .ok ⟨tr.AccessToken, tr.TokenType, tr.RefreshToken,
            ((w.httpPost E tokenURL p).2.now E).1.Add (secondsDuration tr.ExpiresIn)⟩ ∧
        (tr.ExpiresIn ≤ 9223372036 → secondsDuration tr.ExpiresIn = tr.ExpiresIn * Second))) := by
  refine ⟨?_, ?_⟩
  · intro hBad
    refine ⟨?_, by simp [errorsIs, errTokenExchangeFailed]⟩
    unfold exchangeToken
    simp only [hPost]
    rw [if_pos hBad]
  · intro hLo hHi tr hDec
    have hGood : ¬ (resp.StatusCode < 200 ∨ resp.StatusCode ≥ 300) := by omega
    refine ⟨?_, ?_⟩
    · intro hExp
      unfold exchangeToken
      simp only [hPost, hDec]
      rw [if_neg hGood, if_neg (by omega)]
    · intro hExp
      refine ⟨?_, ?_⟩
      · unfold exchangeToken
        simp only [hPost, hDec]
        rw [if_neg hGood, if_pos (by omega)]
      · intro hFit
        unfold secondsDuration Second
        apply wrapInt64_of_fits <;> omega

/-- C16 fails on the code for a large `expires_in`: the endpoint answers 200 with
`expires_in` 9223372037 at clock reading 63900000000000000000; the product
`time.Duration(9223372037) * time.Second` does not fit an `int64` and wraps to a negative
duration, so the expiry `exchangeToken` returns is not `now + expires_in` seconds but lies
before `now`. -/
theorem exchangeToken_expiry_overflow :
    (exchangeToken simEnv
        (worldAt 63900000000000000000 [reply "a1|r1|Bearer|9223372037"] []) []).1 =
      .ok ⟨"a1", "Bearer", "r1", ⟨54676627963290448384, Location.Local⟩⟩ ∧
    secondsDuration 9223372037 = -9223372036709551616 ∧
    (54676627963290448384 : Int) ≠ 63900000000000000000 + 9223372037 * Second ∧
    Time.Before ⟨54676627963290448384, Location.Local⟩
      ⟨63900000000000000000, Location.Local⟩ = true := by
  refine ⟨rfl, by decide, by decide, by decide⟩

/-! ## C17 -/

/-- C17, as stated, fails: the pasted URL has no `code`; the flow fails, but with
`errNoCodeInURL`, which is not `errMissingCode` and does not wrap it. -/
theorem authorizeManual_missing_code_counterexample :
    (authorizeManual simEnv
        (pastedWorld "http://localhost:8484/callback?state=RIGHT" [reply "a1|r1|Bearer|60"])
        "http://localhost:8484/callback" demoCreds "RIGHT").1 = .error errNoCodeInURL ∧
    errNoCodeInURL ≠ errMissingCode ∧
    errorsIs errNoCodeInURL errMissingCode = false := by
  refine ⟨rfl, by decide, by decide⟩

/-- C17, amended: in manual mode, when the pasted line parses to a URL whose `code` is
absent or empty, the flow fails with `errNoCodeInURL`, a sentinel other than the
`errMissingCode` of the server-mode callback, whatever the `state` parameter is (the state
check is not reached), and in the world the reading of the line left: no exchange. -/
theorem authorizeManual_missing_code (E : Env X) (w : World X) (redirectURL : String)
    (creds : OAuthCredentials) (nonce line : String) (u : URL)
    (hScan : ((manualPrompt w (E.authCodeURL redirectURL creds.ClientID nonce)).scanln E).1 =
      .ok line)
    (hParse : E.urlParse (TrimSpace line) = .ok u)
    (hCode : queryGet u.Query "code" = "") :
    authorizeManual E w redirectURL creds nonce =
      (.error errNoCodeInURL,
        ((manualPrompt w (E.authCodeURL redirectURL creds.ClientID nonce)).scanln E).2) ∧
    (authorizeManual E w redirectURL creds nonce).2.exchanges = w.exchanges ∧
    errNoCodeInURL ≠ errMissingCode ∧
    errorsIs errNoCodeInURL errMissingCode = false := by
  have hX : extractCodeAndState E (TrimSpace line) = .error errNoCodeInURL := by
    simp [extractCodeAndState, hParse, hCode]
  have hA : authorizeManual E w redirectURL creds nonce =
      (.error errNoCodeInURL,
        ((manualPrompt w (E.authCodeURL redirectURL creds.ClientID nonce)).scanln E).2) := by
    unfold authorizeManual
    simp only [hScan, hX]
  refine ⟨hA, ?_, by decide, by decide⟩
  rw [hA]
  exact manualPrompt_scanln_exchanges E w _

/-- A pasted URL with the wrong state and no code: the error is `errNoCodeInURL`, not
`errStateMismatch`, and no exchange is made. -/
theorem authorizeManual_missing_code_witness :
    authorizeManual simEnv
        (pastedWorld "http://localhost:8484/callback?state=WRONG" [reply "a1|r1|Bearer|60"])
        "http://localhost:8484/callback" demoCreds "RIGHT" =
      (.error errNoCodeInURL,
        ((manualPrompt
          (pastedWorld "http://localhost:8484/callback?state=WRONG" [reply "a1|r1|Bearer|60"])
          (simEnv.authCodeURL "http://localhost:8484/callback" "abc" "RIGHT")).scanln simEnv).2) ∧
    (authorizeManual simEnv
        (pastedWorld "http://localhost:8484/callback?state=WRONG" [reply "a1|r1|Bearer|60"])
        "http://localhost:8484/callback" demoCreds "RIGHT").2.exchanges = 0 :=
  have h := authorizeManual_missing_code simEnv
    (pastedWorld "http://localhost:8484/callback?state=WRONG" [reply "a1|r1|Bearer|60"])
    "http://localhost:8484/callback" demoCreds "RIGHT"
    "http://localhost:8484/callback?state=WRONG"
    ⟨"/callback", "", [("state", "WRONG")]⟩ rfl rfl (by decide)
  ⟨h.1, h.2.1⟩

/-! ## The timeout of Authorize -/

/-- The duration `Authorize` hands to `context.WithTimeout`: the caller's `Timeout` when
it is positive, and two minutes (120 s) when it is not; the login command passes three
minutes (180 s) itself. -/
theorem authorizeTimeout_cases (opts : AuthorizeOptions) :
    (0 < opts.Timeout → authorizeTimeout opts = opts.Timeout) ∧
    (opts.Timeout ≤ 0 → authorizeTimeout opts = 120 * Second) ∧
    (∀ (manual : Bool) (port : Int),
      authorizeTimeout (loginOptions manual port) = 180 * Second) := by
  refine ⟨?_, ?_, ?_⟩
  · intro h
    unfold authorizeTimeout
    rw [if_neg (by omega)]
  · intro h
    unfold authorizeTimeout
    rw [if_pos h]
    decide
  · intro manual port
    have h3 : ¬ ((3 * Minute : Int) ≤ 0) := by decide
    have h180 : (3 * Minute : Int) = 180 * Second := by decide
    show (if (3 * Minute : Int) ≤ 0 then 2 * Minute else 3 * Minute) = 180 * Second
    rw [if_neg h3, h180]

/-! ## C19 -/

/-- C19: `ResolveRedirectURI` returns the configured `redirect_uri` unchanged when it is
not blank after `TrimSpace`, and otherwise `http://localhost:<p>/callback` with `p` the
given port when it is positive and 8484 when it is not. -/
theorem ResolveRedirectURI_cases (creds : OAuthCredentials) (port : Int) :
    (TrimSpace creds.RedirectURI ≠ "" → ResolveRedirectURI creds port = creds.RedirectURI) ∧
    (TrimSpace creds.RedirectURI = "" →
      (0 < port →
        ResolveRedirectURI creds port = "http://localhost:" ++ formatInt port ++ "/callback") ∧
      (port ≤ 0 → ResolveRedirectURI creds port = "http://localhost:8484/callback")) := by
  refine ⟨?_, ?_⟩
  · intro h
    unfold ResolveRedirectURI
    rw [if_pos h]
  · intro h
    refine ⟨?_, ?_⟩
    · intro hp
      unfold ResolveRedirectURI DefaultRedirectURI
      rw [if_neg (by simp [h]), if_neg (by omega)]
    · intro hp
      unfold ResolveRedirectURI DefaultRedirectURI
      rw [if_neg (by simp [h]), if_pos hp]
      decide

/-- A configured URI is kept as it is (blanks around it included); a blank one gives the
default for port 9000, and for port 0 the default port 8484. -/
theorem ResolveRedirectURI_cases_witness :
    ResolveRedirectURI ⟨"abc", "xyz", " https://example.org/cb "⟩ 9000 =
      " https://example.org/cb " ∧
    ResolveRedirectURI ⟨"abc", "xyz", "  "⟩ 9000 = "http://localhost:9000/callback" ∧
    ResolveRedirectURI ⟨"abc", "xyz", ""⟩ 0 = "http://localhost:8484/callback" :=
  ⟨(ResolveRedirectURI_cases ⟨"abc", "xyz", " https://example.org/cb "⟩ 9000).1 (by decide),
    ((ResolveRedirectURI_cases ⟨"abc", "xyz", "  "⟩ 9000).2 (by decide)).1 (by decide),
    ((ResolveRedirectURI_cases ⟨"abc", "xyz", ""⟩ 0).2 (by decide)).2 (by decide)⟩

/-! ## C20 -/

/-- C20: for every value of the backend variable, with `b` the value after `TrimSpace` and
`ToLower`: `b` empty or `auto` allows every backend (the `nil` list), `keychain` only the
keychain backend, `file` only the file backend, and any other `b` is rejected with an
error wrapping `errInvalidBackend`; `shouldForceFileBackend` holds exactly when the OS is
`linux`, `b` is empty or `auto`, and the session bus address is empty, and then
`openKeyring` allows the file backend only, while otherwise it keeps what `b` allows. -/
theorem backend_selection (E : Env X) (value goos dbusAddr : String) :
    normalizeBackend E value = ToLower E (TrimSpace value) ∧
    (normalizeBackend E value = "" ∨ normalizeBackend E value = "auto" →
      allowedBackends E (normalizeBackend E value) = .ok []) ∧
    (normalizeBackend E value = "keychain" →
      allowedBackends E (normalizeBackend E value) = .ok [BackendType.KeychainBackend]) ∧
    (normalizeBackend E value = "file" →
      allowedBackends E (normalizeBackend E value) = .ok [BackendType.FileBackend]) ∧
    (normalizeBackend E value ≠ "" → normalizeBackend E value ≠ "auto" →
      normalizeBackend E value ≠ "keychain" → normalizeBackend E value ≠ "file" →
      allowedBackends E (normalizeBackend E value) =
        .error (.wrapf "" errInvalidBackend (": " ++ E.quote (normalizeBackend E value))) ∧
      errorsIs (.wrapf "" errInvalidBackend (": " ++ E.quote (normalizeBackend E value)))
        errInvalidBackend = true ∧
      openKeyringBackends E goos value dbusAddr =
        .error (.wrapf "" errInvalidBackend (": " ++ E.quote (normalizeBackend E value)))) ∧
    (shouldForceFileBackend goos (normalizeBackend E value) dbusAddr = true ↔
      goos = "linux" ∧ (normalizeBackend E value = "" ∨ normalizeBackend E value = "auto") ∧
        dbusAddr = "") ∧
    (shouldForceFileBackend goos (normalizeBackend E value) dbusAddr = true →
      openKeyringBackends E goos value dbusAddr = .ok [BackendType.FileBackend]) ∧
    (shouldForceFileBackend goos (normalizeBackend E value) dbusAddr = false →
      openKeyringBackends E goos value dbusAddr = allowedBackends E (normalizeBackend E value)) := by
  have hForce : shouldForceFileBackend goos (normalizeBackend E value) dbusAddr = true ↔
      goos = "linux" ∧ (normalizeBackend E value = "" ∨ normalizeBackend E value = "auto") ∧
        dbusAddr = "" := by
    simp [shouldForceFileBackend, and_assoc]
  refine ⟨rfl, ?_, ?_, ?_, ?_, hForce, ?_, ?_⟩
  · intro h
    unfold allowedBackends
    rw [if_pos h]
  · intro h
    rw [h]
    unfold allowedBackends
    rw [if_neg (by decide), if_pos rfl]
  · intro h
    rw [h]
    unfold allowedBackends
    rw [if_neg (by decide), if_neg (by decide), if_pos rfl]
  · intro h1 h2 h3 h4
    have hA : allowedBackends E (normalizeBackend E value) =
        .error (.wrapf "" errInvalidBackend (": " ++ E.quote (normalizeBackend E value))) := by
      unfold allowedBackends
      rw [if_neg (by simp [h1, h2]), if_neg h3, if_neg h4]
    refine ⟨hA, by simp [errorsIs, errInvalidBackend], ?_⟩
    unfold openKeyringBackends
    rw [hA]
  · intro h
    have hb := (hForce.mp h).2.1
    have hA : allowedBackends E (normalizeBackend E value) = .ok [] := by
      unfold allowedBackends
      rw [if_pos hb]
    unfold openKeyringBackends
    rw [hA]
    simp [h]
  · intro h
    unfold openKeyringBackends
    cases hA : allowedBackends E (normalizeBackend E value) with
    | error err => rfl
    | ok backends => simp [h]

/-- The value ` KeyChain ` allows the keychain backend only; `AUTO` on linux without a
session bus forces the file backend; `gnome` is rejected. -/
theorem backend_selection_witness :
    normalizeBackend simEnv " KeyChain " = "keychain" ∧
    allowedBackends simEnv (normalizeBackend simEnv " KeyChain ") =
      .ok [BackendType.KeychainBackend] ∧
    openKeyringBackends simEnv "linux" "AUTO" "" = .ok [BackendType.FileBackend] ∧
    errorsIs (.wrapf "" errInvalidBackend (": " ++ simEnv.quote (normalizeBackend simEnv "gnome")))
      errInvalidBackend = true :=
  have h := backend_selection simEnv " KeyChain " "linux" ""
  have h2 := backend_selection simEnv "AUTO" "linux" ""
  have h3 := backend_selection simEnv "gnome" "linux" ""
  ⟨by decide, h.2.2.1 (by decide), h2.2.2.2.2.2.2.1 (by decide),
    (h3.2.2.2.2.1 (by decide) (by decide) (by decide) (by decide)).2.1⟩

/-! ## C21 -/

/-- C21, as stated, fails: on linux with no backend override and no session bus address,
`shouldUseTimeout` does not hold; `openKeyring` forces the file backend and opens it
directly, so even a race that the timer would win has no say and no timeout error comes. -/
theorem openKeyring_headless_counterexample :
    shouldUseTimeout "linux" (normalizeBackend simEnv "") "" = false ∧
    shouldForceFileBackend "linux" (normalizeBackend simEnv "") "" = true ∧
    openKeyring simEnv "linux" none "" "" none OpenRace.timedOut =
      .ok [BackendType.FileBackend] := by
  refine ⟨by decide, by decide, rfl⟩

/-- C21, amended: `shouldUseTimeout` holds exactly when the OS is linux, the normalised
backend value is empty or `auto`, and a session bus address is set; then `openKeyring`
returns what `openKeyringWithTimeout` with the five-second timeout returns, and when the
timer fires that is an error wrapping `errKeyringTimeout` with the hint to set the backend
variable to `file` and the password variable. With no session bus address the open is never raced: the result
does not depend on the race. -/
theorem openKeyring_timeout_cases (E : Env X) (goos backendEnv dbusAddr : String)
    (openErr : Option GoError) (race : OpenRace) :
    (shouldUseTimeout goos (normalizeBackend E backendEnv) dbusAddr = true ↔
      goos = "linux" ∧
        (normalizeBackend E backendEnv = "" ∨ normalizeBackend E backendEnv = "auto") ∧
        dbusAddr ≠ "") ∧
    (shouldUseTimeout goos (normalizeBackend E backendEnv) dbusAddr = true →
      (openKeyring E goos none backendEnv dbusAddr openErr race =
        match openKeyringWithTimeout E keyringOpenTimeout race with
        | some err => .error err
        | none => .ok []) ∧
      openKeyring E goos none backendEnv dbusAddr openErr OpenRace.timedOut =
        .error (.wrapf "" errKeyringTimeout
          (" after " ++ E.durationString (5 * Second) ++ "; set " ++ keyringBackendEnv ++
            "=file and " ++ keyringPasswordEnv ++ "=<password>")) ∧
      errorsIs (.wrapf "" errKeyringTimeout
          (" after " ++ E.durationString (5 * Second) ++ "; set " ++ keyringBackendEnv ++
            "=file and " ++ keyringPasswordEnv ++ "=<password>"))
        errKeyringTimeout = true) ∧
    (dbusAddr = "" →
      shouldUseTimeout goos (normalizeBackend E backendEnv) dbusAddr = false ∧
      openKeyring E goos none backendEnv dbusAddr openErr race =
        openKeyring E goos none backendEnv dbusAddr openErr OpenRace.timedOut) := by
  have hUse : shouldUseTimeout goos (normalizeBackend E backendEnv) dbusAddr = true ↔
      goos = "linux" ∧
        (normalizeBackend E backendEnv = "" ∨ normalizeBackend E backendEnv = "auto") ∧
        dbusAddr ≠ "" := by
    simp [shouldUseTimeout, and_assoc]
  refine ⟨hUse, ?_, ?_⟩
  · intro h
    have hb := (hUse.mp h).2.1
    have hd := (hUse.mp h).2.2
    have hForce : shouldForceFileBackend goos (normalizeBackend E backendEnv) dbusAddr = false := by
      simp [shouldForceFileBackend, hd]
    have hA : openKeyringBackends E goos backendEnv dbusAddr = .ok [] := by
      unfold openKeyringBackends allowedBackends
      rw [if_pos hb]
      simp [hForce]
    have hO : ∀ r : OpenRace, openKeyring E goos none backendEnv dbusAddr openErr r =
        match openKeyringWithTimeout E keyringOpenTimeout r with
        | some err => .error err
        | none => .ok [] := by
      intro r
      unfold openKeyring
      simp only [hA, h, if_true]
    refine ⟨hO race, ?_, by simp [errorsIs, errKeyringTimeout]⟩
    rw [hO]
    rfl
  · intro hd
    have hNo : shouldUseTimeout goos (normalizeBackend E backendEnv) dbusAddr = false := by
      simp [shouldUseTimeout, hd]
    refine ⟨hNo, ?_⟩
    unfold openKeyring
    simp only [hNo]
    rfl

/-- On linux with a session bus address and the backend value `auto`, the open is raced:
when the timer fires, the timeout error with its hints is returned. -/
theorem openKeyring_timeout_cases_witness :
    shouldUseTimeout "linux" (normalizeBackend simEnv "auto") "unix:path=/run/user/1000/bus" =
      true ∧
    openKeyring simEnv "linux" none "auto" "unix:path=/run/user/1000/bus" none OpenRace.timedOut =
      .error (.wrapf "" errKeyringTimeout
        " after 5s; set RAINDROP_KEYRING_BACKEND=file and RAINDROP_KEYRING_PASSWORD=<password>") :=
  ⟨by decide,
    ((openKeyring_timeout_cases simEnv "linux" "auto" "unix:path=/run/user/1000/bus" none
      OpenRace.timedOut).2.1 (by decide)).2.1⟩

/-! ## C22 -/

theorem StoreCall_run_keeps_token (E : Env X) (call : StoreCall) (s : KeyringStore) (w : World X)
    (tok : Token) (hl : s.tokenLoaded = true) (hc : s.tokenCache = some tok) :
    (call.run E s w).tokenLoaded = true ∧ (call.run E s w).tokenCache = some tok := by
  cases call with
  | GetToken =>
    simp only [StoreCall.run]
    rw [GetToken_of_cached E s w tok hl hc]
    exact ⟨hl, hc⟩
  | SetCredentials creds =>
    simp only [StoreCall.run]
    unfold KeyringStore.SetCredentials
    split
    · exact ⟨hl, hc⟩
    · split
      · exact ⟨hl, hc⟩
      · split
        · exact ⟨hl, hc⟩
        · split <;> exact ⟨hl, hc⟩
  | GetCredentials =>
    simp only [StoreCall.run]
    unfold KeyringStore.GetCredentials
    split
    · split <;> exact ⟨hl, hc⟩
    · split
      · split <;> exact ⟨hl, hc⟩
      · split <;> exact ⟨hl, hc⟩
  | DeleteCredentials =>
    simp only [StoreCall.run]
    unfold KeyringStore.DeleteCredentials
    split
    · split <;> exact ⟨hl, hc⟩
    · exact ⟨hl, hc⟩
  | CredentialsExists =>
    simp only [StoreCall.run]
    unfold KeyringStore.CredentialsExists
    split
    · exact ⟨hl, hc⟩
    · have hG : ((s.GetCredentials E w).2.1).tokenLoaded = true ∧
          ((s.GetCredentials E w).2.1).tokenCache = some tok := by
        unfold KeyringStore.GetCredentials
        split
        · split <;> exact ⟨hl, hc⟩
        · split
          · split <;> exact ⟨hl, hc⟩
          · split <;> exact ⟨hl, hc⟩
      split
      · split <;> exact hG
      · exact hG

theorem runCalls_keeps_token (E : Env X) (calls : List (StoreCall × World X)) (s : KeyringStore)
    (tok : Token) (hl : s.tokenLoaded = true) (hc : s.tokenCache = some tok) :
    (runCalls E calls s).tokenLoaded = true ∧ (runCalls E calls s).tokenCache = some tok := by
  induction calls generalizing s with
  | nil => exact ⟨hl, hc⟩
  | cons cw rest ih =>
    obtain ⟨call, w⟩ := cw
    have h := StoreCall_run_keeps_token E call s w tok hl hc
    exact ih (call.run E s w) h.1 h.2

/-- C22: once a `GetToken` on a store has returned a token, or a `SetToken` has returned
no error, every later `GetToken` on that store, after any sequence of calls other than
`SetToken` and `DeleteToken` (each made in an arbitrary world) and itself made in an
arbitrary world, returns that token (for `SetToken`, the token as stored, with its
`created_at` stamped) and leaves the store and the world as they are: the backend is not
read, whatever it holds. -/
theorem KeyringStore_token_cache_sticky (E : Env X) (s : KeyringStore) (w : World X)
    (tok : Token) (calls : List (StoreCall × World X)) (w3 : World X) :
    (∀ (s1 : KeyringStore) (w1 : World X), s.GetToken E w = (.ok tok, s1, w1) →
      (runCalls E calls s1).GetToken E w3 = (.ok tok, runCalls E calls s1, w3)) ∧
    ((s.SetToken E w tok).1 = none →
      (runCalls E calls (s.SetToken E w tok).2.1).GetToken E w3 =
        (.ok ⟨tok.TestToken, tok.RefreshToken,
            if tok.CreatedAt.IsZero then (w.now E).1.UTC else tok.CreatedAt⟩,
          runCalls E calls (s.SetToken E w tok).2.1, w3)) := by
  constructor
  · intro s1 w1 hGet
    have h := GetToken_ok_cached E s s1 w w1 tok hGet
    have h2 := runCalls_keeps_token E calls s1 tok h.1 h.2
    exact GetToken_of_cached E _ w3 tok h2.1 h2.2
  · intro hSet
    have h := SetToken_ok_cached E s w tok hSet
    have h2 := runCalls_keeps_token E calls _ _ h.1 h.2
    exact GetToken_of_cached E _ w3 _ h2.1 h2.2

/-- A token read from the backend stays the answer after the backend has lost it: the
later read, in a world whose backend is empty, still returns the token and reads nothing. -/
theorem KeyringStore_token_cache_sticky_witness :
    (runCalls simEnv [(StoreCall.GetCredentials, worldAt 1500 [] []),
        (StoreCall.GetToken, worldAt 1600 [] [])]
      (KeyringStore.fresh.GetToken simEnv (worldHolding [("token", "|r1|7|UTC")])).2.1).GetToken
        simEnv (worldAt 2000 [] []) =
      (.ok ⟨"", "r1", ⟨7, Location.UTC⟩⟩, ⟨some ⟨"", "r1", ⟨7, Location.UTC⟩⟩, none, true, true⟩,
        worldAt 2000 [] []) :=
  (KeyringStore_token_cache_sticky simEnv KeyringStore.fresh (worldHolding [("token", "|r1|7|UTC")])
    ⟨"", "r1", ⟨7, Location.UTC⟩⟩
    [(StoreCall.GetCredentials, worldAt 1500 [] []), (StoreCall.GetToken, worldAt 1600 [] [])]
    (worldAt 2000 [] [])).1 _ _ rfl

/-! ## C23 -/

theorem DeleteToken_ok_state (E : Env X) (s : KeyringStore) (w : World X)
    (hDel : (s.DeleteToken E w).1 = none) :
    (s.DeleteToken E w).2.1 = { s with tokenLoaded := true, tokenCache := none } := by
  unfold KeyringStore.DeleteToken at hDel ⊢
  split
  · rename_i err hr
    simp only [hr] at hDel
    split
    · rename_i hk
      simp [hk] at hDel
    · rfl
  · rfl

theorem DeleteToken_of_inert (E : Env X) (s : KeyringStore) (w : World X)
    (hExt : (E.ringRemove w.ext tokenKey).2 = w.ext)
    (hRes : (E.ringRemove w.ext tokenKey).1 = none ∨
      ∃ e, (E.ringRemove w.ext tokenKey).1 = some e ∧ errorsIs e ErrKeyNotFound = true) :
    s.DeleteToken E w =
      (none, { s with tokenLoaded := true, tokenCache := none },
        ⟨w.ext, w.log ++ [Event.ringRemove tokenKey]⟩) := by
  unfold KeyringStore.DeleteToken
  rcases hRes with h | ⟨e, he, hk⟩
  · simp [World.ringRemove, h, hExt]
  · simp [World.ringRemove, he, hk, hExt]

/-- C23: `DeleteToken` returns nil when the backend answers the removal with key-not-found;
after a `DeleteToken` that returned nil, `GetToken` on the store it leaves returns
`ErrNoToken` without reading the backend; and a second `DeleteToken` leaves the cache as
the first left it (whether or not it succeeds) and calls the backend once, with `Remove`:
on a backend where, the entry being gone, a removal changes nothing and reports nil or
key-not-found, it returns nil and leaves the backend as the first call left it. -/
theorem KeyringStore_DeleteToken_idempotent (E : Env X) (s : KeyringStore) (w : World X) :
    (∀ err : GoError, (w.ringRemove E tokenKey).1 = some err →
      errorsIs err ErrKeyNotFound = true →
      s.DeleteToken E w =
        (none, { s with tokenLoaded := true, tokenCache := none }, (w.ringRemove E tokenKey).2)) ∧
    ((s.DeleteToken E w).1 = none →
      (∀ w3 : World X, (s.DeleteToken E w).2.1.GetToken E w3 =
        (.error ErrNoToken, (s.DeleteToken E w).2.1, w3)) ∧
      (∀ w3 : World X,
        ((s.DeleteToken E w).2.1.DeleteToken E w3).2.1 = (s.DeleteToken E w).2.1 ∧
        ((s.DeleteToken E w).2.1.DeleteToken E w3).2.2.log =
          w3.log ++ [Event.ringRemove tokenKey]) ∧
      ((∀ x : X,
          (∃ e, (E.ringGet x tokenKey).1 = .error e ∧ errorsIs e ErrKeyNotFound = true) →
          (E.ringRemove x tokenKey).2 = x ∧
            ((E.ringRemove x tokenKey).1 = none ∨
              ∃ e, (E.ringRemove x tokenKey).1 = some e ∧ errorsIs e ErrKeyNotFound = true)) →
        (∃ e, (E.ringGet (s.DeleteToken E w).2.2.ext tokenKey).1 = .error e ∧
          errorsIs e ErrKeyNotFound = true) →
        (s.DeleteToken E w).2.1.DeleteToken E (s.DeleteToken E w).2.2 =
          (none, (s.DeleteToken E w).2.1,
            ⟨(s.DeleteToken E w).2.2.ext,
              (s.DeleteToken E w).2.2.log ++ [Event.ringRemove tokenKey]⟩))) := by
  constructor
  · intro err hr hk
    unfold KeyringStore.DeleteToken
    simp [hr, hk]
  · intro hDel
    have hS := DeleteToken_ok_state E s w hDel
    have hTwice : ∀ w3 : World X,
        ((s.DeleteToken E w).2.1.DeleteToken E w3).2.1 = (s.DeleteToken E w).2.1 ∧
        ((s.DeleteToken E w).2.1.DeleteToken E w3).2.2.log =
          w3.log ++ [Event.ringRemove tokenKey] := by
      intro w3
      rw [hS]
      unfold KeyringStore.DeleteToken
      split
      · split <;> exact ⟨rfl, rfl⟩
      · exact ⟨rfl, rfl⟩
    refine ⟨?_, hTwice, ?_⟩
    · intro w3
      rw [hS]
      simp [KeyringStore.GetToken]
    · intro hInert hGone
      obtain ⟨hExt, hRes⟩ := hInert _ hGone
      have h2 := hTwice (s.DeleteToken E w).2.2
      have hD := DeleteToken_of_inert E (s.DeleteToken E w).2.1 (s.DeleteToken E w).2.2 hExt hRes
      have hOk : ((s.DeleteToken E w).2.1.DeleteToken E (s.DeleteToken E w).2.2).1 = none := by
        rw [hD]
      have hW : ((s.DeleteToken E w).2.1.DeleteToken E (s.DeleteToken E w).2.2).2.2 =
          ⟨(s.DeleteToken E w).2.2.ext,
            (s.DeleteToken E w).2.2.log ++ [Event.ringRemove tokenKey]⟩ := by
        rw [hD]
      exact Prod.ext hOk (Prod.ext h2.1 hW)

/-- Deleting on an empty backend succeeds, the next read gives `ErrNoToken`, and deleting
again changes neither the cache nor the backend. -/
theorem KeyringStore_DeleteToken_idempotent_witness :
    (storeWith "r1").DeleteToken simEnv (worldAt 1000 [] []) =
      (none, ⟨none, none, true, false⟩,
        ⟨⟨1000, [], none, [], []⟩, [Event.ringRemove tokenKey]⟩) ∧
    (KeyringStore.mk none none true false).GetToken simEnv (worldAt 2000 [] []) =
      (.error ErrNoToken, ⟨none, none, true, false⟩, worldAt 2000 [] []) ∧
    ((storeWith "r1").DeleteToken simEnv (worldAt 1000 [] [])).2.1.DeleteToken simEnv
        ((storeWith "r1").DeleteToken simEnv (worldAt 1000 [] [])).2.2 =
      (none, ⟨none, none, true, false⟩,
        ⟨⟨1000, [], none, [], []⟩, [Event.ringRemove tokenKey, Event.ringRemove tokenKey]⟩) :=
  have h := KeyringStore_DeleteToken_idempotent simEnv (storeWith "r1") (worldAt 1000 [] [])
  ⟨h.1 ErrKeyNotFound rfl (by decide), (h.2 rfl).1 (worldAt 2000 [] []),
    (h.2 rfl).2.2
      (by
        intro x hx
        obtain ⟨e, he, _⟩ := hx
        cases hl : lookupItem x.items tokenKey with
        | none =>
          refine ⟨by simp [simEnv, hl], Or.inr ⟨ErrKeyNotFound, by simp [simEnv, hl], by decide⟩⟩
        | some d => simp [simEnv, hl] at he)
      ⟨ErrKeyNotFound, rfl, by decide⟩⟩

/-! ## C27 -/

/-- What `GetToken` does on a store that has not loaded its token when the backend read
fails with an error that is not key-not-found: this call reports `read token: ...`, and
the store it leaves reports `ErrNoToken` on every later call, in any world, without
reading the backend again. -/
theorem GetToken_after_read_failure (E : Env X) (s : KeyringStore) (w : World X) (err : GoError)
    (hl : s.tokenLoaded = false) (hr : (w.ringGet E tokenKey).1 = .error err)
    (hk : errorsIs err ErrKeyNotFound = false) :
    (s.GetToken E w).1 = .error (.wrapf "read token: " err "") ∧
    ∀ w3 : World X, (s.GetToken E w).2.1.GetToken E w3 =
      (.error ErrNoToken, (s.GetToken E w).2.1, w3) := by
  have h1 : s.GetToken E w = (.error (.wrapf "read token: " err ""),
      { s with tokenLoaded := true, tokenCache := none }, (w.ringGet E tokenKey).2) := by
    simp [KeyringStore.GetToken, hl, hr, hk]
  rw [h1]
  exact ⟨rfl, fun w3 => by simp [KeyringStore.GetToken]⟩

/-- C27 fails on the code: the backend holds a token, but the first read fails because the
keychain is locked. `GetToken` reports `read token: keychain is locked`; the store has
then marked the token as loaded and absent, so the next `GetToken` reports `ErrNoToken`,
the not-found sentinel, although the backend holds the entry and would now return it. The
same happens with `GetCredentials` and `ErrNoCredentials`. -/
theorem GetToken_read_failure_reported_as_not_found :
    KeyringStore.fresh.GetToken (simEnvReadFailing (.foreign "keychain is locked"))
        (worldHolding [("token", "|r1|7|UTC"), ("oauth_credentials", "abc|xyz|")]) =
      (.error (.wrapf "read token: " (.foreign "keychain is locked") ""),
        ⟨none, none, true, false⟩,
        ⟨⟨1000, [("token", "|r1|7|UTC"), ("oauth_credentials", "abc|xyz|")], none, [], []⟩,
          [Event.ringGet tokenKey]⟩) ∧
    (KeyringStore.mk none none true false).GetToken simEnv
        (worldHolding [("token", "|r1|7|UTC"), ("oauth_credentials", "abc|xyz|")]) =
      (.error ErrNoToken, ⟨none, none, true, false⟩,
        worldHolding [("token", "|r1|7|UTC"), ("oauth_credentials", "abc|xyz|")]) ∧
    (KeyringStore.fresh.GetToken simEnv
        (worldHolding [("token", "|r1|7|UTC"), ("oauth_credentials", "abc|xyz|")])).1 =
      .ok ⟨"", "r1", ⟨7, Location.UTC⟩⟩ ∧
    (KeyringStore.fresh.GetCredentials (simEnvReadFailing (.foreign "keychain is locked"))
        (worldHolding [("token", "|r1|7|UTC"), ("oauth_credentials", "abc|xyz|")])).1 =
      .error (.wrapf "read credentials: " (.foreign "keychain is locked") "") ∧
    ((KeyringStore.fresh.GetCredentials (simEnvReadFailing (.foreign "keychain is locked"))
        (worldHolding [("token", "|r1|7|UTC"), ("oauth_credentials", "abc|xyz|")])).2.1.GetCredentials
        simEnv (worldHolding [("token", "|r1|7|UTC"), ("oauth_credentials", "abc|xyz|")])).1 =
      .error ErrNoCredentials := by
  refine ⟨rfl, rfl, rfl, rfl, rfl⟩

/-! ## C24 -/

theorem servedChannels_no_callback (state : String) (requests : List URL)
    (hNone : ∀ r ∈ requests, r.Path ≠ "/callback") :
    servedChannels state none requests = ⟨none, none⟩ := by
  unfold servedChannels
  simp only []
  induction requests with
  | nil => rfl
  | cons r rest ih =>
    have hr : r.Path ≠ "/callback" := hNone r (List.mem_cons_self _ _)
    have hstep : (callbackHandler state ⟨none, none⟩ r).2 = ⟨none, none⟩ := by
      simp [callbackHandler, hr]
    rw [List.foldl_cons, hstep]
    exact ih (fun x hx => hNone x (List.mem_cons_of_mem _ hx))

theorem serverPrompt_browser_exchanges (E : Env X) (w : World X) (u : String) :
    ((serverPrompt w u).openBrowser E u).exchanges = w.exchanges := by
  simp [serverPrompt, World.openBrowser, World.stderr, World.exchanges, List.countP_append,
    Event.isPost]

/-- C24: in server mode, with the redirect URI parsed and the listener bound, when no
request for `/callback` has been served and `srv.Serve` has not failed by the time the
context is done with `context.DeadlineExceeded`, neither channel case of the `select` is
ready, so the `ctx.Done()` case is the one that fires: the result is the error
`authorization canceled: ...` wrapping `context.DeadlineExceeded`, no exchange is made, and
the last two things done are closing the server and closing the listener. -/
theorem authorizeWithServer_deadline (E : Env X) (w : World X) (redirectURL : String)
    (creds : OAuthCredentials) (state : String) (requests : List URL) (parsed : URL)
    (hParse : E.urlParse redirectURL = .ok parsed)
    (hListen : (w.listen E (callbackAddr parsed)).1 = none)
    (hNone : ∀ r ∈ requests, r.Path ≠ "/callback") :
    authorizeWithServer E w redirectURL creds state none requests (some DeadlineExceeded)
      Wakeup.code = none ∧
    authorizeWithServer E w redirectURL creds state none requests (some DeadlineExceeded)
      Wakeup.err = none ∧
    authorizeWithServer E w redirectURL creds state none requests (some DeadlineExceeded)
      Wakeup.done =
      some (.error (.wrapf "authorization canceled: " DeadlineExceeded ""),
        (((serverPrompt (w.listen E (callbackAddr parsed)).2
          (E.authCodeURL redirectURL creds.ClientID state)).openBrowser E
          (E.authCodeURL redirectURL creds.ClientID state)).note Event.serverClose).note
          Event.listenerClose) ∧
    errorsIs (.wrapf "authorization canceled: " DeadlineExceeded "") DeadlineExceeded = true ∧
    ((((serverPrompt (w.listen E (callbackAddr parsed)).2
          (E.authCodeURL redirectURL creds.ClientID state)).openBrowser E
          (E.authCodeURL redirectURL creds.ClientID state)).note Event.serverClose).note
          Event.listenerClose).exchanges = w.exchanges ∧
    ((((serverPrompt (w.listen E (callbackAddr parsed)).2
          (E.authCodeURL redirectURL creds.ClientID state)).openBrowser E
          (E.authCodeURL redirectURL creds.ClientID state)).note Event.serverClose).note
          Event.listenerClose).log =
      ((serverPrompt (w.listen E (callbackAddr parsed)).2
          (E.authCodeURL redirectURL creds.ClientID state)).openBrowser E
          (E.authCodeURL redirectURL creds.ClientID state)).log ++
        [Event.serverClose, Event.listenerClose] := by
  have hCh := servedChannels_no_callback state requests hNone
  refine ⟨?_, ?_, ?_, by decide, ?_, ?_⟩
  · unfold authorizeWithServer
    simp only [hParse, hListen, hCh]
  · unfold authorizeWithServer
    simp only [hParse, hListen, hCh]
  · unfold authorizeWithServer
    simp only [hParse, hListen]
  · have h := serverPrompt_browser_exchanges E (w.listen E (callbackAddr parsed)).2
      (E.authCodeURL redirectURL creds.ClientID state)
    simp only [World.note, World.exchanges, List.countP_append] at h ⊢
    rw [h]
    simp [World.listen, List.countP_append, Event.isPost]
  · simp [World.note]

/-- The user never comes back: only a request for `/favicon.ico` was served when the
deadline passes; the flow ends with the deadline error and without an exchange. -/
theorem authorizeWithServer_deadline_witness :
    authorizeWithServer simEnv (worldAt 1000 [reply "a1|r1|Bearer|60"] [])
        "http://localhost:8484/callback" demoCreds "RIGHT" none [⟨"/favicon.ico", "", []⟩]
        (some DeadlineExceeded) Wakeup.code = none ∧
    (authorizeWithServer simEnv (worldAt 1000 [reply "a1|r1|Bearer|60"] [])
        "http://localhost:8484/callback" demoCreds "RIGHT" none [⟨"/favicon.ico", "", []⟩]
        (some DeadlineExceeded) Wakeup.done).map (fun r => r.1) =
      some (.error (.wrapf "authorization canceled: " DeadlineExceeded "")) :=
  have h := authorizeWithServer_deadline simEnv (worldAt 1000 [reply "a1|r1|Bearer|60"] [])
    "http://localhost:8484/callback" demoCreds "RIGHT" [⟨"/favicon.ico", "", []⟩]
    ⟨"/callback", "", []⟩ rfl rfl (by decide)
  ⟨h.1, by rw [h.2.2.1]; rfl⟩

/-! ## C25 -/

theorem ListAllCollections_ok {S : Type} (get : GetItems S) (s s1 s2 : S)
    (root children : List Collection) (hRoot : get "/collections" s = (.ok root, s1))
    (hChildren : get "/collections/childrens" s1 = (.ok children, s2)) :
    ListAllCollections get s = (.ok (root ++ children), s2) := by
  simp [ListAllCollections, ListRootCollections, ListChildCollections, hRoot, hChildren]

theorem find_first {α : Type} (p : α → Bool) (before after : List α) (x : α)
    (hBefore : ∀ b ∈ before, p b = false) (hx : p x = true) :
    (before ++ x :: after).find? p = some x := by
  induction before with
  | nil => simp [List.find?, hx]
  | cons b rest ih =>
    have hb : p b = false := hBefore b (List.mem_cons_self _ _)
    simp only [List.cons_append, List.find?, hb]
    exact ih (fun y hy => hBefore y (List.mem_cons_of_mem _ hy))

/-- C25: `ResolveCollection` on every input. With `t` the input lower-cased and trimmed:
`t` in `""`, `all`, `0` gives 0, `t` in `unsorted`, `-1` gives -1, `t` in `trash`, `-99`
gives -99; otherwise an input `strconv.Atoi` accepts gives that integer; all four whatever
`Get` would do and without calling it (the client is unchanged). Every other input, when
the two fetches succeed, gives the ID of the first collection of the root collections
followed by the child collections whose title is `EqualFold` to the input, and the
`APIError` 404 `collection not found` with the input as details when there is none. -/
theorem ResolveCollection_cases {S : Type} (E : Env X) (get : GetItems S) (s : S)
    (nameOrID : String) :
    ((TrimSpace (ToLower E nameOrID) = "" ∨ TrimSpace (ToLower E nameOrID) = "all" ∨
        TrimSpace (ToLower E nameOrID) = "0") →
      ResolveCollection E get s nameOrID = (.ok 0, s)) ∧
    ((TrimSpace (ToLower E nameOrID) = "unsorted" ∨ TrimSpace (ToLower E nameOrID) = "-1") →
      ResolveCollection E get s nameOrID = (.ok (-1), s)) ∧
    ((TrimSpace (ToLower E nameOrID) = "trash" ∨ TrimSpace (ToLower E nameOrID) = "-99") →
      ResolveCollection E get s nameOrID = (.ok (-99), s)) ∧
    (¬ isSystemName E nameOrID → ∀ id : Int, E.atoi nameOrID = some id →
      ResolveCollection E get s nameOrID = (.ok id, s)) ∧
    (¬ isSystemName E nameOrID → E.atoi nameOrID = none →
      ∀ (root children : List Collection) (s1 s2 : S),
        get "/collections" s = (.ok root, s1) →
        get "/collections/childrens" s1 = (.ok children, s2) →
        (∀ (before after : List Collection) (col : Collection),
          root ++ children = before ++ col :: after →
          (∀ b ∈ before, E.equalFold b.Title nameOrID = false) →
          E.equalFold col.Title nameOrID = true →
          ResolveCollection E get s nameOrID = (.ok col.ID, s2)) ∧
        ((∀ col ∈ root ++ children, E.equalFold col.Title nameOrID = false) →
          ResolveCollection E get s nameOrID =
            (.error (.APIError 404 "collection not found" nameOrID), s2))) := by
  have hsys : ¬ isSystemName E nameOrID →
      ¬ (TrimSpace (ToLower E nameOrID) = "" ∨ TrimSpace (ToLower E nameOrID) = "all" ∨
        TrimSpace (ToLower E nameOrID) = "0") ∧
      ¬ (TrimSpace (ToLower E nameOrID) = "unsorted" ∨
        TrimSpace (ToLower E nameOrID) = "-1") ∧
      ¬ (TrimSpace (ToLower E nameOrID) = "trash" ∨
        TrimSpace (ToLower E nameOrID) = "-99") := by
    intro h
    simp only [isSystemName, List.mem_cons, List.mem_singleton, List.not_mem_nil,
      or_false] at h
    tauto
  refine ⟨?_, ?_, ?_, ?_, ?_⟩
  · intro h
    unfold ResolveCollection
    rw [if_pos h]
    rfl
  · intro h
    have h0 : ¬ (TrimSpace (ToLower E nameOrID) = "" ∨ TrimSpace (ToLower E nameOrID) = "all" ∨
        TrimSpace (ToLower E nameOrID) = "0") := by
      rcases h with h | h <;> rw [h] <;> decide
    unfold ResolveCollection
    rw [if_neg h0, if_pos h]
    rfl
  · intro h
    have h0 : ¬ (TrimSpace (ToLower E nameOrID) = "" ∨ TrimSpace (ToLower E nameOrID) = "all" ∨
        TrimSpace (ToLower E nameOrID) = "0") := by
      rcases h with h | h <;> rw [h] <;> decide
    have h1 : ¬ (TrimSpace (ToLower E nameOrID) = "unsorted" ∨
        TrimSpace (ToLower E nameOrID) = "-1") := by
      rcases h with h | h <;> rw [h] <;> decide
    unfold ResolveCollection
    rw [if_neg h0, if_neg h1, if_pos h]
    rfl
  · intro h id hid
    obtain ⟨h0, h1, h2⟩ := hsys h
    unfold ResolveCollection
    rw [if_neg h0, if_neg h1, if_neg h2]
    simp only [hid]
  · intro h hid root children s1 s2 hRoot hChildren
    obtain ⟨h0, h1, h2⟩ := hsys h
    have hAll := ListAllCollections_ok get s s1 s2 root children hRoot hChildren
    refine ⟨?_, ?_⟩
    · intro before after col hsplit hBefore hcol
      have hfind := find_first (fun c : Collection => E.equalFold c.Title nameOrID)
        before after col hBefore hcol
      unfold ResolveCollection
      rw [if_neg h0, if_neg h1, if_neg h2]
      simp only [hid, hAll, hsplit, hfind]
    · intro hnone
      have hfind : (root ++ children).find?
          (fun c : Collection => E.equalFold c.Title nameOrID) = none := by
        rw [List.find?_eq_none]
        intro c hc
        simp [hnone c hc]
      unfold ResolveCollection
      rw [if_neg h0, if_neg h1, if_neg h2]
      simp only [hid, hAll, hfind]

/-- The input ` Unsorted ` is the system collection -1 without a fetch; `HOME` is neither a
system name nor a number, and its first match is the root collection `Home` (12), not the
child collection `home` (21). -/
theorem ResolveCollection_cases_witness :
    ResolveCollection simEnv demoGet [] " Unsorted " = (.ok (-1), []) ∧
    ResolveCollection simEnv demoGet [] "HOME" =
      (.ok 12, ["/collections", "/collections/childrens"]) :=
  have h := ResolveCollection_cases simEnv demoGet [] "HOME"
  ⟨(ResolveCollection_cases simEnv demoGet [] " Unsorted ").2.1 (Or.inl (by decide)),
    (h.2.2.2.2 (by unfold isSystemName; decide) (by decide)
      [⟨11, "Work", 3, none⟩, ⟨12, "Home", 5, none⟩]
      [⟨21, "home", 1, some 11⟩, ⟨22, "Recipes", 2, some 12⟩]
      ["/collections"] ["/collections", "/collections/childrens"] rfl rfl).1
      [⟨11, "Work", 3, none⟩] [⟨21, "home", 1, some 11⟩, ⟨22, "Recipes", 2, some 12⟩]
      ⟨12, "Home", 5, none⟩ rfl (by decide) (by decide)⟩

/-! ## C28 -/

theorem slice_length {α : Type} (items : List α) (i : Nat) (hi : i < items.length) :
    (slice items i (min (i + batchSize) items.length)).length =
      min batchSize (items.length - i) := by
  simp only [slice, batchSize, List.length_take, List.length_drop]
  omega

theorem slice_append_drop {α : Type} (items : List α) (i : Nat) :
    slice items i (min (i + batchSize) items.length) ++ items.drop (i + batchSize) =
      items.drop i := by
  have hdrop : items.drop (i + batchSize) = (items.drop i).drop batchSize := by
    rw [List.drop_drop]
  rw [hdrop]
  by_cases h : i + batchSize ≤ items.length
  · have hk : min (i + batchSize) items.length - i = batchSize := by omega
    simp only [slice, hk]
    exact List.take_append_drop _ _
  · have h1 : (items.drop i).length ≤ min (i + batchSize) items.length - i := by
      simp only [List.length_drop]
      omega
    have h2 : (items.drop i).length ≤ batchSize := by
      simp only [List.length_drop]
      omega
    simp only [slice]
    rw [List.take_of_length_le h1, List.drop_of_length_le h2, List.append_nil]

theorem bulkLoop_ok {S : Type} (create : BulkCreate S) (json : Bool)
    (items : List CreateRaindropRequest)
    (hOk : ∀ batch s, ∃ created, (create batch s).1 = .ok created) :
    ∀ (fuel i : Nat) (run : BulkRun S), items.length ≤ i + batchSize * fuel →
      ∃ (run1 : BulkRun S) (chunks : List (List CreateRaindropRequest)),
        bulkLoop create json items fuel i run = some (none, run1) ∧
        run1.sent = run.sent ++ chunks ∧
        (run1.client, run1.allCreated) =
          chunks.foldl (createBatch create) (run.client, run.allCreated) ∧
        chunks.flatten = items.drop i ∧
        chunks.length = (items.length - i + 99) / 100 ∧
        ∀ b ∈ chunks, 1 ≤ b.length ∧ b.length ≤ 100 := by
  intro fuel
  induction fuel with
  | zero =>
    intro i run hfuel
    have hi : ¬ i < items.length := by simp only [batchSize] at hfuel; omega
    refine ⟨run, [], ?_, by simp, rfl, ?_, ?_, by simp⟩
    · unfold bulkLoop
      rw [if_neg hi]
    · rw [List.drop_of_length_le (by omega)]
      rfl
    · have h0 : items.length - i = 0 := by omega
      rw [h0]
      rfl
  | succ fuel ih =>
    intro i run hfuel
    by_cases hi : i < items.length
    · obtain ⟨created, hcreated⟩ :=
        hOk (slice items i (min (i + batchSize) items.length)) run.client
      have hnext : items.length ≤ (i + batchSize) + batchSize * fuel := by
        simp only [batchSize] at hfuel ⊢
        omega
      obtain ⟨run1, chunks, hrun, hsent, hcalls, hflat, hlen, hsize⟩ :=
        ih (i + batchSize)
          ⟨(create (slice items i (min (i + batchSize) items.length)) run.client).2,
            run.allCreated ++ created,
            run.sent ++ [slice items i (min (i + batchSize) items.length)],
            if json then run.stderr
            else run.stderr ++
              ["Created " ++ formatInt (run.allCreated ++ created).length ++ "/" ++
                formatInt items.length ++ " raindrops\n"]⟩ hnext
      have hslice := slice_length items i hi
      refine ⟨run1, slice items i (min (i + batchSize) items.length) :: chunks, ?_, ?_, ?_,
        ?_, ?_, ?_⟩
      · unfold bulkLoop
        rw [if_pos hi]
        simp only [hcreated]
        exact hrun
      · rw [hsent]
        simp
      · rw [hcalls, List.foldl_cons]
        simp only [createBatch, hcreated]
      · rw [List.flatten_cons, hflat]
        exact slice_append_drop items i
      · simp only [List.length_cons, hlen, batchSize]
        omega
      · intro b hb
        rcases List.mem_cons.mp hb with hb | hb
        · rw [hb, hslice]
          simp only [batchSize]
          omega
        · exact hsize b hb
    · refine ⟨run, [], ?_, by simp, rfl, ?_, ?_, by simp⟩
      · unfold bulkLoop
        rw [if_neg hi]
      · rw [List.drop_of_length_le (by omega)]
        rfl
      · have h0 : items.length - i = 0 := by omega
        rw [h0]
        rfl

/-- C28: for a non-empty list of `n` URLs, when `getClientWithContext()` and every
bulk-create call succeed, the batching loop of `runBulk` ends (any number of passes from
`ceil(n/100)` on is enough for it). It has called `CreateRaindropsBulk` once on each of
`ceil(n/100)` batches, in order: the client it leaves and the items it has collected are
those of these calls, one after the other, starting from the client it was given. Each
batch has between 1 and 100 items, and the batches one after the other are the requests
built from the URLs, in input order. -/
theorem runBulk_batches {S : Type} (create : BulkCreate S) (json : Bool) (client : S)
    (urls : List String) (tags : List String) (collectionID : Int) (fuel : Nat)
    (hUrls : urls ≠ [])
    (hOk : ∀ batch s, ∃ created, (create batch s).1 = .ok created)
    (hFuel : (urls.length + 99) / 100 ≤ fuel) :
    ∃ run : BulkRun S,
      runBulk create json client none urls tags collectionID fuel = some (.created run) ∧
      (run.client, run.allCreated) = run.sent.foldl (createBatch create) (client, []) ∧
      run.sent.length = (urls.length + 99) / 100 ∧
      (∀ b ∈ run.sent, 1 ≤ b.length ∧ b.length ≤ 100) ∧
      run.sent.flatten = bulkItems urls tags collectionID ∧
      run.sent.flatten.map (fun r => r.Link) = urls := by
  have hlenItems : (bulkItems urls tags collectionID).length = urls.length := by
    simp [bulkItems]
  have hfuel : (bulkItems urls tags collectionID).length ≤ 0 + batchSize * fuel := by
    rw [hlenItems]
    simp only [batchSize]
    omega
  obtain ⟨run, chunks, hrun, hsent, hcalls, hflat, hlen, hsize⟩ :=
    bulkLoop_ok create json (bulkItems urls tags collectionID) hOk fuel 0
      ⟨client, [], [], []⟩ hfuel
  have hne : ¬ urls.length = 0 := by
    intro h
    exact hUrls (List.length_eq_zero.mp h)
  have hsent2 : run.sent = chunks := by simpa using hsent
  refine ⟨run, ?_, ?_, ?_, ?_, ?_, ?_⟩
  · unfold runBulk
    rw [if_neg hne]
    simp only [hrun]
  · rw [hsent2]
    exact hcalls
  · rw [hsent2, hlen, hlenItems]
    rfl
  · rw [hsent2]
    exact hsize
  · rw [hsent2, hflat]
    rfl
  · rw [hsent2, hflat]
    simp only [bulkItems, List.drop_zero, List.map_map]
    exact List.map_id _

/-- The run over 101 URLs makes two calls, with 100 items and with 1 item: the client has
counted two calls and 101 items are created. -/
theorem runBulk_batches_witness :
    (∃ run : BulkRun Nat,
      runBulk demoCreate false 0 none (List.replicate 101 "https://example.com") ["go"] (-1) 2 =
        some (.created run) ∧
      (run.client, run.allCreated) = run.sent.foldl (createBatch demoCreate) (0, []) ∧
      run.sent.length = (101 + 99) / 100 ∧
      (∀ b ∈ run.sent, 1 ≤ b.length ∧ b.length ≤ 100) ∧
      run.sent.flatten =
        bulkItems (List.replicate 101 "https://example.com") ["go"] (-1) ∧
      run.sent.flatten.map (fun r => r.Link) = List.replicate 101 "https://example.com") ∧
    (match runBulk demoCreate false 0 none (List.replicate 101 "https://example.com") ["go"]
        (-1) 2 with
      | some (.created run) => (run.client, run.allCreated.length, run.sent.map List.length)
      | _ => (0, 0, [])) = (2, 101, [100, 1]) :=
  ⟨runBulk_batches demoCreate false 0 (List.replicate 101 "https://example.com") ["go"] (-1) 2
    (by decide) (fun batch s => ⟨_, rfl⟩) (by decide), by rfl⟩

/-! ## C26 -/

theorem scanWidth_text_plain (bs : List Nat) (hPlain : 0x1b ∉ bs) :
    scanWidth .text bs = bs.length := by
  induction bs with
  | nil => rfl
  | cons c rest ih =>
    have hc : ¬ c = 0x1b := fun h => hPlain (h ▸ List.mem_cons_self _ _)
    have hrest : 0x1b ∉ rest := fun h => hPlain (List.mem_cons_of_mem _ h)
    cases rest with
    | nil => rfl
    | cons next rest2 =>
      rw [scanWidth, if_neg hc, ih hrest]
      simp only [List.length_cons]
      omega

theorem scanWidth_text_cons (c : Nat) (l : List Nat) (hc : c ≠ 0x1b) :
    scanWidth .text (c :: l) = 1 + scanWidth .text l := by
  cases l with
  | nil => rfl
  | cons next rest => rw [scanWidth, if_neg hc]

theorem scanWidth_text_append (bs rest : List Nat) (hPlain : 0x1b ∉ bs) :
    scanWidth .text (bs ++ rest) = bs.length + scanWidth .text rest := by
  induction bs with
  | nil => simp
  | cons c bs ih =>
    have hc : c ≠ 0x1b := fun h => hPlain (h ▸ List.mem_cons_self _ _)
    have hrest : 0x1b ∉ bs := fun h => hPlain (List.mem_cons_of_mem _ h)
    rw [List.cons_append, scanWidth_text_cons _ _ hc, ih hrest, List.length_cons]
    omega

theorem scanWidth_csi_append (params : List Nat) (final : Nat) (rest : List Nat)
    (hParams : ∀ c ∈ params, isASCIILetter c = false) (hFinal : isASCIILetter final = true) :
    scanWidth .csi (params ++ final :: rest) = scanWidth .text rest := by
  induction params with
  | nil => rw [List.nil_append, scanWidth, if_pos hFinal]
  | cons c params ih =>
    have hc : ¬ isASCIILetter c = true := by
      rw [hParams c (List.mem_cons_self _ _)]
      decide
    rw [List.cons_append, scanWidth, if_neg hc]
    exact ih (fun x hx => hParams x (List.mem_cons_of_mem _ hx))

theorem scanWidth_osc_cons (c : Nat) (l : List Nat) (h1 : c ≠ 0x07) (h2 : c ≠ 0x1b) :
    scanWidth .osc (c :: l) = scanWidth .osc l := by
  cases l with
  | nil => rfl
  | cons next rest => rw [scanWidth, if_neg h1, if_neg h2]

theorem scanWidth_osc_bel (rest : List Nat) :
    scanWidth .osc (0x07 :: rest) = scanWidth .text rest := by
  cases rest with
  | nil => rfl
  | cons next rest => rw [scanWidth, if_pos rfl]

theorem scanWidth_osc_append (payload : List Nat) (st : Bool) (rest : List Nat)
    (hBel : 0x07 ∉ payload) (hEsc : 0x1b ∉ payload) :
    scanWidth .osc (payload ++ (if st then [0x1b, 0x5c] else [0x07]) ++ rest) =
      scanWidth .text rest := by
  induction payload with
  | nil =>
    cases st with
    | true =>
      simp only [List.nil_append, if_true, List.cons_append]
      rw [scanWidth, if_neg (by decide), if_pos rfl, if_pos rfl]
    | false =>
      simp only [List.nil_append, Bool.false_eq_true, if_false, List.cons_append]
      exact scanWidth_osc_bel rest
  | cons c payload ih =>
    have h1 : c ≠ 0x07 := fun h => hBel (h ▸ List.mem_cons_self _ _)
    have h2 : c ≠ 0x1b := fun h => hEsc (h ▸ List.mem_cons_self _ _)
    rw [List.cons_append, List.cons_append, scanWidth_osc_cons _ _ h1 h2]
    exact ih (fun h => hBel (List.mem_cons_of_mem _ h)) (fun h => hEsc (List.mem_cons_of_mem _ h))

/-- What `VisibleWidth` computes on plain text interleaved with complete escape sequences:
the number of bytes of the plain text. -/
theorem scanWidth_segments (segs : List Segment) (hComplete : ∀ seg ∈ segs, seg.complete) :
    scanWidth .text (segs.flatMap Segment.bytes) = (segs.map Segment.textBytes).sum := by
  induction segs with
  | nil => rfl
  | cons seg segs ih =>
    have hrest := ih (fun x hx => hComplete x (List.mem_cons_of_mem _ hx))
    have hseg := hComplete seg (List.mem_cons_self _ _)
    rw [List.flatMap_cons, List.map_cons, List.sum_cons, ← hrest]
    cases seg with
    | text bs => exact scanWidth_text_append bs _ hseg
    | csi params final =>
      simp only [Segment.bytes, Segment.textBytes, List.cons_append, List.append_assoc,
        List.singleton_append, Nat.zero_add]
      rw [scanWidth, if_pos rfl, if_neg (by decide), if_pos rfl]
      exact scanWidth_csi_append params final _ hseg.1 hseg.2
    | osc payload st =>
      simp only [Segment.bytes, Segment.textBytes, List.cons_append, Nat.zero_add]
      rw [scanWidth, if_pos rfl, if_pos rfl]
      exact scanWidth_osc_append payload st _ hseg.1 hseg.2

/-- C26, as stated, fails: `VisibleWidth` counts bytes, not characters. The one character
`é` (UTF-8 bytes 0xc3 0xa9) has visible width 2, also between complete CSI sequences and
after a complete OSC sequence, where the character count is 1; for ASCII text the two
counts agree. -/
theorem VisibleWidth_counts_bytes :
    ("é".length = 1 ∧ bytes "é" = [0xc3, 0xa9] ∧ VisibleWidth "é" = 2) ∧
    VisibleWidth "\x1b[1mé\x1b[0m" = 2 ∧
    VisibleWidth "\x1b]8;;https://example.com\x07é\x1b]8;;\x1b\\" = 2 ∧
    VisibleWidth "\x1b[1mcafe\x1b[0m" = 4 ∧
    ("日本".length = 2 ∧ VisibleWidth "日本" = 6) := by
  decide

/-! ## C30 -/

theorem scanWidth_spaces (k : Nat) : scanWidth .text (List.replicate k 0x20) = k := by
  apply (scanWidth_text_plain _ _).trans
  · simp
  · intro h
    have := List.eq_of_mem_replicate h
    omega

theorem scanWidth_cons_space (c k : Nat) :
    scanWidth .text (c :: List.replicate k 0x20) = 1 + k := by
  cases k with
  | zero => rfl
  | succ k =>
    have hsp := scanWidth_spaces (k + 1)
    rw [List.replicate_succ] at hsp ⊢
    rw [scanWidth]
    split
    · rw [if_neg (by decide), if_neg (by decide), hsp]
    · rw [hsp]

theorem scanWidth_append_spaces (k : Nat) :
    ∀ (mode : ScanMode) (bs : List Nat), scanEnd mode bs = .text →
      scanWidth mode (bs ++ List.replicate k 0x20) = scanWidth mode bs + k := by
  intro mode bs
  induction mode, bs using scanWidth.induct with
  | case1 mode =>
    intro h
    simp only [scanEnd] at h
    subst h
    simp only [List.nil_append, scanWidth, Nat.zero_add]
    exact scanWidth_spaces k
  | case2 c =>
    intro _
    simp only [List.singleton_append, scanWidth]
    rw [scanWidth_cons_space, Nat.add_comm]
  | case3 rest ih =>
    intro h
    simp only [scanEnd, if_true] at h
    simp only [List.cons_append, List.append_eq, scanWidth, if_true]
    exact ih h
  | case4 rest hne ih =>
    intro h
    simp only [scanEnd, if_true, if_neg hne] at h
    simp only [List.cons_append, List.append_eq, scanWidth, if_true, if_neg hne]
    exact ih h
  | case5 next rest h1 h2 ih =>
    intro h
    simp only [scanEnd, if_true, if_neg h1, if_neg h2] at h
    simp only [List.cons_append, List.append_eq, scanWidth, if_true, if_neg h1, if_neg h2]
    have := ih h
    simp only [List.cons_append, List.append_eq] at this
    omega
  | case6 c next rest hc ih =>
    intro h
    simp only [scanEnd, if_neg hc] at h
    simp only [List.cons_append, List.append_eq, scanWidth, if_neg hc]
    have := ih h
    simp only [List.cons_append, List.append_eq] at this
    omega
  | case7 c =>
    intro h
    simp only [scanEnd] at h
    have hc : c = 0x07 := by
      by_contra hne
      rw [if_neg hne] at h
      exact ScanMode.noConfusion h
    subst hc
    cases k with
    | zero => rfl
    | succ k =>
      have hsp := scanWidth_spaces (k + 1)
      rw [List.replicate_succ] at hsp ⊢
      simp only [List.singleton_append, scanWidth, if_true, Nat.zero_add]
      exact hsp
  | case8 next rest ih =>
    intro h
    simp only [scanEnd, if_true] at h
    simp only [List.cons_append, List.append_eq, scanWidth, if_true]
    have := ih h
    simp only [List.cons_append, List.append_eq] at this
    exact this
  | case9 rest hne ih =>
    intro h
    simp only [scanEnd, if_true, if_neg hne] at h
    simp only [List.cons_append, List.append_eq, scanWidth, if_true, if_neg hne]
    exact ih h
  | case10 next rest h1 hne ih =>
    intro h
    simp only [scanEnd, if_true, if_neg h1, if_neg hne] at h
    simp only [List.cons_append, List.append_eq, scanWidth, if_true, if_neg h1, if_neg hne]
    have := ih h
    simp only [List.cons_append, List.append_eq] at this
    exact this
  | case11 c next rest h1 h2 ih =>
    intro h
    simp only [scanEnd, if_neg h1, if_neg h2] at h
    simp only [List.cons_append, List.append_eq, scanWidth, if_neg h1, if_neg h2]
    have := ih h
    simp only [List.cons_append, List.append_eq] at this
    exact this
  | case12 c rest hc ih =>
    intro h
    simp only [scanEnd, if_pos hc] at h
    simp only [List.cons_append, List.append_eq, scanWidth, if_pos hc]
    exact ih h
  | case13 c rest hc ih =>
    intro h
    simp only [scanEnd, if_neg hc] at h
    simp only [List.cons_append, List.append_eq, scanWidth, if_neg hc]
    exact ih h

theorem bytes_append (s t : String) : bytes (s ++ t) = bytes s ++ bytes t := by
  simp [bytes, String.data_append, List.flatMap_append]

theorem bytes_Repeat_space (k : Nat) : bytes (Repeat " " k) = List.replicate k 0x20 := by
  induction k with
  | zero => rfl
  | succ k ih =>
    have hrep : Repeat " " (k + 1) = " " ++ Repeat " " k := by
      apply String.ext
      simp [Repeat, List.replicate_succ, String.data_append]
    rw [hrep, bytes_append, ih, List.replicate_succ]
    rfl

theorem scanEnd_text_plain (bs : List Nat) (hPlain : 0x1b ∉ bs) : scanEnd .text bs = .text := by
  induction bs with
  | nil => rfl
  | cons c rest ih =>
    have hc : ¬ c = 0x1b := fun h => hPlain (h ▸ List.mem_cons_self _ _)
    have hrest : 0x1b ∉ rest := fun h => hPlain (List.mem_cons_of_mem _ h)
    cases rest with
    | nil => rfl
    | cons next rest2 =>
      rw [scanEnd, if_neg hc]
      exact ih hrest

theorem VisibleWidth_pad (s : String) (w : Int) (hEnd : endsInText s) :
    (VisibleWidth (pad s w) : Int) = max (VisibleWidth s : Int) w := by
  unfold pad
  split
  · rename_i h
    rw [max_eq_left h]
  · rename_i h
    have hlt : (VisibleWidth s : Int) < w := by omega
    rw [max_eq_right (le_of_lt hlt)]
    unfold VisibleWidth at hlt ⊢
    rw [bytes_append, bytes_Repeat_space, scanWidth_append_spaces _ _ _ hEnd]
    push_cast
    omega

theorem VisibleWidth_plain (s : String) (hPlain : 0x1b ∉ bytes s) : VisibleWidth s = len s :=
  scanWidth_text_plain _ hPlain

theorem widen_getElem (widths : List Int) :
    ∀ (cols : List String) (i : Nat) (w : Int), widths[i]? = some w →
      (widen widths cols)[i]? =
        some (match cols[i]? with
          | some c => max w (VisibleWidth c : Int)
          | none => w) := by
  induction widths with
  | nil =>
    intro cols i w h
    simp at h
  | cons w0 rest ih =>
    intro cols i w h
    cases cols with
    | nil => simpa [widen] using h
    | cons c cols =>
      cases i with
      | zero =>
        simp only [List.getElem?_cons_zero, Option.some.injEq] at h
        subst h
        simp only [widen, List.getElem?_cons_zero, Option.some.injEq]
        split
        · rename_i hgt
          rw [max_eq_right (le_of_lt hgt)]
        · rename_i hgt
          rw [max_eq_left (by omega)]
      | succ i =>
        simp only [List.getElem?_cons_succ] at h
        simp only [widen, List.getElem?_cons_succ]
        exact ih cols i w h

theorem widen_rows (rows : List (List String)) :
    ∀ (widths : List Int) (i : Nat) (w0 : Int), widths[i]? = some w0 →
      ∃ w : Int, (rows.foldl widen widths)[i]? = some w ∧ w0 ≤ w ∧
        (∀ r ∈ rows, ∀ c, r[i]? = some c → (VisibleWidth c : Int) ≤ w) ∧
        (w = w0 ∨ ∃ r ∈ rows, ∃ c, r[i]? = some c ∧ w = (VisibleWidth c : Int)) := by
  induction rows with
  | nil =>
    intro widths i w0 h
    exact ⟨w0, h, le_refl _, by simp, Or.inl rfl⟩
  | cons r rows ih =>
    intro widths i w0 h
    have hstep := widen_getElem widths r i w0 h
    obtain ⟨w, hw, hle, hall, hmax⟩ := ih (widen widths r) i _ hstep
    refine ⟨w, by simpa using hw, ?_, ?_, ?_⟩
    · cases hr : r[i]? with
      | none => simpa [hr] using hle
      | some c =>
        simp only [hr] at hle
        exact le_trans (le_max_left _ _) hle
    · intro r1 hr1 c hc
      rcases List.mem_cons.mp hr1 with hr1 | hr1
      · subst hr1
        simp only [hc] at hle
        exact le_trans (le_max_right _ _) hle
      · exact hall r1 hr1 c hc
    · rcases hmax with hmax | ⟨r1, hr1, c, hc, hwc⟩
      · cases hr : r[i]? with
        | none =>
          left
          simpa [hr] using hmax
        | some c =>
          simp only [hr] at hmax
          rcases max_cases w0 (VisibleWidth c : Int) with ⟨hm, _⟩ | ⟨hm, _⟩
          · left
            rw [hmax, hm]
          · right
            exact ⟨r, List.mem_cons_self _ _, c, hr, by rw [hmax, hm]⟩
      · right
        exact ⟨r1, List.mem_cons_of_mem _ hr1, c, hc, hwc⟩

theorem rowCells_getElem (widths : List Int) :
    ∀ (cols : List String) (i : Nat) (w : Int) (c : String), widths[i]? = some w →
      cols[i]? = some c → (rowCells widths cols)[i]? = some (pad c w) := by
  induction widths with
  | nil =>
    intro cols i w c h
    simp at h
  | cons w0 rest ih =>
    intro cols i w c h hc
    cases cols with
    | nil => simp at hc
    | cons c0 cols =>
      cases i with
      | zero =>
        simp only [List.getElem?_cons_zero, Option.some.injEq] at h hc
        subst h
        subst hc
        simp [rowCells]
      | succ i =>
        simp only [List.getElem?_cons_succ] at h hc
        simp only [rowCells, List.getElem?_cons_succ]
        exact ih cols i w c h hc

theorem headerCells_getElem (styleBold : String → String) (widths : List Int) :
    ∀ (headers : List String) (i : Nat) (w : Int) (h : String), widths[i]? = some w →
      headers[i]? = some h →
      (headerCells styleBold widths headers)[i]? = some (styleBold (pad h w)) := by
  induction widths with
  | nil =>
    intro headers i w h hw
    simp at hw
  | cons w0 rest ih =>
    intro headers i w h hw hh
    cases headers with
    | nil => simp at hh
    | cons h0 headers =>
      cases i with
      | zero =>
        simp only [List.getElem?_cons_zero, Option.some.injEq] at hw hh
        subst hw
        subst hh
        simp [headerCells]
      | succ i =>
        simp only [List.getElem?_cons_succ] at hw hh
        simp only [headerCells, List.getElem?_cons_succ]
        exact ih headers i w h hw hh

theorem AddRow_rows (rows : List (List String)) :
    ∀ t : TableWriter,
      (rows.foldl TableWriter.AddRow t).headers = t.headers ∧
      (rows.foldl TableWriter.AddRow t).rows = t.rows ++ rows ∧
      (rows.foldl TableWriter.AddRow t).widths = rows.foldl widen t.widths := by
  induction rows with
  | nil =>
    intro t
    simp
  | cons r rows ih =>
    intro t
    obtain ⟨h1, h2, h3⟩ := ih (t.AddRow r)
    simp only [List.foldl_cons]
    refine ⟨h1, ?_, h3⟩
    rw [h2]
    simp [TableWriter.AddRow]

/-- C30, as stated, fails for a string that ends inside an escape sequence: the padding is
swallowed by the open CSI sequence, so the padded string has visible width 0, not 3. -/
theorem pad_open_sequence_counterexample :
    VisibleWidth "\x1b[" = 0 ∧ pad "\x1b[" 3 = "\x1b[   " ∧
    VisibleWidth (pad "\x1b[" 3) = 0 ∧ max (VisibleWidth "\x1b[" : Int) 3 = 3 := by
  decide

/-- C30, amended: for every string `s` that does not end inside an escape sequence and
every width `w`, `VisibleWidth(pad(s, w)) = max(VisibleWidth(s), w)`. After
`NewTableWriter(headers)` and any sequence of `AddRow` calls, every column `i` with a
header `h` has a width `widths[i]`, which is the largest of `len(h)` and the visible widths
of the cells of that column; `Render` writes the header as `StyleBold(pad(h, widths[i]))`
and every cell `c` of the column as `pad(c, widths[i])`, whose visible width is `widths[i]`
when `c` does not end inside an escape sequence (and likewise for a header without ESC,
for which `len(h)` is its visible width). -/
theorem TableWriter_columns_padded (styleBold : String → String) (headers : List String)
    (rows : List (List String)) :
    (∀ (s : String) (w : Int), endsInText s →
      (VisibleWidth (pad s w) : Int) = max (VisibleWidth s : Int) w) ∧
    (rows.foldl TableWriter.AddRow (NewTableWriter headers)).rows = rows ∧
    ∀ (i : Nat) (h : String), headers[i]? = some h →
      ∃ w : Int,
        (rows.foldl TableWriter.AddRow (NewTableWriter headers)).widths[i]? = some w ∧
        (len h : Int) ≤ w ∧
        (∀ r ∈ rows, ∀ c, r[i]? = some c → (VisibleWidth c : Int) ≤ w) ∧
        (w = (len h : Int) ∨ ∃ r ∈ rows, ∃ c, r[i]? = some c ∧ w = (VisibleWidth c : Int)) ∧
        (headerCells styleBold (rows.foldl TableWriter.AddRow (NewTableWriter headers)).widths
          headers)[i]? = some (styleBold (pad h w)) ∧
        (0x1b ∉ bytes h → (VisibleWidth h : Int) = (len h : Int) ∧
          (VisibleWidth (pad h w) : Int) = w) ∧
        ∀ r ∈ rows, ∀ c, r[i]? = some c →
          (rowCells (rows.foldl TableWriter.AddRow (NewTableWriter headers)).widths r)[i]? =
            some (pad c w) ∧
          (endsInText c → (VisibleWidth (pad c w) : Int) = w) := by
  obtain ⟨_, hrows, hwidths⟩ := AddRow_rows rows (NewTableWriter headers)
  refine ⟨VisibleWidth_pad, by simpa [NewTableWriter] using hrows, ?_⟩
  intro i h hh
  have h0 : (NewTableWriter headers).widths[i]? = some (len h : Int) := by
    simp [NewTableWriter, List.getElem?_map, hh]
  obtain ⟨w, hw, hle, hall, hmax⟩ := widen_rows rows _ i _ h0
  rw [hwidths]
  refine ⟨w, hw, hle, hall, hmax, headerCells_getElem styleBold _ headers i w h hw hh, ?_, ?_⟩
  · intro hPlain
    have hv := VisibleWidth_plain h hPlain
    refine ⟨by rw [hv], ?_⟩
    rw [VisibleWidth_pad h w (scanEnd_text_plain _ hPlain), hv]
    exact max_eq_right hle
  · intro r hr c hc
    refine ⟨rowCells_getElem _ r i w c hw hc, ?_⟩
    intro hEnd
    rw [VisibleWidth_pad c w hEnd]
    exact max_eq_right (hall r hr c hc)

/-- A table with the headers `ID` and `NAME` and two rows, one with a bold name: both
columns get the width of their widest cell, and the bold name is padded to visible
width 5. -/
theorem TableWriter_columns_padded_witness :
    (VisibleWidth (pad "\x1b[1mab\x1b[0m" 5) : Int) = max (VisibleWidth "\x1b[1mab\x1b[0m" : Int) 5 ∧
    (∃ w : Int,
      ([["1", "\x1b[1mab\x1b[0m"], ["1234", "hello"]].foldl TableWriter.AddRow
        (NewTableWriter ["ID", "NAME"])).widths[1]? = some w ∧
      (rowCells ([["1", "\x1b[1mab\x1b[0m"], ["1234", "hello"]].foldl TableWriter.AddRow
        (NewTableWriter ["ID", "NAME"])).widths ["1", "\x1b[1mab\x1b[0m"])[1]? =
          some (pad "\x1b[1mab\x1b[0m" w) ∧
      (VisibleWidth (pad "\x1b[1mab\x1b[0m" w) : Int) = w) ∧
    TableWriter.Render id ([["1", "\x1b[1mab\x1b[0m"], ["1234", "hello"]].foldl
      TableWriter.AddRow (NewTableWriter ["ID", "NAME"])) =
      "ID    NAME \n1     \x1b[1mab\x1b[0m   \n1234  hello\n" :=
  have h := TableWriter_columns_padded id ["ID", "NAME"]
    [["1", "\x1b[1mab\x1b[0m"], ["1234", "hello"]]
  ⟨h.1 "\x1b[1mab\x1b[0m" 5 (by unfold endsInText; decide),
    (h.2.2 1 "NAME" rfl).elim (fun w hw =>
      ⟨w, hw.1,
        (hw.2.2.2.2.2.2 ["1", "\x1b[1mab\x1b[0m"] (by simp) "\x1b[1mab\x1b[0m" rfl).1,
        (hw.2.2.2.2.2.2 ["1", "\x1b[1mab\x1b[0m"] (by simp) "\x1b[1mab\x1b[0m" rfl).2
          (by unfold endsInText; decide)⟩),
    by decide⟩

/-! ## C29 -/

theorem mem_byParent (sortSlice : List Collection → List Collection)
    (collections : List Collection) (hSort : SortsByTitle sortSlice) (p : Int) (c : Collection) :
    c ∈ (NewCollectionTree sortSlice collections).byParent p ↔
      c ∈ collections ∧ c.ParentID = p := by
  simp only [NewCollectionTree]
  rw [(hSort _).1.mem_iff]
  simp

theorem byParent_pairwise (sortSlice : List Collection → List Collection)
    (collections : List Collection) (hSort : SortsByTitle sortSlice)
    (hIDs : (collections.map (fun c => c.ID)).Nodup) (p : Int) :
    ((NewCollectionTree sortSlice collections).byParent p).Pairwise
      (fun a b => a.ID ≠ b.ID ∧ ¬ b.Title < a.Title) := by
  simp only [NewCollectionTree]
  have hsub : ((collections.filter (fun c => c.ParentID = p)).map (fun c => c.ID)).Nodup :=
    List.Nodup.sublist (List.Sublist.map _ (List.filter_sublist _)) hIDs
  have hperm := ((hSort (collections.filter (fun c => c.ParentID = p))).1.map (fun c => c.ID))
  have hnd := hperm.nodup_iff.mpr hsub
  have hne : (sortSlice (collections.filter (fun c => c.ParentID = p))).Pairwise
      (fun a b => a.ID ≠ b.ID) := List.pairwise_map.mp hnd
  exact List.Pairwise.and hne (hSort _).2

theorem ID_inj (collections : List Collection)
    (hIDs : (collections.map (fun c => c.ID)).Nodup) (a b : Collection)
    (ha : a ∈ collections) (hb : b ∈ collections) (h : a.ID = b.ID) : a = b :=
  List.inj_on_of_nodup_map hIDs ha hb h

theorem Level_inv (collections : List Collection) (i : Int) (d : Nat)
    (h : Level collections i d) :
    (i = 0 ∧ d = 0) ∨
      ∃ c ∈ collections, ∃ e, c.ID = i ∧ d = e + 1 ∧ Level collections c.ParentID e := by
  cases h with
  | root => exact Or.inl ⟨rfl, rfl⟩
  | step c e hc hl => exact Or.inr ⟨c, hc, e, rfl, rfl, hl⟩

theorem Level_unique (collections : List Collection)
    (hIDs : (collections.map (fun c => c.ID)).Nodup) (hNonZero : ∀ c ∈ collections, c.ID ≠ 0)
    (i : Int) (a : Nat) (ha : Level collections i a) :
    ∀ b, Level collections i b → a = b := by
  induction ha with
  | root =>
    intro b hb
    rcases Level_inv _ _ _ hb with ⟨_, h0⟩ | ⟨c, hc, e, hid, _, _⟩
    · exact h0.symm
    · exact absurd hid (hNonZero c hc)
  | step c d hc _ ih =>
    intro b hb
    rcases Level_inv _ _ _ hb with ⟨h0, _⟩ | ⟨c1, hc1, e, hid, hbe, hl⟩
    · exact absurd h0 (hNonZero c hc)
    · have hcc : c1 = c := ID_inj collections hIDs c1 c hc1 hc hid
      subst hcc
      rw [hbe, ih e hl]

theorem Level_chain (collections : List Collection)
    (hIDs : (collections.map (fun c => c.ID)).Nodup) (hNonZero : ∀ c ∈ collections, c.ID ≠ 0)
    (i : Int) (d : Nat) (h : Level collections i d) :
    ∃ chain : List Collection, chain.length = d ∧ chain.Nodup ∧
      ∀ y ∈ chain, y ∈ collections ∧ ∃ e, e ≤ d ∧ Level collections y.ID e := by
  induction h with
  | root => exact ⟨[], rfl, List.nodup_nil, by simp⟩
  | step c d hc hl ih =>
    obtain ⟨chain, hlen, hnd, hall⟩ := ih
    have hcl : Level collections c.ID (d + 1) := Level.step c d hc hl
    refine ⟨c :: chain, by simp [hlen], ?_, ?_⟩
    · refine List.nodup_cons.mpr ⟨?_, hnd⟩
      intro hmem
      obtain ⟨_, e, he, hle⟩ := hall c hmem
      have := Level_unique collections hIDs hNonZero _ _ hcl e hle
      omega
    · intro y hy
      rcases List.mem_cons.mp hy with hy | hy
      · subst hy
        exact ⟨hc, d + 1, le_refl _, hcl⟩
      · obtain ⟨hyc, e, he, hle⟩ := hall y hy
        exact ⟨hyc, e, by omega, hle⟩

theorem Level_le (collections : List Collection)
    (hIDs : (collections.map (fun c => c.ID)).Nodup) (hNonZero : ∀ c ∈ collections, c.ID ≠ 0)
    (i : Int) (d : Nat) (h : Level collections i d) : d ≤ collections.length := by
  obtain ⟨chain, hlen, hnd, hall⟩ := Level_chain collections hIDs hNonZero i d h
  have hsub : chain ⊆ collections := fun y hy => (hall y hy).1
  rw [← hlen]
  exact (List.Nodup.subperm hnd hsub).length_le

theorem Above_inv (collections : List Collection) (a r : Int) (h : Above collections a r) :
    r = a ∨ ∃ c ∈ collections, c.ID = r ∧ Above collections a c.ParentID := by
  cases h with
  | refl => exact Or.inl rfl
  | step c hc ha => exact Or.inr ⟨c, hc, rfl, ha⟩

theorem Above_level (collections : List Collection) (a r : Int) (d : Nat)
    (h : Above collections a r) (ha : Level collections a d) :
    ∃ k, Level collections r (d + k) := by
  induction h with
  | refl => exact ⟨0, ha⟩
  | step c hc _ ih =>
    obtain ⟨k, hk⟩ := ih
    exact ⟨k + 1, Level.step c (d + k) hc hk⟩

theorem Above_trans (collections : List Collection) (a b r : Int)
    (hab : Above collections a b) (hbr : Above collections b r) : Above collections a r := by
  induction hbr with
  | refl => exact hab
  | step c hc _ ih => exact Above.step c hc ih

theorem Above_unique (collections : List Collection)
    (hIDs : (collections.map (fun c => c.ID)).Nodup) (hNonZero : ∀ c ∈ collections, c.ID ≠ 0)
    (a b r : Int) (d : Nat) (har : Above collections a r) (hbr : Above collections b r)
    (ha : Level collections a d) (hb : Level collections b d) : a = b := by
  induction har with
  | refl =>
    rcases Above_inv _ _ _ hbr with h | ⟨c, hc, hid, hab⟩
    · exact h
    · obtain ⟨k, hk⟩ := Above_level _ _ _ _ hab hb
      have hl : Level collections c.ID (d + k + 1) := Level.step c _ hc hk
      rw [hid] at hl
      have := Level_unique collections hIDs hNonZero _ _ ha _ hl
      omega
  | step c hc hac ih =>
    rcases Above_inv _ _ _ hbr with h | ⟨c1, hc1, hid, hab⟩
    · obtain ⟨k, hk⟩ := Above_level _ _ _ _ hac ha
      have hl : Level collections c.ID (d + k + 1) := Level.step c _ hc hk
      rw [h] at hl
      have := Level_unique collections hIDs hNonZero _ _ hb _ hl
      omega
    · have hcc : c1 = c := ID_inj collections hIDs c1 c hc1 hc hid
      subst hcc
      exact ih hab

theorem mem_treeOrder_step (t : CollectionTree) (fuel : Nat) (p : Int) (x : Collection) :
    x ∈ t.treeOrder (fuel + 1) p ↔
      ∃ c ∈ t.byParent p, x = c ∨ x ∈ t.treeOrder fuel c.ID := by
  simp only [CollectionTree.treeOrder, List.mem_flatMap, List.mem_cons]

theorem treeOrder_above (sortSlice : List Collection → List Collection)
    (collections : List Collection) (hSort : SortsByTitle sortSlice) :
    ∀ (fuel : Nat) (p : Int) (x : Collection),
      x ∈ (NewCollectionTree sortSlice collections).treeOrder fuel p →
        x ∈ collections ∧ Above collections p x.ParentID := by
  intro fuel
  induction fuel with
  | zero =>
    intro p x hx
    simp [CollectionTree.treeOrder] at hx
  | succ fuel ih =>
    intro p x hx
    obtain ⟨c, hc, hxc⟩ := (mem_treeOrder_step _ fuel p x).mp hx
    obtain ⟨hcm, hcp⟩ := (mem_byParent sortSlice collections hSort p c).mp hc
    rcases hxc with hxc | hxc
    · subst hxc
      rw [hcp]
      exact ⟨hcm, Above.refl⟩
    · obtain ⟨hxm, hab⟩ := ih c.ID x hxc
      refine ⟨hxm, Above_trans collections p c.ID _ ?_ hab⟩
      have h1 : Above collections p c.ParentID := by
        rw [hcp]
        exact Above.refl
      exact Above.step c hcm h1

theorem ReachesRoot_of_above (collections : List Collection) (r : Int)
    (h : Above collections 0 r) :
    ∀ x ∈ collections, x.ParentID = r → ReachesRoot collections x := by
  induction h with
  | refl =>
    intro x hx hp
    exact ReachesRoot.top x hx hp
  | step c hc _ ih =>
    intro x hx hp
    exact ReachesRoot.child c x (ih c hc rfl) hx hp

theorem treeOrder_child (sortSlice : List Collection → List Collection)
    (collections : List Collection) (hSort : SortsByTitle sortSlice) (x q : Collection)
    (hx : x ∈ collections) (hp : x.ParentID = q.ID) :
    ∀ (fuel : Nat) (p : Int), q ∈ (NewCollectionTree sortSlice collections).treeOrder fuel p →
      x ∈ (NewCollectionTree sortSlice collections).treeOrder (fuel + 1) p := by
  intro fuel
  induction fuel with
  | zero =>
    intro p hq
    simp [CollectionTree.treeOrder] at hq
  | succ fuel ih =>
    intro p hq
    obtain ⟨c, hc, hqc⟩ := (mem_treeOrder_step _ fuel p q).mp hq
    refine (mem_treeOrder_step _ (fuel + 1) p x).mpr ⟨c, hc, Or.inr ?_⟩
    rcases hqc with hqc | hqc
    · subst hqc
      refine (mem_treeOrder_step _ fuel q.ID x).mpr ⟨x, ?_, Or.inl rfl⟩
      exact (mem_byParent sortSlice collections hSort q.ID x).mpr ⟨hx, hp⟩
    · exact ih c.ID hqc

theorem treeOrder_mono (t : CollectionTree) (x : Collection) :
    ∀ (fuel : Nat) (p : Int), x ∈ t.treeOrder fuel p → x ∈ t.treeOrder (fuel + 1) p := by
  intro fuel
  induction fuel with
  | zero =>
    intro p hx
    simp [CollectionTree.treeOrder] at hx
  | succ fuel ih =>
    intro p hx
    obtain ⟨c, hc, hxc⟩ := (mem_treeOrder_step _ fuel p x).mp hx
    refine (mem_treeOrder_step _ (fuel + 1) p x).mpr ⟨c, hc, ?_⟩
    rcases hxc with hxc | hxc
    · exact Or.inl hxc
    · exact Or.inr (ih c.ID hxc)

theorem treeOrder_mono_le (t : CollectionTree) (x : Collection) (p : Int) (fuel : Nat)
    (hx : x ∈ t.treeOrder fuel p) : ∀ more, x ∈ t.treeOrder (fuel + more) p := by
  intro more
  induction more with
  | zero => exact hx
  | succ more ih => exact treeOrder_mono t x (fuel + more) p ih

theorem treeOrder_reaches (sortSlice : List Collection → List Collection)
    (collections : List Collection) (hSort : SortsByTitle sortSlice) (x : Collection)
    (h : ReachesRoot collections x) :
    ∃ d, Level collections x.ID (d + 1) ∧
      x ∈ (NewCollectionTree sortSlice collections).treeOrder (d + 1) 0 := by
  induction h with
  | top c hc hp =>
    refine ⟨0, ?_, ?_⟩
    · have h0 : Level collections c.ParentID 0 := by
        rw [hp]
        exact Level.root
      exact Level.step c 0 hc h0
    · refine (mem_treeOrder_step _ 0 0 c).mpr ⟨c, ?_, Or.inl rfl⟩
      exact (mem_byParent sortSlice collections hSort 0 c).mpr ⟨hc, hp⟩
  | child q c _ hc hp ih =>
    obtain ⟨d, hl, hq⟩ := ih
    refine ⟨d + 1, ?_, ?_⟩
    · have h0 : Level collections c.ParentID (d + 1) := by
        rw [hp]
        exact hl
      exact Level.step c (d + 1) hc h0
    · exact treeOrder_child sortSlice collections hSort c q hc hp (d + 1) 0 hq

theorem treeOrder_pairwise (sortSlice : List Collection → List Collection)
    (collections : List Collection) (hSort : SortsByTitle sortSlice)
    (hIDs : (collections.map (fun c => c.ID)).Nodup) (hNonZero : ∀ c ∈ collections, c.ID ≠ 0) :
    ∀ (fuel : Nat) (p : Int) (d : Nat), Level collections p d →
      ((NewCollectionTree sortSlice collections).treeOrder fuel p).Pairwise
        (fun a b => a.ID ≠ b.ID ∧ (a.ParentID = b.ParentID → ¬ b.Title < a.Title)) := by
  intro fuel
  induction fuel with
  | zero =>
    intro p d _
    simp [CollectionTree.treeOrder]
  | succ fuel ih =>
    intro p d hp
    have hchild : ∀ c ∈ (NewCollectionTree sortSlice collections).byParent p,
        c ∈ collections ∧ c.ParentID = p ∧ Level collections c.ID (d + 1) := by
      intro c hc
      obtain ⟨hcm, hcp⟩ := (mem_byParent sortSlice collections hSort p c).mp hc
      have h0 : Level collections c.ParentID d := by
        rw [hcp]
        exact hp
      exact ⟨hcm, hcp, Level.step c d hcm h0⟩
    -- a collection printed below the child `c` is deeper than `c`
    have hdeep : ∀ c ∈ (NewCollectionTree sortSlice collections).byParent p,
        ∀ x ∈ (NewCollectionTree sortSlice collections).treeOrder fuel c.ID,
          x ∈ collections ∧ Above collections c.ID x.ParentID ∧
            ∃ k, Level collections x.ParentID (d + 1 + k) := by
      intro c hc x hx
      obtain ⟨hxm, hab⟩ := treeOrder_above sortSlice collections hSort fuel c.ID x hx
      exact ⟨hxm, hab, Above_level collections _ _ _ hab (hchild c hc).2.2⟩
    simp only [CollectionTree.treeOrder]
    rw [List.pairwise_flatMap]
    refine ⟨?_, ?_⟩
    · intro c hc
      obtain ⟨hcm, hcp, hcl⟩ := hchild c hc
      refine List.pairwise_cons.mpr ⟨?_, ih c.ID (d + 1) hcl⟩
      intro x hx
      obtain ⟨hxm, _, k, hk⟩ := hdeep c hc x hx
      refine ⟨?_, ?_⟩
      · intro hid
        have hxl : Level collections x.ID (d + 1 + k + 1) := Level.step x _ hxm hk
        rw [← hid] at hxl
        have := Level_unique collections hIDs hNonZero _ _ hcl _ hxl
        omega
      · intro hpar
        rw [← hpar, hcp] at hk
        have := Level_unique collections hIDs hNonZero _ _ hp _ hk
        omega
    · refine List.Pairwise.imp_of_mem ?_ (byParent_pairwise sortSlice collections hSort hIDs p)
      intro c1 c2 hc1 hc2 hord x hx y hy
      obtain ⟨hc1m, hc1p, hc1l⟩ := hchild c1 hc1
      obtain ⟨hc2m, hc2p, hc2l⟩ := hchild c2 hc2
      have hxa : x ∈ collections ∧ Above collections c1.ID x.ID := by
        rcases List.mem_cons.mp hx with hx | hx
        · subst hx
          exact ⟨hc1m, Above.refl⟩
        · obtain ⟨hxm, hab, _⟩ := hdeep c1 hc1 x hx
          exact ⟨hxm, Above.step x hxm hab⟩
      have hya : y ∈ collections ∧ Above collections c2.ID y.ID := by
        rcases List.mem_cons.mp hy with hy | hy
        · subst hy
          exact ⟨hc2m, Above.refl⟩
        · obtain ⟨hym, hab, _⟩ := hdeep c2 hc2 y hy
          exact ⟨hym, Above.step y hym hab⟩
      refine ⟨?_, ?_⟩
      · intro hid
        have hya2 := hya.2
        rw [← hid] at hya2
        exact hord.1 (Above_unique collections hIDs hNonZero _ _ _ _ hxa.2 hya2 hc1l hc2l)
      · intro hpar
        rcases List.mem_cons.mp hx with hx | hx
        · rcases List.mem_cons.mp hy with hy | hy
          · subst hx
            subst hy
            exact hord.2
          · obtain ⟨_, _, k, hk⟩ := hdeep c2 hc2 y hy
            subst hx
            rw [← hpar, hc1p] at hk
            have := Level_unique collections hIDs hNonZero _ _ hp _ hk
            omega
        · obtain ⟨_, habx, k, hk⟩ := hdeep c1 hc1 x hx
          rcases List.mem_cons.mp hy with hy | hy
          · subst hy
            rw [hpar, hc2p] at hk
            have := Level_unique collections hIDs hNonZero _ _ hp _ hk
            omega
          · obtain ⟨_, haby, _, _⟩ := hdeep c2 hc2 y hy
            rw [← hpar] at haby
            exact absurd
              (Above_unique collections hIDs hNonZero _ _ _ _ habx haby hc1l hc2l) hord.1

theorem parentsFirst_mono (l : List Collection) :
    ∀ seen seen2 : List Int, seen ⊆ seen2 → parentsFirst seen l → parentsFirst seen2 l := by
  induction l with
  | nil =>
    intro seen seen2 _ _
    trivial
  | cons c rest ih =>
    intro seen seen2 hsub h
    exact ⟨hsub h.1, ih (c.ID :: seen) (c.ID :: seen2) (List.cons_subset_cons _ hsub) h.2⟩

theorem parentsFirst_append (a b : List Collection) :
    ∀ seen : List Int, parentsFirst seen a →
      (∀ seen2, seen ⊆ seen2 → parentsFirst seen2 b) → parentsFirst seen (a ++ b) := by
  induction a with
  | nil =>
    intro seen _ hb
    exact hb seen (List.Subset.refl _)
  | cons c rest ih =>
    intro seen ha hb
    refine ⟨ha.1, ih (c.ID :: seen) ha.2 ?_⟩
    intro seen2 hsub
    exact hb seen2 (fun i hi => hsub (List.mem_cons_of_mem _ hi))

theorem parentsFirst_split (before : List Collection) (c : Collection)
    (after : List Collection) :
    ∀ seen : List Int, parentsFirst seen (before ++ c :: after) →
      c.ParentID ∈ seen ∨ ∃ q ∈ before, q.ID = c.ParentID := by
  induction before with
  | nil =>
    intro seen h
    exact Or.inl h.1
  | cons b rest ih =>
    intro seen h
    rcases ih (b.ID :: seen) h.2 with hmem | ⟨q, hq, hid⟩
    · rcases List.mem_cons.mp hmem with hmem | hmem
      · exact Or.inr ⟨b, List.mem_cons_self _ _, hmem.symm⟩
      · exact Or.inl hmem
    · exact Or.inr ⟨q, List.mem_cons_of_mem _ hq, hid⟩

theorem treeOrder_parentsFirst (sortSlice : List Collection → List Collection)
    (collections : List Collection) (hSort : SortsByTitle sortSlice) :
    ∀ (fuel : Nat) (p : Int) (seen : List Int), p ∈ seen →
      parentsFirst seen ((NewCollectionTree sortSlice collections).treeOrder fuel p) := by
  intro fuel
  induction fuel with
  | zero =>
    intro p seen _
    trivial
  | succ fuel ih =>
    intro p seen hp
    have hblocks : ∀ (l : List Collection), (∀ c ∈ l, c.ParentID = p) →
        ∀ seen : List Int, p ∈ seen →
          parentsFirst seen (l.flatMap (fun c =>
            c :: (NewCollectionTree sortSlice collections).treeOrder fuel c.ID)) := by
      intro l
      induction l with
      | nil =>
        intro _ seen _
        trivial
      | cons c rest ihl =>
        intro hl seen hp
        have hcp : c.ParentID = p := hl c (List.mem_cons_self _ _)
        simp only [List.flatMap_cons, List.cons_append]
        refine ⟨hcp ▸ hp, parentsFirst_append _ _ _ (ih c.ID _ (List.mem_cons_self _ _)) ?_⟩
        intro seen2 hsub
        exact ihl (fun x hx => hl x (List.mem_cons_of_mem _ hx)) seen2
          (hsub (List.mem_cons_of_mem _ hp))
    exact hblocks _
      (fun c hc => ((mem_byParent sortSlice collections hSort p c).mp hc).2) seen hp

theorem renderRows_some (render : Int → String → Option (List TreeLine)) :
    ∀ (l : List Collection) (indent : String),
      (∀ c ∈ l, ∀ ind, ∃ sub, render c.ID ind = some sub) →
        ∃ rows, renderRows render indent l = some rows := by
  intro l
  induction l with
  | nil =>
    intro indent _
    exact ⟨[], rfl⟩
  | cons c rest ih =>
    intro indent h
    obtain ⟨sub, hsub⟩ := h c (List.mem_cons_self _ _)
      (indent ++ (if rest.isEmpty then "    " else "│   "))
    obtain ⟨more, hmore⟩ := ih indent (fun x hx => h x (List.mem_cons_of_mem _ hx))
    exact ⟨_, by rw [renderRows, hsub, hmore]⟩

theorem renderRows_collections (render : Int → String → Option (List TreeLine))
    (g : Collection → List Collection)
    (hg : ∀ c ind sub, render c.ID ind = some sub → sub.map (fun r => r.collection) = g c) :
    ∀ (l : List Collection) (indent : String) (rows : List TreeLine),
      renderRows render indent l = some rows →
        rows.map (fun r => r.collection) = l.flatMap (fun c => c :: g c) := by
  intro l
  induction l with
  | nil =>
    intro indent rows h
    simp only [renderRows, Option.some.injEq] at h
    subst h
    rfl
  | cons c rest ih =>
    intro indent rows h
    rw [renderRows] at h
    cases hsub : render c.ID (indent ++ (if rest.isEmpty then "    " else "│   ")) with
    | none =>
      rw [hsub] at h
      cases h
    | some sub =>
      rw [hsub] at h
      cases hmore : renderRows render indent rest with
      | none =>
        rw [hmore] at h
        cases h
      | some more =>
        rw [hmore] at h
        cases h
        simp only [List.map_cons, List.map_append, List.flatMap_cons, List.cons_append]
        rw [hg c _ sub hsub, ih indent more hmore]

theorem renderChildren_collections (t : CollectionTree) :
    ∀ (fuel : Nat) (p : Int) (indent : String) (rows : List TreeLine),
      t.renderChildren fuel p indent = some rows →
        rows.map (fun r => r.collection) = t.treeOrder fuel p := by
  intro fuel
  induction fuel with
  | zero =>
    intro p indent rows h
    simp [CollectionTree.renderChildren] at h
  | succ fuel ih =>
    intro p indent rows h
    simp only [CollectionTree.renderChildren] at h
    simp only [CollectionTree.treeOrder]
    exact renderRows_collections _ (fun c => t.treeOrder fuel c.ID)
      (fun c ind sub hsub => ih c.ID ind sub hsub) _ indent rows h

theorem renderChildren_some (sortSlice : List Collection → List Collection)
    (collections : List Collection) (hSort : SortsByTitle sortSlice)
    (hIDs : (collections.map (fun c => c.ID)).Nodup) (hNonZero : ∀ c ∈ collections, c.ID ≠ 0) :
    ∀ (fuel : Nat) (p : Int) (d : Nat) (indent : String), Level collections p d →
      collections.length < fuel + d →
        ∃ rows, (NewCollectionTree sortSlice collections).renderChildren fuel p indent =
          some rows := by
  intro fuel
  induction fuel with
  | zero =>
    intro p d indent hp hfuel
    have := Level_le collections hIDs hNonZero p d hp
    omega
  | succ fuel ih =>
    intro p d indent hp hfuel
    simp only [CollectionTree.renderChildren]
    apply renderRows_some
    intro c hc ind
    obtain ⟨hcm, hcp⟩ := (mem_byParent sortSlice collections hSort p c).mp hc
    have h0 : Level collections c.ParentID d := by
      rw [hcp]
      exact hp
    exact ih c.ID (d + 1) ind (Level.step c d hcm h0) (by omega)

theorem renderRows_text (render : Int → String → Option (List TreeLine))
    (hr : ∀ (c : Collection) ind sub, render c.ID ind = some sub → ∀ r ∈ sub,
      ∃ lead, r.text = lead ++ r.collection.Title ++ " (" ++ formatInt r.collection.Count ++ ")\n") :
    ∀ (l : List Collection) (indent : String) (rows : List TreeLine),
      renderRows render indent l = some rows → ∀ r ∈ rows,
        ∃ lead, r.text = lead ++ r.collection.Title ++ " (" ++ formatInt r.collection.Count ++
          ")\n" := by
  intro l
  induction l with
  | nil =>
    intro indent rows h r hmem
    rw [renderRows] at h
    cases h
    simp at hmem
  | cons c rest ih =>
    intro indent rows h
    rw [renderRows] at h
    cases hsub : render c.ID (indent ++ (if rest.isEmpty then "    " else "│   ")) with
    | none =>
      rw [hsub] at h
      cases h
    | some sub =>
      rw [hsub] at h
      cases hmore : renderRows render indent rest with
      | none =>
        rw [hmore] at h
        cases h
      | some more =>
        rw [hmore] at h
        cases h
        intro r hmem
        rcases List.mem_cons.mp hmem with hmem | hmem
        · subst hmem
          exact ⟨_, rfl⟩
        · rcases List.mem_append.mp hmem with hmem | hmem
          · exact hr c _ sub hsub r hmem
          · exact ih indent more hmore r hmem

theorem renderChildren_text (t : CollectionTree) :
    ∀ (fuel : Nat) (p : Int) (indent : String) (rows : List TreeLine),
      t.renderChildren fuel p indent = some rows → ∀ r ∈ rows,
        ∃ lead, r.text = lead ++ r.collection.Title ++ " (" ++ formatInt r.collection.Count ++
          ")\n" := by
  intro fuel
  induction fuel with
  | zero =>
    intro p indent rows h
    simp [CollectionTree.renderChildren] at h
  | succ fuel ih =>
    intro p indent rows h
    simp only [CollectionTree.renderChildren] at h
    exact renderRows_text _ (fun c ind sub hsub => ih c.ID ind sub hsub) _ indent rows h


theorem sortByTitle_sorts : SortsByTitle sortByTitle := by
  intro l
  have hiff : ∀ a b : Collection, ¬ b.Title.data < a.Title.data ↔ ¬ b.Title < a.Title :=
    fun a b => not_congr String.lt_iff_toList_lt.symm
  haveI : IsTotal Collection (fun a b => ¬ b.Title.data < a.Title.data) :=
    ⟨fun a b => by
      rw [hiff a b, hiff b a]
      by_cases h : b.Title < a.Title
      · exact Or.inr (lt_asymm h)
      · exact Or.inl h⟩
  haveI : IsTrans Collection (fun a b => ¬ b.Title.data < a.Title.data) :=
    ⟨fun a b c hab hbc => by
      rw [hiff] at hab hbc ⊢
      have h1 : a.Title ≤ b.Title := not_lt.mp hab
      have h2 : b.Title ≤ c.Title := not_lt.mp hbc
      exact not_lt.mpr (le_trans h1 h2)⟩
  refine ⟨List.perm_insertionSort _ l, ?_⟩
  exact (List.sorted_insertionSort (fun a b : Collection => ¬ b.Title.data < a.Title.data)
    l).imp (fun {a b} h => (hiff a b).mp h)

/-- C29: for collections with pairwise distinct, non-zero IDs, and a `sort.Slice` that
sorts by title, `Render` returns (any bound on the depth above the number of collections
is enough), and the lines of the tree are one line for each collection whose chain of
parents ends at the root, and for no other: every such collection has exactly one line,
the line of a child comes after the line of its parent, and of two collections with the
same parent the one printed first does not have the larger title. -/
theorem CollectionTree_Render_tree (styleFaint : String → String)
    (sortSlice : List Collection → List Collection) (collections : List Collection)
    (fuel : Nat) (hSort : SortsByTitle sortSlice)
    (hIDs : (collections.map (fun c => c.ID)).Nodup) (hNonZero : ∀ c ∈ collections, c.ID ≠ 0)
    (hFuel : collections.length < fuel) :
    ∃ rows : List TreeLine,
      (NewCollectionTree sortSlice collections).renderChildren fuel 0 "" = some rows ∧
      (NewCollectionTree sortSlice collections).Render styleFaint fuel =
        some (if collections.length = 0 then
          systemLines styleFaint ++ [styleFaint "No custom collections" ++ "\n"]
        else
          systemLines styleFaint ++ [styleFaint "Collections:" ++ "\n"] ++
            rows.map (fun r => r.text)) ∧
      (∀ r ∈ rows, ∃ lead, r.text =
        lead ++ r.collection.Title ++ " (" ++ formatInt r.collection.Count ++ ")\n") ∧
      (∀ c, c ∈ rows.map (fun r => r.collection) ↔ ReachesRoot collections c) ∧
      (rows.map (fun r => r.collection.ID)).Nodup ∧
      (∀ before c after, rows.map (fun r => r.collection) = before ++ c :: after →
        c.ParentID = 0 ∨ ∃ q ∈ before, q.ID = c.ParentID) ∧
      (rows.map (fun r => r.collection)).Pairwise
        (fun a b => a.ParentID = b.ParentID → ¬ b.Title < a.Title) := by
  obtain ⟨rows, hrows⟩ := renderChildren_some sortSlice collections hSort hIDs hNonZero
    fuel 0 0 "" Level.root (by omega)
  have hmap := renderChildren_collections _ fuel 0 "" rows hrows
  have hpair := treeOrder_pairwise sortSlice collections hSort hIDs hNonZero fuel 0 0
    Level.root
  rw [← hmap] at hpair
  refine ⟨rows, hrows, ?_, renderChildren_text _ fuel 0 "" rows hrows, ?_, ?_, ?_, ?_⟩
  · unfold CollectionTree.Render
    simp only [NewCollectionTree, hrows]
    have hrows2 : CollectionTree.renderChildren
        ⟨collections, fun parentID =>
          sortSlice (collections.filter (fun c => c.ParentID = parentID))⟩ fuel 0 "" =
        some rows := hrows
    split
    · rfl
    · rw [hrows2]
  · intro c
    rw [hmap]
    constructor
    · intro hc
      obtain ⟨hcm, hab⟩ := treeOrder_above sortSlice collections hSort fuel 0 c hc
      exact ReachesRoot_of_above collections _ hab c hcm rfl
    · intro hc
      obtain ⟨d, hl, hmem⟩ := treeOrder_reaches sortSlice collections hSort c hc
      have hle := Level_le collections hIDs hNonZero _ _ hl
      have hfuel : fuel = (d + 1) + (fuel - (d + 1)) := by omega
      rw [hfuel]
      exact treeOrder_mono_le _ c 0 (d + 1) hmem _
  · have hne : (rows.map (fun r => r.collection)).Pairwise (fun a b => a.ID ≠ b.ID) :=
      hpair.imp (fun h => h.1)
    have hmm : rows.map (fun r => r.collection.ID) =
        (rows.map (fun r => r.collection)).map (fun c => c.ID) := by
      rw [List.map_map]
      rfl
    rw [hmm]
    exact List.pairwise_map.mpr hne
  · intro before c after hsplit
    have hpf := treeOrder_parentsFirst sortSlice collections hSort fuel 0 [0]
      (List.mem_singleton.mpr rfl)
    rw [← hmap, hsplit] at hpf
    rcases parentsFirst_split before c after [0] hpf with h | h
    · exact Or.inl (List.mem_singleton.mp h)
    · exact Or.inr h
  · exact hpair.imp (fun h => h.2)

/-- The tree of `demoTree`: `Home` with `Garden` and `Recipes` under it, then `Work`; the
collections `Old` and `Loop`, whose chains of parents do not reach the root, have no
line. -/
theorem CollectionTree_Render_tree_witness :
    ∃ rows : List TreeLine,
      (NewCollectionTree sortByTitle demoTree).renderChildren 7 0 "" = some rows ∧
      rows.map (fun r => r.text) =
        ["├── Home (5)\n", "│   ├── Garden (4)\n", "│   └── Recipes (2)\n",
          "└── Work (3)\n"] ∧
      (∀ c, c ∈ rows.map (fun r => r.collection) ↔ ReachesRoot demoTree c) ∧
      (rows.map (fun r => r.collection.ID)).Nodup :=
  (CollectionTree_Render_tree id sortByTitle demoTree 7 sortByTitle_sorts (by decide)
    (by decide) (by decide)).elim (fun rows h =>
      ⟨rows, h.1, by
        have h2 : (NewCollectionTree sortByTitle demoTree).renderChildren 7 0 "" =
            some [⟨⟨12, "Home", 5, none⟩, "├── Home (5)\n"⟩,
              ⟨⟨23, "Garden", 4, some 12⟩, "│   ├── Garden (4)\n"⟩,
              ⟨⟨22, "Recipes", 2, some 12⟩, "│   └── Recipes (2)\n"⟩,
              ⟨⟨11, "Work", 3, none⟩, "└── Work (3)\n"⟩] := by decide
        have h3 := Option.some.inj (h.1.symm.trans h2)
        rw [h3]
        rfl, h.2.2.2.1, h.2.2.2.2.1⟩)

/-! ## C18 -/

theorem authorizeWithServer_idle (E : Env X) (w : World X) (redirectURL : String)
    (creds : OAuthCredentials) (state : String) (requests : List URL) (parsed : URL)
    (ctxErr : Option GoError)
    (hParse : E.urlParse redirectURL = .ok parsed)
    (hListen : (w.listen E (callbackAddr parsed)).1 = none)
    (hNone : ∀ r ∈ requests, r.Path ≠ "/callback") :
    authorizeWithServer E w redirectURL creds state none requests ctxErr Wakeup.code = none ∧
    authorizeWithServer E w redirectURL creds state none requests ctxErr Wakeup.err = none ∧
    authorizeWithServer E w redirectURL creds state none requests ctxErr Wakeup.done =
      ctxErr.map (fun err =>
        (.error (.wrapf "authorization canceled: " err ""),
          (((serverPrompt (w.listen E (callbackAddr parsed)).2
            (E.authCodeURL redirectURL creds.ClientID state)).openBrowser E
            (E.authCodeURL redirectURL creds.ClientID state)).note Event.serverClose).note
            Event.listenerClose)) := by
  have hCh := servedChannels_no_callback state requests hNone
  refine ⟨?_, ?_, ?_⟩
  · unfold authorizeWithServer
    simp only [hParse, hListen, hCh]
  · unfold authorizeWithServer
    simp only [hParse, hListen, hCh]
  · unfold authorizeWithServer
    simp only [hParse, hListen]
    cases ctxErr <;> rfl

/-- C18, as stated, fails. With no timeout supplied (`Timeout` 0) and nothing arriving,
the server flow is already cancelled with the deadline error two minutes after it began,
not after three. And in the manual flow the deadline does not bound the wait: with a
timeout of one second and a user who pastes the URL after ten minutes, `Authorize` did not
return at the deadline; it reads the line and fails only in the token exchange, whose
request the expired context cancels. -/
theorem Authorize_deadline_counterexample :
    (Authorize simEnv (worldAt 1000 [] []) demoCreds ⟨false, 0, 8484⟩ (.ok "RIGHT") none []
        (2 * Minute) Wakeup.done).map (fun r => r.1) =
      some (.error (.wrapf "authorization canceled: " DeadlineExceeded "")) ∧
    (2 * Minute : Int) < 3 * Minute ∧
    (Authorize simEnv
        (pastedWorld "http://localhost:8484/callback?code=abc&state=RIGHT"
          [.error DeadlineExceeded])
        demoCreds ⟨true, Second, 8484⟩ (.ok "RIGHT") none [] (10 * Minute) Wakeup.done).map
        (fun r => (r.1, r.2.log.contains Event.scanln, r.2.exchanges)) =
      some (.error (.wrapf "exchange code: " (.wrapf "token request: " DeadlineExceeded "") ""),
        true, 1) := by
  refine ⟨rfl, by decide, rfl⟩

/-- C18, amended: `Authorize` makes the context of the flow with the caller's `Timeout`
when it is positive and with two minutes when it is not (the login command passes three
minutes). In the server flow, while nothing has arrived, no case of the `select` is ready
before that time has passed, and from then on the `ctx.Done()` case is: the flow returns
`authorization canceled: ...` wrapping `context.DeadlineExceeded`. In the manual flow
`Authorize` is `authorizeManual`, whatever the timeout and the time that passes: the read
of the pasted line is not bounded by the deadline. -/
theorem Authorize_deadline (E : Env X) (w : World X) (creds : OAuthCredentials)
    (opts : AuthorizeOptions) (state : String) (requests : List URL) (parsed : URL)
    (elapsed : Int) :
    ((0 < opts.Timeout → authorizeTimeout opts = opts.Timeout) ∧
      (opts.Timeout ≤ 0 → authorizeTimeout opts = 120 * Second) ∧
      (∀ (manual : Bool) (port : Int),
        authorizeTimeout (loginOptions manual port) = 180 * Second)) ∧
    (opts.Manual = false →
      E.urlParse (ResolveRedirectURI creds opts.Port) = .ok parsed →
      (w.listen E (callbackAddr parsed)).1 = none →
      (∀ r ∈ requests, r.Path ≠ "/callback") →
      (elapsed < authorizeTimeout opts → ∀ pick : Wakeup,
        Authorize E w creds opts (.ok state) none requests elapsed pick = none) ∧
      (authorizeTimeout opts ≤ elapsed →
        Authorize E w creds opts (.ok state) none requests elapsed Wakeup.code = none ∧
        Authorize E w creds opts (.ok state) none requests elapsed Wakeup.err = none ∧
        Authorize E w creds opts (.ok state) none requests elapsed Wakeup.done =
          some (.error (.wrapf "authorization canceled: " DeadlineExceeded ""),
            (((serverPrompt (w.listen E (callbackAddr parsed)).2
              (E.authCodeURL (ResolveRedirectURI creds opts.Port) creds.ClientID state)).openBrowser
              E (E.authCodeURL (ResolveRedirectURI creds opts.Port) creds.ClientID state)).note
              Event.serverClose).note Event.listenerClose))) ∧
    (opts.Manual = true → ∀ (serveErr : Option GoError) (pick : Wakeup),
      Authorize E w creds opts (.ok state) serveErr requests elapsed pick =
        some (authorizeManual E w (ResolveRedirectURI creds opts.Port) creds state)) := by
  refine ⟨authorizeTimeout_cases opts, ?_, ?_⟩
  · intro hManual hParse hListen hNone
    have hIdle := fun ctxErr => authorizeWithServer_idle E w (ResolveRedirectURI creds opts.Port)
      creds state requests parsed ctxErr hParse hListen hNone
    refine ⟨?_, ?_⟩
    · intro hlt pick
      have hErr : timeoutErr (authorizeTimeout opts) elapsed = none := by
        unfold timeoutErr
        rw [if_pos hlt]
      unfold Authorize
      simp only [hManual, Bool.false_eq_true, if_false, hErr]
      cases pick
      · exact (hIdle none).1
      · exact (hIdle none).2.1
      · exact (hIdle none).2.2
    · intro hge
      have hErr : timeoutErr (authorizeTimeout opts) elapsed = some DeadlineExceeded := by
        unfold timeoutErr
        rw [if_neg (by omega)]
      unfold Authorize
      simp only [hManual, Bool.false_eq_true, if_false, hErr]
      exact ⟨(hIdle _).1, (hIdle _).2.1, (hIdle _).2.2⟩
  · intro hManual serveErr pick
    unfold Authorize
    simp only [hManual, if_true]

/-- The login command (three minutes, server flow): after 179 seconds without a callback
the flow is still waiting, and after 180 seconds it ends with the deadline error. -/
theorem Authorize_deadline_witness :
    (∀ pick : Wakeup,
      Authorize simEnv (worldAt 1000 [] []) demoCreds (loginOptions false 8484) (.ok "RIGHT") none
        [⟨"/favicon.ico", "", []⟩] (179 * Second) pick = none) ∧
    (Authorize simEnv (worldAt 1000 [] []) demoCreds (loginOptions false 8484) (.ok "RIGHT") none
        [⟨"/favicon.ico", "", []⟩] (180 * Second) Wakeup.done).map (fun r => r.1) =
      some (.error (.wrapf "authorization canceled: " DeadlineExceeded "")) :=
  have h := fun elapsed => (Authorize_deadline simEnv (worldAt 1000 [] []) demoCreds
    (loginOptions false 8484) "RIGHT" [⟨"/favicon.ico", "", []⟩] ⟨"/callback", "", []⟩
    elapsed).2.1 rfl rfl rfl (by decide)
  ⟨(h (179 * Second)).1 (by decide), by rw [((h (180 * Second)).2 (by decide)).2.2]; rfl⟩

end Raindrop
